import Mathlib

/-!
# I2C driver of the CH592 broadcaster (`src/APP/app_i2c.c`)

A shallow embedding of the interrupt-driven I2C driver: the shared transaction
context (the file-level `static` variables), the notification handler
`I2C_IRQHandler`, and the blocking master entry points `i2c_write_to` and
`i2c_read_from`.

Modelling conventions.

* The hardware is a log: every call of a peripheral-library routine made by the
  driver is appended to `World.log` with its arguments, in program order.
* A notification is the value returned by `I2C_GetLastEvent()` together with the
  byte that `I2C_ReceiveData()` returns during that handler invocation.
* The handler preempts the foreground code only at the places where the source
  waits: the busy loop of `i2c_write_to` (one notification per iteration) and the
  polling loop of `i2c_read_from` (a batch of notifications during each
  `mDelaymS(1)`, and one batch between the arming and the first test of the loop).
  The arming sequence of either entry point is not interrupted.
* Bytes are natural numbers that the driver only moves around; the 8-bit counters
  and the address byte are reduced modulo 256 where the source computes them.
-/

namespace Broadcaster

/-- The five values of `i2c_state` (`I2C_READY`, `I2C_MRX`, `I2C_MTX`, `I2C_SRX`,
`I2C_STX`). The header that declares them is not among the sources; the driver
only assigns and compares them, so they are taken as five distinct values. -/
inductive I2CState where
  | I2C_READY
  | I2C_MRX
  | I2C_MTX
  | I2C_SRX
  | I2C_STX
deriving DecidableEq, Repr

open I2CState

/-- The numeric constants of `app_i2c.h`, which is not among the sources: the
buffer capacity, the two direction bits and the error codes. Every result is
stated for arbitrary values, under the side conditions it needs. -/
structure Consts where
  I2C_BUFFER_LENGTH : Nat
  I2C_READ : Nat
  I2C_WRITE : Nat
  I2C_NO_MEM : Nat
  I2C_STATE : Nat
  I2C_MT_NACK : Nat
  I2C_ARB_LOST : Nat
  I2C_BUS_ERROR : Nat
  I2C_OVR : Nat
  I2C_PECERR : Nat
  I2C_TIMEOUT : Nat
  I2C_SMBALERT : Nat
deriving DecidableEq, Repr

/-- One instance of the constants, used for concrete evaluations: a capacity of 32
bytes, read bit 1, write bit 0, error codes numbered from 1 in the order in which
the driver names them. -/
def hdr : Consts :=
  { I2C_BUFFER_LENGTH := 32
    I2C_READ := 1
    I2C_WRITE := 0
    I2C_NO_MEM := 1
    I2C_STATE := 2
    I2C_MT_NACK := 3
    I2C_ARB_LOST := 4
    I2C_BUS_ERROR := 5
    I2C_OVR := 6
    I2C_PECERR := 7
    I2C_TIMEOUT := 8
    I2C_SMBALERT := 9 }

/-- The event word returned by `I2C_GetLastEvent()`: one boolean per status bit
that the driver names (`RB_I2C_SB` ... `RB_I2C_SMBALERT` of the first status
register, `RB_I2C_MSL << 16` ... `RB_I2C_DUALF << 16` of the second). The masks are
declared in the absent chip header; each is a single bit, so `event & MASK` is the
test of the field and `event = 0` clears every field. -/
structure Event where
  SB : Bool := false
  ADDR : Bool := false
  BTF : Bool := false
  ADD10 : Bool := false
  STOPF : Bool := false
  RxNE : Bool := false
  TxE : Bool := false
  BERR : Bool := false
  ARLO : Bool := false
  AF : Bool := false
  OVR : Bool := false
  PECERR : Bool := false
  TIMEOUT : Bool := false
  SMBALERT : Bool := false
  MSL : Bool := false
  BUSY : Bool := false
  TRA : Bool := false
  GENCALL : Bool := false
  SMBDEFAULT : Bool := false
  SMBHOST : Bool := false
  DUALF : Bool := false
deriving DecidableEq, Repr

/-- One hardware notification: the event word and the content of the data
register, which is what `I2C_ReceiveData()` returns in this invocation. -/
structure Notification where
  event : Event
  data : Nat := 0
deriving DecidableEq, Repr

/-- The interrupt sources passed to `I2C_ITConfig`. -/
inductive ITSource where
  | I2C_IT_BUF
  | I2C_IT_EVT
  | I2C_IT_ERR
deriving DecidableEq, Repr

/-- The arguments with which the driver calls `I2C_ClearFlag`, as written in the
source. -/
inductive FlagArg where
  | I2C_FLAG_AF
  | RB_I2C_BERR
  | RB_I2C_ARLO
  | RB_I2C_OVR
  | RB_I2C_PECERR
  | RB_I2C_TIMEOUT
  | RB_I2C_SMBALERT
deriving DecidableEq, Repr

/-- The calls that leave the driver: peripheral-library routines, the register
write `R16_I2C_CTRL1 |= RB_I2C_PE`, and the two slave callbacks. -/
inductive HwAction where
  | I2C_Init (address : Nat)
  | PFIC_EnableIRQ
  | I2C_ITConfig (src : ITSource) (en : Bool)
  | I2C_GenerateSTART (en : Bool)
  | I2C_GenerateSTOP (en : Bool)
  | I2C_AcknowledgeConfig (en : Bool)
  | I2C_SendData (byte : Nat)
  | I2C_ReceiveData
  | I2C_ClearFlag (flag : FlagArg)
  | CTRL1_set_PE
  | on_transmit
  | on_receive (buf : List Nat) (len : Nat)
deriving DecidableEq, Repr

open HwAction ITSource FlagArg

/-- The registered `struct i2c_slave_cb`: whether `on_receive` is non-null (its
calls are logged with their arguments, it is an observer of the buffer), and
`on_transmit`, which receives the tx buffer and the current length and returns what
it left in both. -/
structure i2c_slave_cb where
  on_receive : Bool
  on_transmit : Option (List Nat → Nat → List Nat × Nat)

/-- The shared transaction context (the `static` variables of `app_i2c.c`) and the
log of hardware actions. `i2c_send_stop`, `i2c_in_repstart` and `is_nack_sent` hold
only `true` / `false` in the source and are booleans here. Each buffer is a list of
the size of its array. The master receiver stores through its cursor without a
bound test (lines 321 and 362): `out_of_bounds` records that such a store fell
outside `i2c_master_buffer`. That store lands in whatever the linker placed behind
the array, so once `out_of_bounds` is set the other fields no longer describe the
statics of the program. -/
structure World where
  i2c_state : I2CState
  i2c_slave_addr_rw : Nat
  i2c_send_stop : Bool
  i2c_in_repstart : Bool
  i2c_master_buffer : List Nat
  i2c_master_buffer_index : Nat
  i2c_master_buffer_length : Nat
  i2c_slave_txbuffer : List Nat
  i2c_slave_txbuffer_index : Nat
  i2c_slave_txbuffer_length : Nat
  i2c_slave_rxbuffer : List Nat
  i2c_slave_rxbuffer_index : Nat
  is_nack_sent : Bool
  i2c_error : Nat
  out_of_bounds : Bool
  log : List HwAction
deriving DecidableEq, Repr

/-- The context at program start: C zero-initialises the statics
(`I2C_READY` is taken as the value of a zeroed `i2c_state`). -/
def boot (k : Consts) : World :=
  { i2c_state := I2C_READY
    i2c_slave_addr_rw := 0
    i2c_send_stop := false
    i2c_in_repstart := false
    i2c_master_buffer := List.replicate k.I2C_BUFFER_LENGTH 0
    i2c_master_buffer_index := 0
    i2c_master_buffer_length := 0
    i2c_slave_txbuffer := List.replicate k.I2C_BUFFER_LENGTH 0
    i2c_slave_txbuffer_index := 0
    i2c_slave_txbuffer_length := 0
    i2c_slave_rxbuffer := List.replicate k.I2C_BUFFER_LENGTH 0
    i2c_slave_rxbuffer_index := 0
    is_nack_sent := false
    i2c_error := 0
    out_of_bounds := false
    log := [] }

/-- Append one hardware action to the log. -/
def emit (a : HwAction) (w : World) : World :=
  { w with log := w.log ++ [a] }

/-- Append several hardware actions to the log, in order. -/
def emits (as : List HwAction) (w : World) : World :=
  { w with log := w.log ++ as }

/-- The three `I2C_ITConfig` calls that the source always issues together. -/
def itConfigAll (en : Bool) : List HwAction :=
  [I2C_ITConfig I2C_IT_BUF en, I2C_ITConfig I2C_IT_EVT en, I2C_ITConfig I2C_IT_ERR en]

/-- The library routine `memcpy(dst, src, n)` on arrays held as lists: the first `n`
cells of `dst` become the first `n` bytes of `src`. -/
def memcpy (dst src : List Nat) (n : Nat) : List Nat :=
  src.take n ++ dst.drop n

/-- The function `i2c_app_init` (lines 44-60). -/
def i2c_app_init (address : Nat) (w : World) : World :=
  let w := { w with i2c_state := I2C_READY, i2c_send_stop := true, i2c_in_repstart := false }
  emits ([I2C_Init address] ++ itConfigAll true ++ [PFIC_EnableIRQ]) w

/-- The "no stop requested" ending that the handler repeats in three places:
set `i2c_in_repstart`, disable the three interrupt sources, generate a start,
return to `I2C_READY`. -/
def repeatedStart (w : World) : World :=
  let w := { w with i2c_in_repstart := true }
  let w := emits (itConfigAll false) w
  let w := emit (I2C_GenerateSTART true) w
  { w with i2c_state := I2C_READY }

/-- Master transmitter branch of `I2C_IRQHandler` (lines 262-297). -/
def masterTransmitter (k : Consts) (e : Event) (w : World) : World :=
  let w1 :=
    if e.ADDR || e.BTF || e.TxE || e.TRA then
      if w.i2c_master_buffer_index < w.i2c_master_buffer_length then
        emit (I2C_SendData (w.i2c_master_buffer.getD w.i2c_master_buffer_index 0))
          { w with i2c_master_buffer_index := (w.i2c_master_buffer_index + 1) % 256 }
      else if w.i2c_send_stop then
        emit (I2C_GenerateSTOP true) { w with i2c_state := I2C_READY }
      else
        repeatedStart w
    else w
  if e.AF then
    let w2 := emit (I2C_ClearFlag I2C_FLAG_AF) w1
    let w2 := { w2 with i2c_error := k.I2C_MT_NACK % 256, i2c_state := I2C_READY }
    emit (I2C_GenerateSTOP true) w2
  else w1

/-- Master receiver branch of `I2C_IRQHandler` (lines 298-379). The two stores
`i2c_master_buffer[i2c_master_buffer_index++] = I2C_ReceiveData()` have no bound
test: a store at a cursor outside the array sets `out_of_bounds` (the list, which
has no such element, stays as it is). -/
def masterReceiver (n : Notification) (w : World) : World :=
  let e := n.event
  let w1 :=
    if e.ADDR then
      if w.i2c_master_buffer_length ≠ 0 then
        emit (I2C_AcknowledgeConfig true) w
      else
        { emit (I2C_AcknowledgeConfig false) w with is_nack_sent := true }
    else w
  let w2 :=
    if e.RxNE then
      let a := emit I2C_ReceiveData w1
      let a := { a with
        out_of_bounds :=
          a.out_of_bounds || decide (a.i2c_master_buffer.length ≤ a.i2c_master_buffer_index)
        i2c_master_buffer := a.i2c_master_buffer.set a.i2c_master_buffer_index n.data
        i2c_master_buffer_index := (a.i2c_master_buffer_index + 1) % 256 }
      if a.i2c_master_buffer_index < a.i2c_master_buffer_length then
        emit (I2C_AcknowledgeConfig true) a
      else
        let a := emit (I2C_AcknowledgeConfig false) a
        if a.is_nack_sent then
          let a := { a with is_nack_sent := false }
          if a.i2c_send_stop then
            { emit (I2C_GenerateSTOP true) a with i2c_state := I2C_READY }
          else
            repeatedStart a
        else
          { a with is_nack_sent := true }
    else w1
  if e.AF then
    let b := emit (I2C_ClearFlag I2C_FLAG_AF) w2
    let b := emit I2C_ReceiveData b
    let b := { b with
      out_of_bounds :=
        b.out_of_bounds || decide (b.i2c_master_buffer.length ≤ b.i2c_master_buffer_index)
      i2c_master_buffer := b.i2c_master_buffer.set b.i2c_master_buffer_index n.data
      i2c_master_buffer_index := (b.i2c_master_buffer_index + 1) % 256 }
    if b.i2c_send_stop then
      emit (I2C_GenerateSTOP true) { b with i2c_state := I2C_READY }
    else
      repeatedStart b
  else w2

/-- Master role of `I2C_IRQHandler` (lines 254-380). -/
def masterRole (k : Consts) (n : Notification) (w : World) : World :=
  let w := if n.event.SB then emit (I2C_SendData w.i2c_slave_addr_rw) w else w
  if n.event.TRA then masterTransmitter k n.event w else masterReceiver n w

/-- Slave address match of `I2C_IRQHandler` (lines 384-402). -/
def slaveAddressed (cb : Option i2c_slave_cb) (e : Event) (w : World) : World :=
  if e.ADDR then
    if e.TRA || e.TxE then
      let w := { w with
        i2c_state := I2C_STX
        i2c_slave_txbuffer_index := 0
        i2c_slave_txbuffer_length := 0 }
      match cb with
      | some c =>
        match c.on_transmit with
        | some f =>
          let r := f w.i2c_slave_txbuffer w.i2c_slave_txbuffer_length
          emit on_transmit { w with
            i2c_slave_txbuffer := r.1
            i2c_slave_txbuffer_length := r.2 % 256 }
        | none => w
      | none => w
    else
      { w with i2c_state := I2C_SRX, i2c_slave_rxbuffer_index := 0 }
  else w

/-- Slave transmitter branch of `I2C_IRQHandler` (lines 404-432); it returns the
local `event` as well, which the acknowledge-failure path sets to 0. -/
def slaveTransmitter (e : Event) (w : World) : World × Event :=
  let w := emit (I2C_AcknowledgeConfig true) w
  let r : World × Event :=
    if e.AF then
      let w := emits [I2C_ClearFlag I2C_FLAG_AF, I2C_AcknowledgeConfig true] w
      ({ w with i2c_state := I2C_READY }, {})
    else (w, e)
  let w := r.1
  let e := r.2
  if e.BTF || e.TxE then
    if w.i2c_slave_txbuffer_index < w.i2c_slave_txbuffer_length then
      (emit (I2C_SendData (w.i2c_slave_txbuffer.getD w.i2c_slave_txbuffer_index 0))
        { w with i2c_slave_txbuffer_index := (w.i2c_slave_txbuffer_index + 1) % 256 }, e)
    else
      (emit (I2C_SendData 0xff) w, e)
  else (w, e)

/-- Slave receiver branch of `I2C_IRQHandler` (lines 433-471). -/
def slaveReceiver (k : Consts) (cb : Option i2c_slave_cb) (n : Notification) (w : World) :
    World :=
  let e := n.event
  let w1 :=
    if e.RxNE then
      if w.i2c_slave_rxbuffer_index < k.I2C_BUFFER_LENGTH then
        let a := emit I2C_ReceiveData w
        let a := { a with
          i2c_slave_rxbuffer := a.i2c_slave_rxbuffer.set a.i2c_slave_rxbuffer_index n.data
          i2c_slave_rxbuffer_index := (a.i2c_slave_rxbuffer_index + 1) % 256 }
        emit (I2C_AcknowledgeConfig true) a
      else
        emit (I2C_AcknowledgeConfig false) w
    else w
  let w2 :=
    if e.STOPF then
      let a := emit CTRL1_set_PE w1
      let a :=
        match cb with
        | some c =>
          if c.on_receive then
            emit (on_receive a.i2c_slave_rxbuffer a.i2c_slave_rxbuffer_index) a
          else a
        | none => a
      { a with i2c_slave_rxbuffer_index := 0 }
    else w1
  if e.AF then
    emits [I2C_ClearFlag I2C_FLAG_AF, I2C_AcknowledgeConfig true] w2
  else w2

/-- Slave role of `I2C_IRQHandler` (lines 381-472), with the value of the local
`event` at its end. -/
def slaveRole (k : Consts) (cb : Option i2c_slave_cb) (n : Notification) (w : World) :
    World × Event :=
  let w1 := slaveAddressed cb n.event w
  if n.event.TRA then slaveTransmitter n.event w1
  else (slaveReceiver k cb n w1, n.event)

/-- The error flags tested at the end of `I2C_IRQHandler` (lines 474-515). -/
def errorFlags (k : Consts) (e : Event) (w : World) : World :=
  let w :=
    if e.BERR then
      { emits [I2C_ClearFlag RB_I2C_BERR, I2C_GenerateSTOP true] w with
        i2c_error := k.I2C_BUS_ERROR % 256 }
    else w
  let w :=
    if e.ARLO then
      { emit (I2C_ClearFlag RB_I2C_ARLO) w with i2c_error := k.I2C_ARB_LOST % 256 }
    else w
  let w :=
    if e.OVR then
      { emit (I2C_ClearFlag RB_I2C_OVR) w with i2c_error := k.I2C_OVR % 256 }
    else w
  let w :=
    if e.PECERR then
      { emit (I2C_ClearFlag RB_I2C_PECERR) w with i2c_error := k.I2C_PECERR % 256 }
    else w
  let w :=
    if e.TIMEOUT then
      { emit (I2C_ClearFlag RB_I2C_TIMEOUT) w with i2c_error := k.I2C_TIMEOUT % 256 }
    else w
  if e.SMBALERT then
    { emit (I2C_ClearFlag RB_I2C_SMBALERT) w with i2c_error := k.I2C_SMBALERT % 256 }
  else w

/-- The handler `I2C_IRQHandler` (lines 246-518): one invocation, on one notification. -/
def I2C_IRQHandler (k : Consts) (cb : Option i2c_slave_cb) (n : Notification) (w : World) :
    World :=
  let r : World × Event :=
    if n.event.MSL then (masterRole k n w, n.event) else slaveRole k cb n w
  errorFlags k r.2 r.1

/-- The handler run on a sequence of notifications, oldest first. -/
def irqs (k : Consts) (cb : Option i2c_slave_cb) (ns : List Notification) (w : World) :
    World :=
  ns.foldl (fun acc n => I2C_IRQHandler k cb n acc) w

/-- The end of the arming sequence shared by both entry points (lines 96-111 and
154-169): stop generation off, then either the address byte sent directly after a
repeated start, or a start condition. `spins` is the number of times the
`do ... while` test read the busy bit as set. -/
def startOrResend (spins : Nat) (w : World) : World :=
  let w := emit (I2C_GenerateSTOP false) w
  if w.i2c_in_repstart = true then
    let w := { w with i2c_in_repstart := false }
    let w := emits (List.replicate (spins + 1) (I2C_SendData w.i2c_slave_addr_rw)) w
    emits (itConfigAll true) w
  else
    emit (I2C_GenerateSTART true) w

/-- The arming part of `i2c_write_to` (lines 82-111). -/
def writeArm (k : Consts) (addr_7bit : Nat) (data : List Nat) (length : Nat)
    (send_stop : Bool) (spins : Nat) (w : World) : World :=
  let w := { w with
    i2c_state := I2C_MTX
    i2c_send_stop := send_stop
    i2c_error := 0
    i2c_master_buffer_index := 0
    i2c_master_buffer_length := length
    i2c_master_buffer := memcpy w.i2c_master_buffer data length
    i2c_slave_addr_rw := ((k.I2C_WRITE % 256) ||| (addr_7bit <<< 1)) % 256 }
  startOrResend spins w

/-- The busy loop `while (wait && i2c_state == I2C_MTX)` of `i2c_write_to`: one
pending notification is served per iteration; the notifications not consumed are
returned. No result when the loop is still waiting after the last one. -/
def writeWait (k : Consts) (cb : Option i2c_slave_cb) (wait : Bool) :
    List Notification → World → Option (World × List Notification)
  | [], w => if wait && decide (w.i2c_state = I2C_MTX) then none else some (w, [])
  | n :: ns, w =>
    if wait && decide (w.i2c_state = I2C_MTX) then
      writeWait k cb wait ns (I2C_IRQHandler k cb n w)
    else some (w, n :: ns)

/-- The function `i2c_write_to` (lines 67-122): the result, the context afterwards
and the notifications that had not been served when it returned. -/
def i2c_write_to (k : Consts) (cb : Option i2c_slave_cb) (addr_7bit : Nat)
    (data : List Nat) (length : Nat) (wait send_stop : Bool) (spins : Nat)
    (pending : List Notification) (w : World) : Option (Int × World × List Notification) :=
  if length > k.I2C_BUFFER_LENGTH then some (-(k.I2C_NO_MEM : Int), w, pending)
  else if w.i2c_state ≠ I2C_READY then some (-(k.I2C_STATE : Int), w, pending)
  else if length = 0 then some (0, w, pending)
  else
    match writeWait k cb wait pending (writeArm k addr_7bit data length send_stop spins w) with
    | none => none
    | some (w1, rest) =>
      if w1.i2c_error ≠ 0 then some (-(w1.i2c_error : Int), w1, rest)
      else some (0, w1, rest)

/-- The arming part of `i2c_read_from` (lines 142-169). -/
def readArm (k : Consts) (addr_7bit : Nat) (length : Nat) (send_stop : Bool)
    (spins : Nat) (w : World) : World :=
  let w := { w with
    i2c_state := I2C_MRX
    i2c_send_stop := send_stop
    i2c_error := 0
    i2c_master_buffer_index := 0
    i2c_master_buffer_length := (length - 1) % 256
    i2c_slave_addr_rw := ((k.I2C_READ % 256) ||| (addr_7bit <<< 1)) % 256 }
  startOrResend spins w

/-- The polling loop of `i2c_read_from` (lines 172-178): `to_` is the counter `to`, each
element of the list is what arrives during one `mDelaymS(1)`. It returns the
context and the counter at the exit of the loop; no result when the loop is still
waiting after the last batch, or when `to++` would leave the range of `int`. -/
def readLoop (k : Consts) (cb : Option i2c_slave_cb) (forever : Bool) (timeout : Int) :
    Int → List (List Notification) → World → Option (World × Int)
  | to_, [], w => if w.i2c_state = I2C_MRX then none else some (w, to_)
  | to_, b :: rest, w =>
    if w.i2c_state = I2C_MRX then
      if to_ ≥ 2147483647 then none
      else
        let w1 := irqs k cb b w
        if !forever && decide (to_ + 1 ≥ timeout) then some (w1, to_ + 1)
        else readLoop k cb forever timeout (to_ + 1) rest w1
    else some (w, to_)

/-- The end of `i2c_read_from` (lines 180-186): the count returned and the caller's
buffer after the copy. -/
def readFinish (data : List Nat) (length : Nat) (w : World) : Int × List Nat :=
  let len := if w.i2c_master_buffer_index < length then w.i2c_master_buffer_index else length
  ((len : Int), memcpy data w.i2c_master_buffer len)

/-- The function `i2c_read_from` (lines 124-187): the result, the buffer of the
caller and the context afterwards. `pre` arrives between the arming and the first
test of the loop, `polls` during the successive delays. -/
def i2c_read_from (k : Consts) (cb : Option i2c_slave_cb) (addr_7bit : Nat)
    (data : List Nat) (length : Nat) (send_stop : Bool) (timeout : Int) (spins : Nat)
    (pre : List Notification) (polls : List (List Notification)) (w : World) :
    Option (Int × List Nat × World) :=
  let forever := decide (timeout = -1)
  if length > k.I2C_BUFFER_LENGTH then some (-(k.I2C_NO_MEM : Int), data, w)
  else if w.i2c_state ≠ I2C_READY then some (-(k.I2C_STATE : Int), data, w)
  else if length = 0 then some (0, data, w)
  else
    match readLoop k cb forever timeout 0 polls
        (irqs k cb pre (readArm k addr_7bit length send_stop spins w)) with
    | none => none
    | some (w1, _) =>
      let r := readFinish data length w1
      some (r.1, r.2, w1)

/-! ## Vocabulary of the statements

Kinds of notification, named after the flags they carry. Each predicate fixes the
flags that the handler reads on the path concerned and leaves the others free. -/

/-- No cross-cutting error flag is set. -/
def Event.noError (e : Event) : Bool :=
  !e.BERR && !e.ARLO && !e.OVR && !e.PECERR && !e.TIMEOUT && !e.SMBALERT

/-- Start-sent, master role, nothing else for the receiver or the transmitter
branch to act on. -/
def Event.isStartSent (e : Event) : Bool :=
  e.MSL && e.SB && !e.TRA && !e.ADDR && !e.RxNE && !e.AF && e.noError

/-- Master, transmitter role, without start-sent, acknowledge-failure or error
flags; address-matched, byte-transfer-complete and transmit-register-empty are
free. -/
def Event.isMasterTx (e : Event) : Bool :=
  e.MSL && e.TRA && !e.SB && !e.AF && e.noError

/-- Address-matched, master, receiver role. -/
def Event.isMasterRxAddr (e : Event) : Bool :=
  e.MSL && !e.TRA && !e.SB && e.ADDR && !e.RxNE && !e.AF && e.noError

/-- Receive-data-available, master, receiver role. -/
def Event.isMasterRxData (e : Event) : Bool :=
  e.MSL && !e.TRA && !e.SB && !e.ADDR && e.RxNE && !e.AF && e.noError

/-- Stop-detected, slave, receiver role. -/
def Event.isSlaveStop (e : Event) : Bool :=
  !e.MSL && !e.ADDR && !e.TRA && !e.RxNE && e.STOPF && !e.AF && e.noError

/-- Address-matched, slave, transmitter role; byte-transfer-complete and
transmit-register-empty are free. -/
def Event.isSlaveTxAddr (e : Event) : Bool :=
  !e.MSL && e.ADDR && e.TRA && !e.AF && e.noError

/-- Slave, transmitter role, byte-transfer-complete or transmit-register-empty, no
acknowledge-failure. -/
def Event.isSlaveTxData (e : Event) : Bool :=
  !e.MSL && !e.ADDR && e.TRA && (e.BTF || e.TxE) && !e.AF && e.noError

/-- The context after a write has been armed and served one start-sent and
`len + 1` transmitter notifications: the address byte and the data bytes have been
sent, then the transaction has been ended with a stop or a repeated start. -/
def writeDone (wA : World) (data : List Nat) : World :=
  let w1 : World := { wA with
    i2c_master_buffer_index := wA.i2c_master_buffer_length
    log := wA.log ++ I2C_SendData wA.i2c_slave_addr_rw :: data.map I2C_SendData }
  if wA.i2c_send_stop then emit (I2C_GenerateSTOP true) { w1 with i2c_state := I2C_READY }
  else repeatedStart w1

/-- The invariant of a master read of `L + 1` bytes between two receive
notifications: the state is `I2C_MRX`, the armed length is `L`, the cursor has not
passed `L`, and the no-ack flag is set exactly when the cursor has reached `L`. -/
def RxInv (cap L : Nat) (w : World) : Prop :=
  w.i2c_state = I2C_MRX ∧ w.i2c_master_buffer_length = L ∧
  w.i2c_master_buffer_index ≤ L ∧
  w.is_nack_sent = decide (w.i2c_master_buffer_index = L) ∧
  w.i2c_master_buffer.length = cap

/-- The bytes handed to `I2C_SendData` in a log, in order. -/
def sentBytes : List HwAction → List Nat
  | [] => []
  | I2C_SendData b :: rest => b :: sentBytes rest
  | _ :: rest => sentBytes rest

/-- The calls of `on_receive` in a log, with their arguments, in order. -/
def receiveCalls : List HwAction → List (List Nat × Nat)
  | [] => []
  | on_receive buf len :: rest => (buf, len) :: receiveCalls rest
  | _ :: rest => receiveCalls rest

/-- A start-sent notification. -/
def nStart : Notification := { event := { MSL := true, BUSY := true, SB := true } }

/-- A master transmitter notification: transmit register empty. -/
def nTx : Notification := { event := { MSL := true, BUSY := true, TRA := true, TxE := true } }

/-- A master transmitter notification reporting acknowledge-failure. -/
def nTxNack : Notification := { event := { MSL := true, BUSY := true, TRA := true, AF := true } }

/-- A master receiver address-matched notification. -/
def nRxAddr : Notification := { event := { MSL := true, BUSY := true, ADDR := true } }

/-- A master receiver notification delivering the byte `b`. -/
def nRx (b : Nat) : Notification :=
  { event := { MSL := true, BUSY := true, RxNE := true }, data := b }

/-- A slave address-matched notification, receiver role. -/
def nSlaveRxAddr : Notification := { event := { BUSY := true, ADDR := true } }

/-- A slave receiver notification delivering the byte `b`. -/
def nSlaveRx (b : Nat) : Notification := { event := { BUSY := true, RxNE := true }, data := b }

/-- A slave stop-detected notification. -/
def nSlaveStop : Notification := { event := { STOPF := true } }

/-- A slave address-matched notification, transmitter role, with the transmit
register empty. -/
def nSlaveTxAddr : Notification :=
  { event := { BUSY := true, TRA := true, TxE := true, ADDR := true } }

/-- A slave transmitter notification: byte transfer complete. -/
def nSlaveTx : Notification :=
  { event := { BUSY := true, TRA := true, TxE := true, BTF := true } }

/-- Callbacks with `on_receive` registered and an `on_transmit` that supplies the
two bytes 0xAB, 0xCD. -/
def cbExample : i2c_slave_cb :=
  { on_receive := true
    on_transmit := some (fun buf _ => ([0xAB, 0xCD] ++ buf.drop 2, 2)) }

/-- The context after `i2c_app_init(0x01)` at program start, with the constants
`hdr`. -/
def w0 : World := i2c_app_init 1 (boot hdr)

/-- The context in which a one-byte write to address 0x40 has been armed and not yet
served: the state is `I2C_MTX`. -/
def inFlight : World := writeArm hdr 0x40 [0xE3] 1 true 0 w0

/-- The context in which a three-byte read from address 0x40 has been armed and not
yet served: the state is `I2C_MRX`. -/
def armedRead : World := readArm hdr 0x40 3 true 0 w0

/-! ## Vocabulary of the statements on single invocations -/

/-- The hardware actions added to the log between the context `w` and a later
context `w1`. -/
def newLog (w w1 : World) : List HwAction := w1.log.drop w.log.length

/-- The role-specific part of `I2C_IRQHandler` (lines 254-472) with the value of the
local `event` at its end; `I2C_IRQHandler` is the error-flag tests applied to it. -/
def roleStep (k : Consts) (cb : Option i2c_slave_cb) (n : Notification) (w : World) :
    World × Event :=
  if n.event.MSL then (masterRole k n w, n.event) else slaveRole k cb n w

/-- The hardware actions of the error-flag tests (lines 474-515) for an event word,
in program order. -/
def errorActions (e : Event) : List HwAction :=
  (if e.BERR then [I2C_ClearFlag RB_I2C_BERR, I2C_GenerateSTOP true] else []) ++
  (if e.ARLO then [I2C_ClearFlag RB_I2C_ARLO] else []) ++
  (if e.OVR then [I2C_ClearFlag RB_I2C_OVR] else []) ++
  (if e.PECERR then [I2C_ClearFlag RB_I2C_PECERR] else []) ++
  (if e.TIMEOUT then [I2C_ClearFlag RB_I2C_TIMEOUT] else []) ++
  (if e.SMBALERT then [I2C_ClearFlag RB_I2C_SMBALERT] else [])

/-- Stated from the claims: the value of an 8-bit error slot that held `old` after
the codes of the set error flags have been written to it in the order bus-error,
arbitration-lost, overrun, protocol-check-error, timeout, alert (the last set flag
wins). -/
def lastSetFlagCode (k : Consts) (e : Event) (old : Nat) : Nat :=
  if e.SMBALERT then k.I2C_SMBALERT % 256
  else if e.TIMEOUT then k.I2C_TIMEOUT % 256
  else if e.PECERR then k.I2C_PECERR % 256
  else if e.OVR then k.I2C_OVR % 256
  else if e.ARLO then k.I2C_ARB_LOST % 256
  else if e.BERR then k.I2C_BUS_ERROR % 256
  else old

/-- Slave role, transmitter role and acknowledge-failure together: the one kind of
notification on which the handler zeroes its local `event` (line 418). -/
def Event.isSlaveTxNack (e : Event) : Bool := !e.MSL && e.TRA && e.AF

/-! ## The branches of the handler as successive blocks

Each branch of `I2C_IRQHandler` is a sequence of `if` blocks; the definitions below
name the blocks, and the branch is their composition. -/

/-- Block of the master transmitter: data or end of transfer (lines 265-287). -/
def mtSend (e : Event) (w : World) : World :=
  if e.ADDR || e.BTF || e.TxE || e.TRA then
    if w.i2c_master_buffer_index < w.i2c_master_buffer_length then
      emit (I2C_SendData (w.i2c_master_buffer.getD w.i2c_master_buffer_index 0))
        { w with i2c_master_buffer_index := (w.i2c_master_buffer_index + 1) % 256 }
    else if w.i2c_send_stop then
      emit (I2C_GenerateSTOP true) { w with i2c_state := I2C_READY }
    else
      repeatedStart w
  else w

/-- Block of the master transmitter: acknowledge-failure (lines 290-297). -/
def mtNack (k : Consts) (e : Event) (w1 : World) : World :=
  if e.AF then
    let w2 := emit (I2C_ClearFlag I2C_FLAG_AF) w1
    let w2 := { w2 with i2c_error := k.I2C_MT_NACK % 256, i2c_state := I2C_READY }
    emit (I2C_GenerateSTOP true) w2
  else w1

/-- Block of the master receiver: address sent (lines 303-316). -/
def mrAddr (e : Event) (w : World) : World :=
  if e.ADDR then
    if w.i2c_master_buffer_length ≠ 0 then
      emit (I2C_AcknowledgeConfig true) w
    else
      { emit (I2C_AcknowledgeConfig false) w with is_nack_sent := true }
  else w

/-- Block of the master receiver: data received (lines 319-356), with the store
through the unchecked cursor. -/
def mrData (n : Notification) (w1 : World) : World :=
  if n.event.RxNE then
    let a := emit I2C_ReceiveData w1
    let a := { a with
      out_of_bounds :=
        a.out_of_bounds || decide (a.i2c_master_buffer.length ≤ a.i2c_master_buffer_index)
      i2c_master_buffer := a.i2c_master_buffer.set a.i2c_master_buffer_index n.data
      i2c_master_buffer_index := (a.i2c_master_buffer_index + 1) % 256 }
    if a.i2c_master_buffer_index < a.i2c_master_buffer_length then
      emit (I2C_AcknowledgeConfig true) a
    else
      let a := emit (I2C_AcknowledgeConfig false) a
      if a.is_nack_sent then
        let a := { a with is_nack_sent := false }
        if a.i2c_send_stop then
          { emit (I2C_GenerateSTOP true) a with i2c_state := I2C_READY }
        else
          repeatedStart a
      else
        { a with is_nack_sent := true }
  else w1

/-- Block of the master receiver: nack received (lines 359-378), with the store
through the unchecked cursor before the test of `i2c_send_stop`. -/
def mrNack (n : Notification) (w2 : World) : World :=
  if n.event.AF then
    let b := emit (I2C_ClearFlag I2C_FLAG_AF) w2
    let b := emit I2C_ReceiveData b
    let b := { b with
      out_of_bounds :=
        b.out_of_bounds || decide (b.i2c_master_buffer.length ≤ b.i2c_master_buffer_index)
      i2c_master_buffer := b.i2c_master_buffer.set b.i2c_master_buffer_index n.data
      i2c_master_buffer_index := (b.i2c_master_buffer_index + 1) % 256 }
    if b.i2c_send_stop then
      emit (I2C_GenerateSTOP true) { b with i2c_state := I2C_READY }
    else
      repeatedStart b
  else w2

/-- Block of the slave transmitter: nack received (lines 409-419), with the local
`event` afterwards. -/
def stNack (e : Event) (w : World) : World × Event :=
  if e.AF then
    let w := emits [I2C_ClearFlag I2C_FLAG_AF, I2C_AcknowledgeConfig true] w
    ({ w with i2c_state := I2C_READY }, {})
  else (w, e)

/-- Block of the slave transmitter: next byte or filler (lines 421-432). -/
def stSend (r : World × Event) : World × Event :=
  if r.2.BTF || r.2.TxE then
    if r.1.i2c_slave_txbuffer_index < r.1.i2c_slave_txbuffer_length then
      (emit (I2C_SendData (r.1.i2c_slave_txbuffer.getD r.1.i2c_slave_txbuffer_index 0))
        { r.1 with i2c_slave_txbuffer_index := (r.1.i2c_slave_txbuffer_index + 1) % 256 }, r.2)
    else
      (emit (I2C_SendData 0xff) r.1, r.2)
  else (r.1, r.2)

/-- Block of the slave receiver: data received (lines 437-449). -/
def srData (k : Consts) (n : Notification) (w : World) : World :=
  if n.event.RxNE then
    if w.i2c_slave_rxbuffer_index < k.I2C_BUFFER_LENGTH then
      let a := emit I2C_ReceiveData w
      let a := { a with
        i2c_slave_rxbuffer := a.i2c_slave_rxbuffer.set a.i2c_slave_rxbuffer_index n.data
        i2c_slave_rxbuffer_index := (a.i2c_slave_rxbuffer_index + 1) % 256 }
      emit (I2C_AcknowledgeConfig true) a
    else
      emit (I2C_AcknowledgeConfig false) w
  else w

/-- Block of the slave receiver: stop detected (lines 451-463). -/
def srStop (cb : Option i2c_slave_cb) (e : Event) (w1 : World) : World :=
  if e.STOPF then
    let a := emit CTRL1_set_PE w1
    let a :=
      match cb with
      | some c =>
        if c.on_receive then
          emit (on_receive a.i2c_slave_rxbuffer a.i2c_slave_rxbuffer_index) a
        else a
      | none => a
    { a with i2c_slave_rxbuffer_index := 0 }
  else w1

/-- Block of the slave receiver: acknowledge-failure (lines 465-470). -/
def srNack (e : Event) (w2 : World) : World :=
  if e.AF then
    emits [I2C_ClearFlag I2C_FLAG_AF, I2C_AcknowledgeConfig true] w2
  else w2

/-- What a block of the master role leaves alone: the slave cursors, the slave tx
length, the slave rx buffer, the armed length of the master buffer and the stop
request; the log only grows. -/
def MasterFrame (w w1 : World) : Prop :=
  w1.i2c_slave_txbuffer_index = w.i2c_slave_txbuffer_index ∧
  w1.i2c_slave_txbuffer_length = w.i2c_slave_txbuffer_length ∧
  w1.i2c_slave_rxbuffer_index = w.i2c_slave_rxbuffer_index ∧
  w1.i2c_slave_rxbuffer = w.i2c_slave_rxbuffer ∧
  w1.i2c_master_buffer_length = w.i2c_master_buffer_length ∧
  w1.i2c_send_stop = w.i2c_send_stop ∧
  w.log <+: w1.log

/-- Block of the master role: start condition sent, send address (lines 255-259). -/
def sbStep (n : Notification) (w : World) : World :=
  if n.event.SB then emit (I2C_SendData w.i2c_slave_addr_rw) w else w

/-- The bounds of the three transaction buffers that hold in every context: the
slave tx cursor is at most the slave tx length, which is at most the capacity; the
slave rx cursor is at most the capacity; the armed length of the master buffer is at
most the capacity. -/
def BufInv (k : Consts) (w : World) : Prop :=
  w.i2c_slave_txbuffer_index ≤ w.i2c_slave_txbuffer_length ∧
  w.i2c_slave_txbuffer_length ≤ k.I2C_BUFFER_LENGTH ∧
  w.i2c_slave_rxbuffer_index ≤ k.I2C_BUFFER_LENGTH ∧
  w.i2c_master_buffer_length ≤ k.I2C_BUFFER_LENGTH

/-- The registered `on_transmit`, if any, always reports a length within the
capacity. -/
def cbBounded (k : Consts) (cb : Option i2c_slave_cb) : Prop :=
  ∀ c, cb = some c → ∀ f, c.on_transmit = some f →
    ∀ (buf : List Nat) (len : Nat), (f buf len).2 ≤ k.I2C_BUFFER_LENGTH

/-- The log only grows from `w` to `w1` and no stop condition is generated in
between. -/
def NoStop (w w1 : World) : Prop :=
  w.log <+: w1.log ∧ I2C_GenerateSTOP true ∉ newLog w w1

/-- A slave transmitter notification with acknowledge-failure and bus-error
together. -/
def nSlaveTxNackBerr : Notification :=
  { event := { BUSY := true, TRA := true, AF := true, BERR := true } }

/-- A slave receiver notification with acknowledge-failure. -/
def nSlaveRxNack : Notification := { event := { BUSY := true, AF := true } }

/-- A master receiver notification with acknowledge-failure, delivering `b`. -/
def nRxNack (b : Nat) : Notification :=
  { event := { MSL := true, BUSY := true, AF := true }, data := b }

/-- A master notification that carries only bus-error. -/
def nBusError : Notification := { event := { MSL := true, BUSY := true, BERR := true } }

/-- A master transmitter notification with arbitration-lost. -/
def nTxArlo : Notification :=
  { event := { MSL := true, BUSY := true, TRA := true, TxE := true, ARLO := true } }

/-- The state and the callback log between two contexts: the state is the same, the
log only grows and `on_transmit` is not invoked in between. -/
def SameRole (w w1 : World) : Prop :=
  w1.i2c_state = w.i2c_state ∧ w.log <+: w1.log ∧ on_transmit ∉ newLog w w1

/-- A slave address-matched notification with transmit-register-empty and without
transmitter role. -/
def nSlaveAddrTxE : Notification := { event := { BUSY := true, ADDR := true, TxE := true } }

/-- The context after a slave receiver session has stored one byte: the rx cursor
is 1. -/
def oneByteIn : World := irqs hdr (some cbExample) [nSlaveRxAddr, nSlaveRx 1] w0

/-- A small instance of the constants, with a capacity of 2 bytes, used to evaluate
an overflowing slave session. -/
def hdr2 : Consts := { hdr with I2C_BUFFER_LENGTH := 2 }

/-- The context at program start after `i2c_app_init(0x01)`, with the constants
`hdr2`. -/
def w2 : World := i2c_app_init 1 (boot hdr2)

/-- The context, with the constants `hdr2` (capacity 2), after a complete two-byte
read from address 0x40: the master cursor is at the capacity. -/
def afterFullRead : World :=
  irqs hdr2 none [nStart, nRxAddr, nRx 1, nRx 2] (readArm hdr2 0x40 2 true 0 w2)

/-- The context after a one-byte read from address 0x40 in which the address phase
was followed by an acknowledge-failure notification. -/
def afterNackRead : World :=
  irqs hdr none [nStart, nRxAddr, nRxNack 8] (readArm hdr 0x40 1 true 0 w0)

/-- The context after a slave receiver session of one byte, closed by a stop. -/
def afterSlaveSession : World :=
  irqs hdr (some cbExample) [nSlaveRxAddr, nSlaveRx 1, nSlaveStop] w0

/-- The context of the one-byte write in flight after its start-sent and first
transmitter notification: the byte has been sent and the cursor is at the length. -/
def lastByteSent : World := irqs hdr none [nStart, nTx] inFlight

/-! ## The SHT20 sensor code of `app_i2c.c` (lines 520-621) -/

/-- One round of the inner loop of `_crc8` (lines 542-545) on the 8-bit `crc`:
the assignment truncates to 8 bits. -/
def crcRound (crc : Nat) : Nat :=
  if crc &&& 0x80 ≠ 0 then ((crc <<< 1) ^^^ 0x131) % 256 else (crc <<< 1) % 256

/-- The body of the outer loop of `_crc8` (lines 540-546) for the byte `b`:
`crc ^= data[i]`, then eight rounds. -/
def crcByte (crc b : Nat) : Nat := Nat.iterate crcRound 8 ((crc ^^^ b) % 256)

/-- The function `_crc8` (lines 536-549) on the first `len` bytes of `data`. -/
def _crc8 (data : List Nat) (len : Nat) : Nat := (data.take len).foldl crcByte 0

/-- The conversion to `int16_t`, by two's complement wrap-around. -/
def int16_cast (x : Int) : Int := (x + 32768) % 65536 - 32768

/-- The value of a 32-bit `int` expression, by two's complement wrap-around. -/
def int32_cast (x : Int) : Int := (x + 2147483648) % 4294967296 - 2147483648

/-- The 16-bit raw value of a frame (lines 584-585 and 613-614): the first two bytes,
high byte first, and-ed with `~0x0003` in 16 bits. -/
def sht20_raw (buf : List Nat) : Nat :=
  ((((buf.getD 0 0 % 256) <<< 8) ||| (buf.getD 1 0 % 256)) % 65536) &&& 0xFFFC

/-- The temperature stored from the raw value (line 588), in 0.01 degree Celsius. -/
def sht20_temp (raw : Nat) : Int :=
  int16_cast ((int32_cast ((raw : Int) * 17572) >>> (16 : Nat)) - 4685)

/-- The humidity stored from the raw value (line 617), in 0.01 percent. -/
def sht20_humi (raw : Nat) : Int :=
  int16_cast ((int32_cast ((raw : Int) * 12500) >>> (16 : Nat)) - 600)

/-- The function `sht20_read_temp_humi` (lines 557-621). The results of its four
driver calls are parameters: `wr1`, `wr2` are what the two `i2c_write_to` return,
`rd1`, `rd2` what the two `i2c_read_from` return, `buf1`, `buf2` the content of
`buf` after each read. `temp` and `humi` are what the two output locations held
before. It returns the result and the content of the two output locations. -/
def sht20_read_temp_humi (wr1 rd1 : Int) (buf1 : List Nat) (wr2 rd2 : Int)
    (buf2 : List Nat) (temp humi : Int) : Int × Int × Int :=
  if wr1 ≠ 0 then (-1, temp, humi)
  else if rd1 ≠ 3 then (-2, temp, humi)
  else if _crc8 buf1 2 ≠ buf1.getD 2 0 then (-3, temp, humi)
  else
    let temp := sht20_temp (sht20_raw buf1)
    if wr2 ≠ 0 then (-4, temp, humi)
    else if rd2 ≠ 3 then (-5, temp, humi)
    else if _crc8 buf2 2 ≠ buf2.getD 2 0 then (-6, temp, humi)
    else (0, temp, sht20_humi (sht20_raw buf2))

/-! ## The advertising payload of `broadcaster.c` -/

/-- Index of the length byte of the name part (`#define NAME_PKG_LEN_IDX 3`). -/
def NAME_PKG_LEN_IDX : Nat := 3

/-- Index of the type byte of the name part (`#define NAME_PKG_TYPE_IDX 4`). -/
def NAME_PKG_TYPE_IDX : Nat := 4

/-- Index of the first name byte (`#define NAME_PKG_DATA_IDX 5`). -/
def NAME_PKG_DATA_IDX : Nat := 5

/-- The battery index (`#define BTH_PKG_BAT_IDX 23`). -/
def BTH_PKG_BAT_IDX : Nat := 23

/-- The temperature index (`#define BTH_PKG_TEMP_IDX 25`). -/
def BTH_PKG_TEMP_IDX : Nat := 25

/-- The humidity index (`#define BTH_PKG_HUMID_IDX 27`). -/
def BTH_PKG_HUMID_IDX : Nat := 27

/-- The initial value of the array `advertData` (lines 50-64), 31 bytes. The flags
type and the flags value are constants of an absent header and are parameters. -/
def advertData (GAP_ADTYPE_FLAGS flags : Nat) : List Nat :=
  [0x02, GAP_ADTYPE_FLAGS, flags,
   0x0D, 0x09,
   0x31, 0x39, 0x25, 0x2F, 0x31, 0x31, 0x43, 0x2F, 0x48, 0x3A, 0x31, 0x31, 0x25,
   0x0D, 0x16,
   0xD2, 0xFC,
   0x40,
   0x01, 0x00,
   0x02, 0x00, 0x00,
   0x03, 0x00, 0x00]

/-- The function `update_advert_device_name` (lines 156-185) on the array
`advertData`. `name_buffer` holds the characters that `snprintf` left before the
terminator, so `strlen` is its length. -/
def update_advert_device_name (name_buffer : List Nat)
    (battery_percent temperature humidity : Nat) (ad : List Nat) : List Nat :=
  let name_len := if name_buffer.length > 13 then 13 else name_buffer.length
  let ad := ad.set NAME_PKG_LEN_IDX 13
  let ad := ad.set NAME_PKG_TYPE_IDX 0x09
  let ad := (List.range name_len).foldl
    (fun a i => a.set (NAME_PKG_DATA_IDX + i) (name_buffer.getD i 0)) ad
  let ad := (List.range' name_len (13 - name_len)).foldl
    (fun a i => a.set (NAME_PKG_DATA_IDX + i) 0x20) ad
  let ad := ad.set BTH_PKG_BAT_IDX (battery_percent % 256)
  let ad := ad.set BTH_PKG_TEMP_IDX (temperature &&& 0xFF)
  let ad := ad.set (BTH_PKG_TEMP_IDX + 1) ((temperature >>> 8) &&& 0xFF)
  let ad := ad.set BTH_PKG_HUMID_IDX (humidity &&& 0xFF)
  ad.set (BTH_PKG_HUMID_IDX + 1) ((humidity >>> 8) &&& 0xFF)

/-- The battery percentage computed in `update_advert_data` (lines 203-206) from
the 16-bit sample `bat`: the subtraction and the division are done in `int`, the
division truncates toward zero, the cast keeps the low 8 bits. -/
def battery_percent (bat : Nat) : Nat :=
  let p := (((((bat % 65536 : Nat) : Int) - 3100).tdiv 8) % 256).toNat
  if p > 100 then 100 else p

/-- The function `update_advert_data` (lines 191-221) on the array `advertData`.
`sht20` is what `sht20_read_temp_humi` returned and left in the two locations (read
back as `uint16_t`), `sample` what `sample_battery_voltage` returned, `name_buffer`
what `snprintf` produced. -/
def update_advert_data (sht20 : Int × Int × Int) (sample : Nat) (name_buffer : List Nat)
    (ad : List Nat) : List Nat :=
  let sht20_ret : Nat := if sht20.1 ≠ 0 then 0 else 1
  let temp := if sht20_ret = 0 then 0xffff else (sht20.2.1 % 65536).toNat
  let humid := if sht20_ret = 0 then 0xffff else (sht20.2.2 % 65536).toNat
  update_advert_device_name name_buffer (battery_percent sample) temp humid ad

/-- The flags that make a notification carry the cross-cutting error flags only:
none of start-sent, address-matched, byte-transfer-complete,
receive-data-available, transmit-register-empty, stop-detected,
acknowledge-failure, transmitter-role. -/
def Event.isErrorOnly (e : Event) : Bool :=
  !e.SB && !e.ADDR && !e.BTF && !e.RxNE && !e.TxE && !e.STOPF && !e.AF && !e.TRA

/-- A master notification with bus-error and timeout and nothing else. -/
def nBerrTimeout : Notification :=
  { event := { MSL := true, BUSY := true, BERR := true, TIMEOUT := true } }

/-- The name that `snprintf` produces for 50 percent, 25.00 degrees and 60.00
percent: the characters of `50%/25C/60%`. -/
def nameExample : List Nat :=
  [0x35, 0x30, 0x25, 0x2F, 0x32, 0x35, 0x43, 0x2F, 0x36, 0x30, 0x25]

/-! ## Lemmas and theorems -/

theorem irqs_nil (k : Consts) (cb : Option i2c_slave_cb) (w : World) : irqs k cb [] w = w := rfl

theorem irqs_cons (k : Consts) (cb : Option i2c_slave_cb) (n : Notification)
    (ns : List Notification) (w : World) :
    irqs k cb (n :: ns) w = irqs k cb ns (I2C_IRQHandler k cb n w) := rfl

theorem irqs_append (k : Consts) (cb : Option i2c_slave_cb) (xs ys : List Notification)
    (w : World) : irqs k cb (xs ++ ys) w = irqs k cb ys (irqs k cb xs w) := by
  simp [irqs, List.foldl_append]

theorem errorFlags_noError (k : Consts) (e : Event) (w : World) (h : e.noError = true) :
    errorFlags k e w = w := by
  simp only [Event.noError, Bool.and_eq_true, Bool.not_eq_true'] at h
  obtain ⟨⟨⟨⟨⟨h1, h2⟩, h3⟩, h4⟩, h5⟩, h6⟩ := h
  simp [errorFlags, h1, h2, h3, h4, h5, h6]

theorem handler_startSent (k : Consts) (cb : Option i2c_slave_cb) (n : Notification)
    (w : World) (h : n.event.isStartSent = true) :
    I2C_IRQHandler k cb n w = emit (I2C_SendData w.i2c_slave_addr_rw) w := by
  simp only [Event.isStartSent, Bool.and_eq_true, Bool.not_eq_true'] at h
  obtain ⟨⟨⟨⟨⟨⟨h1, h2⟩, h3⟩, h4⟩, h5⟩, h6⟩, h7⟩ := h
  simp [I2C_IRQHandler, masterRole, masterReceiver, h1, h2, h3, h4, h5, h6,
    errorFlags_noError k _ _ h7]

theorem handler_masterTx (k : Consts) (cb : Option i2c_slave_cb) (n : Notification)
    (w : World) (h : n.event.isMasterTx = true) :
    I2C_IRQHandler k cb n w =
      if w.i2c_master_buffer_index < w.i2c_master_buffer_length then
        emit (I2C_SendData (w.i2c_master_buffer.getD w.i2c_master_buffer_index 0))
          { w with i2c_master_buffer_index := (w.i2c_master_buffer_index + 1) % 256 }
      else if w.i2c_send_stop then
        emit (I2C_GenerateSTOP true) { w with i2c_state := I2C_READY }
      else
        repeatedStart w := by
  simp only [Event.isMasterTx, Bool.and_eq_true, Bool.not_eq_true'] at h
  obtain ⟨⟨⟨⟨h1, h2⟩, h3⟩, h4⟩, h5⟩ := h
  simp [I2C_IRQHandler, masterRole, masterTransmitter, h1, h2, h3, h4,
    errorFlags_noError k _ _ h5]

theorem writeWait_nowait (k : Consts) (cb : Option i2c_slave_cb) (ns : List Notification)
    (w : World) : writeWait k cb false ns w = some (w, ns) := by
  cases ns <;> simp [writeWait]

theorem writeWait_done (k : Consts) (cb : Option i2c_slave_cb) (wait : Bool)
    (ns : List Notification) (w : World) (h : w.i2c_state ≠ I2C_MTX) :
    writeWait k cb wait ns w = some (w, ns) := by
  cases ns <;> simp [writeWait, h]

theorem writeWait_run (k : Consts) (cb : Option i2c_slave_cb) :
    ∀ (ns rest : List Notification) (w : World),
      (∀ m, m < ns.length → (irqs k cb (ns.take m) w).i2c_state = I2C_MTX) →
      (irqs k cb ns w).i2c_state ≠ I2C_MTX →
      writeWait k cb true (ns ++ rest) w = some (irqs k cb ns w, rest)
  | [], rest, w, _, hend => by
    simpa using writeWait_done k cb true rest w (by simpa [irqs_nil] using hend)
  | n :: ns, rest, w, hpre, hend => by
    have h0 : w.i2c_state = I2C_MTX := by simpa [irqs_nil] using hpre 0 (by simp)
    have ih := writeWait_run k cb ns rest (I2C_IRQHandler k cb n w)
      (fun m hm => by simpa [irqs_cons] using hpre (m + 1) (by simpa using hm))
      (by simpa [irqs_cons] using hend)
    simpa [writeWait, h0, irqs_cons] using ih

theorem readLoop_done (k : Consts) (cb : Option i2c_slave_cb) (forever : Bool) (timeout t : Int)
    (polls : List (List Notification)) (w : World) (h : w.i2c_state ≠ I2C_MRX) :
    readLoop k cb forever timeout t polls w = some (w, t) := by
  cases polls <;> simp [readLoop, h]

/-- The loop run to the completion of the transfer: every notification of the
schedule is served and the last one leaves `I2C_MRX`. -/
theorem readLoop_complete (k : Consts) (cb : Option i2c_slave_cb) (forever : Bool)
    (timeout : Int) :
    ∀ (polls : List (List Notification)) (t : Int) (w : World),
      (∀ m, m < polls.flatten.length → (irqs k cb (polls.flatten.take m) w).i2c_state = I2C_MRX) →
      (irqs k cb polls.flatten w).i2c_state ≠ I2C_MRX →
      (forever = true ∨ t + polls.length ≤ timeout) →
      t + polls.length ≤ 2147483647 →
      ∃ t1, readLoop k cb forever timeout t polls w = some (irqs k cb polls.flatten w, t1)
  | [], t, w, _, hend, _, _ => ⟨t, by simpa [irqs_nil] using readLoop_done k cb forever timeout t [] w (by simpa [irqs_nil] using hend)⟩
  | b :: rest, t, w, hpre, hend, hto, hmax => by
    by_cases h0 : w.i2c_state = I2C_MRX
    · have hlt : ¬ (t ≥ 2147483647) := by
        simp only [List.length_cons, Nat.cast_add, Nat.cast_one] at hmax
        omega
      by_cases hbrk : (!forever && decide (t + 1 ≥ timeout)) = true
      · -- the timeout is reached: by the bound on the schedule no batch is left
        have hrest : rest = [] := by
          simp only [Bool.and_eq_true, Bool.not_eq_true', decide_eq_true_eq] at hbrk
          rcases hto with hf | hle
          · rw [hf] at hbrk; exact absurd hbrk.1 (by simp)
          · simp only [List.length_cons, Nat.cast_add, Nat.cast_one] at hle
            have : (rest.length : Int) ≤ 0 := by omega
            exact List.length_eq_zero.mp (by omega)
        subst hrest
        exact ⟨t + 1, by simp [readLoop, h0, hlt, hbrk]⟩
      · have ih := readLoop_complete k cb forever timeout rest (t + 1) (irqs k cb b w)
          (fun m hm => by
            have := hpre (b.length + m) (by
              rw [List.flatten_cons, List.length_append]; omega)
            simpa [List.take_append, irqs_append] using this)
          (by simpa [irqs_append] using hend)
          (by
            rcases hto with hf | hle
            · exact Or.inl hf
            · right; simp only [List.length_cons, Nat.cast_add, Nat.cast_one] at hle; omega)
          (by simp only [List.length_cons, Nat.cast_add, Nat.cast_one] at hmax; omega)
        obtain ⟨t1, ht1⟩ := ih
        refine ⟨t1, ?_⟩
        simp only [Bool.not_eq_true] at hbrk
        simp [readLoop, h0, hlt, hbrk, ht1, irqs_append]
    · have hflat : (b :: rest).flatten = [] := by
        by_contra hne
        have := hpre 0 (by
          cases hj : (b :: rest).flatten with
          | nil => exact absurd hj hne
          | cons a l => simp)
        simp [irqs_nil] at this
        exact h0 this
      exact ⟨t, by rw [hflat, irqs_nil]; exact readLoop_done k cb forever timeout t _ w h0⟩

/-- The loop run into its timeout: the state is `I2C_MRX` at each of the first
`n + 1` tests, the counter reaches `timeout` at the `(n + 1)`-th poll and not before. -/
theorem readLoop_timeout (k : Consts) (cb : Option i2c_slave_cb) (timeout : Int) :
    ∀ (n : Nat) (polls : List (List Notification)) (t : Int) (w : World),
      n + 1 ≤ polls.length →
      (∀ j, j ≤ n → (irqs k cb (polls.take j).flatten w).i2c_state = I2C_MRX) →
      timeout ≤ t + n + 1 →
      (∀ j : Nat, j < n → t + j + 1 < timeout) →
      t + n + 1 ≤ 2147483647 →
      readLoop k cb false timeout t polls w
        = some (irqs k cb (polls.take (n + 1)).flatten w, t + n + 1)
  | _, [], _, _, hlen, _, _, _, _ => by simp at hlen
  | 0, b :: rest, t, w, _, hst, hto, _, hmax => by
    have h0 : w.i2c_state = I2C_MRX := by simpa [irqs_nil] using hst 0 (le_refl _)
    have hlt : ¬ (t ≥ 2147483647) := by simp at hmax; omega
    have hbrk : timeout ≤ t + 1 := by simpa using hto
    simp [readLoop, h0, hlt, hbrk]
  | n + 1, b :: rest, t, w, hlen, hst, hto, hbefore, hmax => by
    have h0 : w.i2c_state = I2C_MRX := by simpa [irqs_nil] using hst 0 (Nat.zero_le _)
    have hlt : ¬ (t ≥ 2147483647) := by push_cast at hmax; omega
    have hbrk : ¬ (timeout ≤ t + 1) := by
      have := hbefore 0 (Nat.succ_pos _)
      simp at this; omega
    have ih := readLoop_timeout k cb timeout n rest (t + 1) (irqs k cb b w)
      (by simpa using hlen)
      (fun j hj => by
        have := hst (j + 1) (by omega)
        simpa [irqs_append] using this)
      (by push_cast at hto; omega)
      (fun j hj => by
        have := hbefore (j + 1) (by omega)
        push_cast at this; omega)
      (by push_cast at hmax; omega)
    have e1 : t + 1 + (n : Int) + 1 = t + ((n + 1 : Nat) : Int) + 1 := by push_cast; ring
    simp [readLoop, h0, hlt, hbrk, ih, irqs_append, e1]

theorem take_set_succ (x : Nat) : ∀ (l : List Nat) (i : Nat), i < l.length →
    (l.set i x).take (i + 1) = l.take i ++ [x]
  | [], _, h => by simp at h
  | _ :: l, 0, _ => by simp
  | a :: l, i + 1, h => by
    have := take_set_succ x l i (by simpa using h)
    simp [List.set, this]

theorem map_getD_range (d r : List Nat) :
    (List.range' 0 d.length).map (fun i => (d ++ r).getD i 0) = d := by
  apply List.ext_getElem
  · simp
  · intro i h1 h2
    simp at h1
    simp [List.getD_eq_getElem?_getD, List.getElem?_append_left h1, List.getElem?_eq_getElem h1]

/-- A master write driven by transmitter notifications: from cursor `index` the
remaining bytes of the buffer are sent in order, then the transaction is ended. -/
theorem tx_run (k : Consts) (cb : Option i2c_slave_cb) :
    ∀ (txs : List Notification) (w : World),
      (∀ n ∈ txs, n.event.isMasterTx = true) →
      w.i2c_state = I2C_MTX →
      w.i2c_master_buffer_index ≤ w.i2c_master_buffer_length →
      w.i2c_master_buffer_length ≤ 255 →
      txs.length = w.i2c_master_buffer_length - w.i2c_master_buffer_index + 1 →
      (∀ m, m < txs.length → (irqs k cb (txs.take m) w).i2c_state = I2C_MTX) ∧
      irqs k cb txs w =
        (let w1 : World := { w with
            i2c_master_buffer_index := w.i2c_master_buffer_length
            log := w.log ++ (List.range' w.i2c_master_buffer_index
              (w.i2c_master_buffer_length - w.i2c_master_buffer_index)).map
                (fun i => I2C_SendData (w.i2c_master_buffer.getD i 0)) }
         if w.i2c_send_stop then emit (I2C_GenerateSTOP true) { w1 with i2c_state := I2C_READY }
         else repeatedStart w1)
  | [], w, _, _, _, _, hlen => by simp at hlen
  | n :: txs, w, hall, hst, hle, h255, hlen => by
    have hn : n.event.isMasterTx = true := hall n (by simp)
    have hall2 : ∀ n ∈ txs, n.event.isMasterTx = true := fun x hx => hall x (by simp [hx])
    by_cases hlt : w.i2c_master_buffer_index < w.i2c_master_buffer_length
    · have hstep := handler_masterTx k cb n w hn
      rw [if_pos hlt] at hstep
      have hmod : (w.i2c_master_buffer_index + 1) % 256 = w.i2c_master_buffer_index + 1 :=
        Nat.mod_eq_of_lt (by omega)
      rw [hmod] at hstep
      have ih := tx_run k cb txs (I2C_IRQHandler k cb n w) hall2
        (by rw [hstep]; simpa [emit] using hst)
        (by rw [hstep]; simp [emit]; omega)
        (by rw [hstep]; simpa [emit] using h255)
        (by rw [hstep]; simp [emit] at hlen ⊢; omega)
      refine ⟨?_, ?_⟩
      · intro m hm
        cases m with
        | zero => simpa [irqs_nil] using hst
        | succ m => simpa [irqs_cons] using ih.1 m (by simpa using hm)
      · rw [irqs_cons, ih.2, hstep]
        have hr : w.i2c_master_buffer_length - w.i2c_master_buffer_index
            = (w.i2c_master_buffer_length - (w.i2c_master_buffer_index + 1)) + 1 := by omega
        rw [hr, List.range'_succ]
        simp [emit, List.append_assoc]
    · have hnil : txs = [] := by
        have : txs.length = 0 := by simp at hlen; omega
        exact List.length_eq_zero.mp this
      subst hnil
      have hstep := handler_masterTx k cb n w hn
      rw [if_neg hlt] at hstep
      have hidx : w.i2c_master_buffer_index = w.i2c_master_buffer_length := by omega
      refine ⟨?_, ?_⟩
      · intro m hm
        have : m = 0 := by simpa using hm
        subst this
        simpa [irqs_nil] using hst
      · rw [irqs_cons, irqs_nil, hstep]
        cases w
        simp only at hidx
        subst hidx
        simp

theorem writeArm_state (k : Consts) (a : Nat) (data : List Nat) (len : Nat) (s : Bool)
    (spins : Nat) (w : World) :
    let wA := writeArm k a data len s spins w
    wA.i2c_state = I2C_MTX ∧ wA.i2c_send_stop = s ∧ wA.i2c_error = 0 ∧
    wA.i2c_master_buffer_index = 0 ∧ wA.i2c_master_buffer_length = len ∧
    wA.i2c_master_buffer = memcpy w.i2c_master_buffer data len ∧
    wA.i2c_slave_addr_rw = ((k.I2C_WRITE % 256) ||| (a <<< 1)) % 256 ∧
    wA.is_nack_sent = w.is_nack_sent ∧ wA.i2c_in_repstart = false := by
  cases h : w.i2c_in_repstart <;> simp [writeArm, startOrResend, emit, emits, h]

theorem writeArm_log (k : Consts) (a : Nat) (data : List Nat) (len : Nat) (s : Bool)
    (spins : Nat) (w : World) :
    (writeArm k a data len s spins w).log =
      if w.i2c_in_repstart = true then
        w.log ++ [I2C_GenerateSTOP false]
          ++ List.replicate (spins + 1)
              (I2C_SendData (((k.I2C_WRITE % 256) ||| (a <<< 1)) % 256))
          ++ itConfigAll true
      else w.log ++ [I2C_GenerateSTOP false, I2C_GenerateSTART true] := by
  cases h : w.i2c_in_repstart <;> simp [writeArm, startOrResend, emit, emits, h]

theorem write_run (k : Consts) (cb : Option i2c_slave_cb) (a : Nat) (data : List Nat)
    (s : Bool) (spins : Nat) (w : World) (sb : Notification) (txs : List Notification)
    (hcap : data.length ≤ 255)
    (hsb : sb.event.isStartSent = true) (htx : ∀ n ∈ txs, n.event.isMasterTx = true)
    (hlen : txs.length = data.length + 1) :
    (∀ m, m < (sb :: txs).length →
      (irqs k cb ((sb :: txs).take m) (writeArm k a data data.length s spins w)).i2c_state
        = I2C_MTX) ∧
    irqs k cb (sb :: txs) (writeArm k a data data.length s spins w)
      = writeDone (writeArm k a data data.length s spins w) data := by
  obtain ⟨h1, h2, h3, h4, h5, h6, h7, h8, h9⟩ := writeArm_state k a data data.length s spins w
  have hstep := handler_startSent k cb sb (writeArm k a data data.length s spins w) hsb
  have run := tx_run k cb txs (I2C_IRQHandler k cb sb (writeArm k a data data.length s spins w))
    htx (by rw [hstep]; simpa [emit] using h1)
    (by rw [hstep]; simp [emit, h4])
    (by rw [hstep]; simpa [emit, h5] using hcap)
    (by rw [hstep]; simp [emit, h4, h5, hlen])
  refine ⟨?_, ?_⟩
  · intro m hm
    cases m with
    | zero => simpa [irqs_nil] using h1
    | succ m => simpa [irqs_cons] using run.1 m (by simpa using hm)
  · rw [irqs_cons, run.2, hstep]
    have hbuf : (List.range' 0 data.length).map
        (fun i => I2C_SendData
          ((writeArm k a data data.length s spins w).i2c_master_buffer.getD i 0))
        = data.map I2C_SendData := by
      rw [h6, memcpy, List.take_length]
      have := map_getD_range data (w.i2c_master_buffer.drop data.length)
      conv_rhs => rw [← this]
      simp [List.map_map, Function.comp]
    simp only [writeDone, emit, h4, h5, Nat.sub_zero, hbuf]
    simp [List.append_assoc]

theorem write_call (k : Consts) (cb : Option i2c_slave_cb) (a : Nat) (data : List Nat)
    (wait s : Bool) (spins : Nat) (w : World) (sb : Notification) (txs : List Notification)
    (hcap : k.I2C_BUFFER_LENGTH ≤ 255) (hL : data.length ≤ k.I2C_BUFFER_LENGTH)
    (hpos : 1 ≤ data.length) (hst : w.i2c_state = I2C_READY)
    (hsb : sb.event.isStartSent = true) (htx : ∀ n ∈ txs, n.event.isMasterTx = true)
    (hlen : txs.length = data.length + 1) :
    ∃ w1 rest,
      i2c_write_to k cb a data data.length wait s spins (sb :: txs) w = some (0, w1, rest) ∧
      irqs k cb rest w1 = writeDone (writeArm k a data data.length s spins w) data := by
  obtain ⟨h1, h2, h3, h4, h5, h6, h7, h8, h9⟩ := writeArm_state k a data data.length s spins w
  obtain ⟨hpre, hrun⟩ := write_run k cb a data s spins w sb txs (by omega) hsb htx hlen
  have herr : (writeDone (writeArm k a data data.length s spins w) data).i2c_error = 0 := by
    unfold writeDone
    split <;> simp [emit, repeatedStart, emits, h3]
  have hrdy : (writeDone (writeArm k a data data.length s spins w) data).i2c_state
      = I2C_READY := by
    unfold writeDone
    split <;> simp [emit, repeatedStart, emits]
  have hg1 : ¬ (data.length > k.I2C_BUFFER_LENGTH) := by omega
  have hg3 : ¬ (data.length = 0) := by omega
  cases wait with
  | false =>
    refine ⟨writeArm k a data data.length s spins w, sb :: txs, ?_, hrun⟩
    simp [i2c_write_to, hg1, hg3, hst, writeWait_nowait, h3]
  | true =>
    refine ⟨writeDone (writeArm k a data data.length s spins w) data, [], ?_, by simp [irqs_nil]⟩
    have hw := writeWait_run k cb (sb :: txs) [] (writeArm k a data data.length s spins w)
      hpre (by rw [hrun, hrdy]; decide)
    rw [List.append_nil, hrun] at hw
    simp [i2c_write_to, hg1, hg3, hst, hw, herr]

theorem addr_byte (d a : Nat) (hd : d < 256) (ha : a < 128) :
    ((d % 256) ||| (a <<< 1)) % 256 = (a <<< 1) ||| d := by
  have h1 : a <<< 1 < 2 ^ 8 := by rw [Nat.shiftLeft_eq]; omega
  have h2 : d < 2 ^ 8 := by simpa using hd
  have h3 : d ||| (a <<< 1) < 2 ^ 8 := Nat.or_lt_two_pow h2 h1
  rw [Nat.mod_eq_of_lt hd, Nat.mod_eq_of_lt (by simpa using h3), Nat.lor_comm]

/-- C2: a write of `data` (1 to capacity bytes) to a 7-bit address, armed in
`I2C_READY` with no repeated start pending and `send_stop` set, then served one
start-sent and `L + 1` master transmitter notifications free of acknowledge-failure
and error flags, hands to the bus the address byte `(a << 1) | I2C_WRITE` followed by
the data bytes in order, then generates one stop condition; it ends in `I2C_READY`
with no error latched and the call returns 0. -/
theorem C2_master_write_trace (k : Consts) (cb : Option i2c_slave_cb) (a : Nat)
    (data : List Nat) (wait : Bool) (spins : Nat) (w : World) (sb : Notification)
    (txs : List Notification)
    (hcap : k.I2C_BUFFER_LENGTH ≤ 255) (hwr : k.I2C_WRITE < 256) (ha : a < 128)
    (hpos : 1 ≤ data.length) (hL : data.length ≤ k.I2C_BUFFER_LENGTH)
    (hst : w.i2c_state = I2C_READY) (hrep : w.i2c_in_repstart = false)
    (hsb : sb.event.isStartSent = true) (htx : ∀ n ∈ txs, n.event.isMasterTx = true)
    (hlen : txs.length = data.length + 1) :
    ∃ w1 rest,
      i2c_write_to k cb a data data.length wait true spins (sb :: txs) w = some (0, w1, rest) ∧
      (irqs k cb rest w1).log =
        w.log ++ [I2C_GenerateSTOP false, I2C_GenerateSTART true]
          ++ (I2C_SendData ((a <<< 1) ||| k.I2C_WRITE) :: data.map I2C_SendData)
          ++ [I2C_GenerateSTOP true] ∧
      (irqs k cb rest w1).i2c_state = I2C_READY ∧
      (irqs k cb rest w1).i2c_error = 0 := by
  obtain ⟨w1, rest, hcall, hfin⟩ :=
    write_call k cb a data wait true spins w sb txs hcap hL hpos hst hsb htx hlen
  obtain ⟨h1, h2, h3, h4, h5, h6, h7, h8, h9⟩ := writeArm_state k a data data.length true spins w
  have hlog := writeArm_log k a data data.length true spins w
  rw [hrep] at hlog
  refine ⟨w1, rest, hcall, ?_, ?_, ?_⟩ <;> rw [hfin]
  · simp [writeDone, h2, emit, hlog, h7, addr_byte _ _ hwr ha]
  · simp [writeDone, h2, emit]
  · simp [writeDone, h2, emit, h3]

theorem rx_step (k : Consts) (cb : Option i2c_slave_cb) (n : Notification) (w : World)
    (cap L : Nat) (hn : n.event.isMasterRxData = true) (hinv : RxInv cap L w)
    (h255 : L + 1 ≤ 255) :
    (I2C_IRQHandler k cb n w).i2c_master_buffer_index = w.i2c_master_buffer_index + 1 ∧
    (I2C_IRQHandler k cb n w).i2c_master_buffer
      = w.i2c_master_buffer.set w.i2c_master_buffer_index n.data ∧
    (I2C_IRQHandler k cb n w).i2c_error = w.i2c_error ∧
    (I2C_IRQHandler k cb n w).i2c_send_stop = w.i2c_send_stop ∧
    (w.i2c_master_buffer_index < L → RxInv cap L (I2C_IRQHandler k cb n w)) ∧
    (w.i2c_master_buffer_index = L →
      (I2C_IRQHandler k cb n w).i2c_state = I2C_READY ∧
      (I2C_IRQHandler k cb n w).is_nack_sent = false ∧
      (I2C_IRQHandler k cb n w).i2c_master_buffer_length = L) := by
  simp only [Event.isMasterRxData, Bool.and_eq_true, Bool.not_eq_true'] at hn
  obtain ⟨⟨⟨⟨⟨⟨e1, e2⟩, e3⟩, e4⟩, e5⟩, e6⟩, e7⟩ := hn
  obtain ⟨i1, i2, i3, i4, i5⟩ := hinv
  have hmod : (w.i2c_master_buffer_index + 1) % 256 = w.i2c_master_buffer_index + 1 :=
    Nat.mod_eq_of_lt (by omega)
  have hH : I2C_IRQHandler k cb n w = masterReceiver n w := by
    simp [I2C_IRQHandler, masterRole, e1, e2, e3, errorFlags_noError k _ _ e7]
  rw [hH]
  by_cases hc : w.i2c_master_buffer_index + 1 < L
  · have hne : ¬ (w.i2c_master_buffer_index = L) := by omega
    have hne2 : ¬ (w.i2c_master_buffer_index + 1 = L) := by omega
    simp [masterReceiver, e4, e5, e6, emit, hmod, i2, hc, RxInv, i1, i4, hne, hne2, i5]
    omega
  · by_cases hd : w.i2c_master_buffer_index = L
    · have hnk : w.is_nack_sent = true := by simp [i4, hd]
      have hmodL : (L + 1) % 256 = L + 1 := Nat.mod_eq_of_lt (by omega)
      cases hs : w.i2c_send_stop <;>
        simp [masterReceiver, e4, e5, e6, emit, emits, repeatedStart, hmodL, i2, hnk, hs, hd]
    · have hnk : w.is_nack_sent = false := by simp [i4, hd]
      have he : w.i2c_master_buffer_index + 1 = L := by omega
      simp [masterReceiver, e4, e5, e6, emit, hmod, i2, hc, RxInv, i1, hnk, hd, i5]
      omega

/-- A master read served by receive notifications: each byte is stored at the
cursor, the state stays `I2C_MRX` until the byte of index `L` has been stored and
is `I2C_READY` after it. -/
theorem rx_run (k : Consts) (cb : Option i2c_slave_cb) (cap L : Nat) :
    ∀ (rx : List Notification) (w : World),
      (∀ n ∈ rx, n.event.isMasterRxData = true) →
      RxInv cap L w → L + 1 ≤ cap → cap ≤ 255 →
      w.i2c_master_buffer_index + rx.length ≤ L + 1 →
      (∀ m, m < rx.length → (irqs k cb (rx.take m) w).i2c_state = I2C_MRX) ∧
      (irqs k cb rx w).i2c_master_buffer_index = w.i2c_master_buffer_index + rx.length ∧
      (irqs k cb rx w).i2c_master_buffer.take (w.i2c_master_buffer_index + rx.length)
        = w.i2c_master_buffer.take w.i2c_master_buffer_index ++ rx.map (fun n => n.data) ∧
      (irqs k cb rx w).i2c_master_buffer.length = cap ∧
      (irqs k cb rx w).i2c_error = w.i2c_error ∧
      (w.i2c_master_buffer_index + rx.length ≤ L → (irqs k cb rx w).i2c_state = I2C_MRX) ∧
      (w.i2c_master_buffer_index + rx.length = L + 1 →
        (irqs k cb rx w).i2c_state = I2C_READY ∧ (irqs k cb rx w).is_nack_sent = false)
  | [], w, _, hinv, _, _, _ => by
    obtain ⟨i1, i2, i3, i4, i5⟩ := hinv
    refine ⟨fun m hm => by simp at hm, by simp [irqs_nil], by simp [irqs_nil],
      by simpa [irqs_nil] using i5, by simp [irqs_nil], fun _ => by simpa [irqs_nil] using i1, ?_⟩
    intro h
    simp at h
    omega
  | n :: rx, w, hall, hinv, hL, hcap, hlen => by
    have hn : n.event.isMasterRxData = true := hall n (by simp)
    have hall2 : ∀ x ∈ rx, x.event.isMasterRxData = true := fun x hx => hall x (by simp [hx])
    obtain ⟨s1, s2, s3, _, s5, s6⟩ := rx_step k cb n w cap L hn hinv (by omega)
    obtain ⟨i1, i2, i3, i4, i5⟩ := hinv
    simp only [List.length_cons] at hlen
    have hin : w.i2c_master_buffer_index < w.i2c_master_buffer.length := by omega
    have htake : (I2C_IRQHandler k cb n w).i2c_master_buffer.take
        (w.i2c_master_buffer_index + 1)
        = w.i2c_master_buffer.take w.i2c_master_buffer_index ++ [n.data] := by
      rw [s2]; exact take_set_succ n.data _ _ hin
    by_cases hc : w.i2c_master_buffer_index < L
    · have hinv2 := s5 hc
      obtain ⟨r1, r2, r3, r4, r5, r6, r7⟩ := rx_run k cb cap L rx (I2C_IRQHandler k cb n w) hall2
        hinv2 hL hcap (by rw [s1]; omega)
      have e : w.i2c_master_buffer_index + (rx.length + 1)
          = w.i2c_master_buffer_index + 1 + rx.length := by omega
      refine ⟨?_, ?_, ?_, ?_, ?_, ?_, ?_⟩
      · intro m hm
        cases m with
        | zero => simpa [irqs_nil] using i1
        | succ m => simpa [irqs_cons] using r1 m (by simpa using hm)
      · rw [irqs_cons, r2, s1, List.length_cons]; omega
      · rw [irqs_cons, List.length_cons, e, ← s1, r3, s1, htake]; simp
      · rw [irqs_cons]; exact r4
      · rw [irqs_cons, r5, s3]
      · intro h; rw [irqs_cons]; exact r6 (by rw [s1]; simp at h; omega)
      · intro h; rw [irqs_cons]; exact r7 (by rw [s1]; simp at h; omega)
    · have hd : w.i2c_master_buffer_index = L := by omega
      have hnil : rx = [] := List.length_eq_zero.mp (by omega)
      subst hnil
      obtain ⟨t1, t2, _⟩ := s6 hd
      refine ⟨?_, ?_, ?_, ?_, ?_, ?_, ?_⟩
      · intro m hm
        have : m = 0 := by simpa using hm
        subst this
        simpa [irqs_nil] using i1
      · simp [irqs_cons, irqs_nil, s1]
      · simpa [irqs_cons, irqs_nil] using htake
      · simp [irqs_cons, irqs_nil, s2, i5]
      · simp [irqs_cons, irqs_nil, s3]
      · intro h; simp at h; omega
      · intro _; simp [irqs_cons, irqs_nil, t1, t2]

theorem readArm_state (k : Consts) (a : Nat) (len : Nat) (s : Bool) (spins : Nat) (w : World) :
    let wA := readArm k a len s spins w
    wA.i2c_state = I2C_MRX ∧ wA.i2c_send_stop = s ∧ wA.i2c_error = 0 ∧
    wA.i2c_master_buffer_index = 0 ∧ wA.i2c_master_buffer_length = (len - 1) % 256 ∧
    wA.i2c_master_buffer = w.i2c_master_buffer ∧
    wA.i2c_slave_addr_rw = ((k.I2C_READ % 256) ||| (a <<< 1)) % 256 ∧
    wA.is_nack_sent = w.is_nack_sent ∧ wA.i2c_in_repstart = false := by
  cases h : w.i2c_in_repstart <;> simp [readArm, startOrResend, emit, emits, h]

theorem handler_masterRxAddr (k : Consts) (cb : Option i2c_slave_cb) (n : Notification)
    (w : World) (h : n.event.isMasterRxAddr = true) :
    I2C_IRQHandler k cb n w =
      if w.i2c_master_buffer_length ≠ 0 then emit (I2C_AcknowledgeConfig true) w
      else { emit (I2C_AcknowledgeConfig false) w with is_nack_sent := true } := by
  simp only [Event.isMasterRxAddr, Bool.and_eq_true, Bool.not_eq_true'] at h
  obtain ⟨⟨⟨⟨⟨⟨h1, h2⟩, h3⟩, h4⟩, h5⟩, h6⟩, h7⟩ := h
  simp [I2C_IRQHandler, masterRole, masterReceiver, h1, h2, h3, h4, h5, h6,
    errorFlags_noError k _ _ h7]

/-- The address phase of a master read: after the start-sent and the
address-matched notification the receive invariant holds with the cursor at 0. -/
theorem rx_addr_phase (k : Consts) (cb : Option i2c_slave_cb) (cap L : Nat)
    (sb ad : Notification) (w : World)
    (hsb : sb.event.isStartSent = true) (had : ad.event.isMasterRxAddr = true)
    (h1 : w.i2c_state = I2C_MRX) (h2 : w.i2c_master_buffer_index = 0)
    (h3 : w.i2c_master_buffer_length = L) (h4 : w.is_nack_sent = false)
    (h5 : w.i2c_master_buffer.length = cap) :
    (I2C_IRQHandler k cb sb w).i2c_state = I2C_MRX ∧
    RxInv cap L (I2C_IRQHandler k cb ad (I2C_IRQHandler k cb sb w)) ∧
    (I2C_IRQHandler k cb ad (I2C_IRQHandler k cb sb w)).i2c_master_buffer_index = 0 ∧
    (I2C_IRQHandler k cb ad (I2C_IRQHandler k cb sb w)).i2c_error = w.i2c_error := by
  rw [handler_masterRxAddr k cb ad _ had, handler_startSent k cb sb w hsb]
  by_cases hz : L = 0
  · simp [emit, RxInv, h1, h2, h3, h4, h5, hz]
  · simp [emit, RxInv, h1, h2, h3, h4, h5, hz]
    exact fun h => hz h.symm

/-- A master read of `L + 1` bytes served by a start-sent, an address-matched and
`rx.length` receive notifications (at most `L + 1`). -/
theorem read_run (k : Consts) (cb : Option i2c_slave_cb) (cap L : Nat)
    (sb ad : Notification) (rx : List Notification) (w : World)
    (hsb : sb.event.isStartSent = true) (had : ad.event.isMasterRxAddr = true)
    (hrx : ∀ n ∈ rx, n.event.isMasterRxData = true)
    (h1 : w.i2c_state = I2C_MRX) (h2 : w.i2c_master_buffer_index = 0)
    (h3 : w.i2c_master_buffer_length = L) (h4 : w.is_nack_sent = false)
    (h5 : w.i2c_master_buffer.length = cap)
    (hL : L + 1 ≤ cap) (hcap : cap ≤ 255) (hlen : rx.length ≤ L + 1) :
    (∀ m, m < rx.length + 2 →
      (irqs k cb ((sb :: ad :: rx).take m) w).i2c_state = I2C_MRX) ∧
    (irqs k cb (sb :: ad :: rx) w).i2c_master_buffer_index = rx.length ∧
    (irqs k cb (sb :: ad :: rx) w).i2c_master_buffer.take rx.length
      = rx.map (fun n => n.data) ∧
    (irqs k cb (sb :: ad :: rx) w).i2c_master_buffer.length = cap ∧
    (irqs k cb (sb :: ad :: rx) w).i2c_error = w.i2c_error ∧
    (rx.length ≤ L → (irqs k cb (sb :: ad :: rx) w).i2c_state = I2C_MRX) ∧
    (rx.length = L + 1 → (irqs k cb (sb :: ad :: rx) w).i2c_state = I2C_READY ∧
      (irqs k cb (sb :: ad :: rx) w).is_nack_sent = false) := by
  obtain ⟨a1, a2, a3, a4⟩ := rx_addr_phase k cb cap L sb ad w hsb had h1 h2 h3 h4 h5
  obtain ⟨r1, r2, r3, r4, r5, r6, r7⟩ :=
    rx_run k cb cap L rx _ hrx a2 hL hcap (by rw [a3]; omega)
  rw [a3] at r2 r3 r6 r7
  simp only [Nat.zero_add, List.take_zero, List.nil_append] at r2 r3 r6 r7
  refine ⟨?_, by simpa [irqs_cons] using r2, by simpa [irqs_cons] using r3,
    by simpa [irqs_cons] using r4, by simpa [irqs_cons, a4] using r5,
    by simpa [irqs_cons] using r6, by simpa [irqs_cons] using r7⟩
  intro m hm
  match m with
  | 0 => simpa [irqs_nil] using h1
  | 1 => simpa [irqs_cons, irqs_nil] using a1
  | m + 2 => simpa [irqs_cons] using r1 m (by omega)

theorem flatten_take_prefix (polls : List (List Notification)) (j : Nat) :
    (polls.take j).flatten = polls.flatten.take (polls.take j).flatten.length := by
  conv_rhs => rw [← List.take_append_drop j polls, List.flatten_append]
  simp

theorem flatten_take_length_le (polls : List (List Notification)) (j : Nat) :
    (polls.take j).flatten.length ≤ polls.flatten.length := by
  conv_rhs => rw [← List.take_append_drop j polls, List.flatten_append, List.length_append]
  omega

/-- A blocking read armed in `I2C_READY` and served a start-sent, an
address-matched and `rx.length` receive notifications, where either all `N` bytes
arrive before the timeout, or fewer arrive and the loop runs into its timeout:
the call returns the number of bytes stored. -/
theorem read_call (k : Consts) (cb : Option i2c_slave_cb) (a : Nat) (out : List Nat)
    (N : Nat) (s : Bool) (timeout : Int) (spins : Nat) (pre : List Notification)
    (polls : List (List Notification)) (w : World) (sb ad : Notification)
    (rx : List Notification)
    (hcap : k.I2C_BUFFER_LENGTH ≤ 255) (hN1 : 1 ≤ N) (hN : N ≤ k.I2C_BUFFER_LENGTH)
    (hst : w.i2c_state = I2C_READY) (hnack : w.is_nack_sent = false)
    (hbuf : w.i2c_master_buffer.length = k.I2C_BUFFER_LENGTH)
    (hsb : sb.event.isStartSent = true) (had : ad.event.isMasterRxAddr = true)
    (hrx : ∀ n ∈ rx, n.event.isMasterRxData = true)
    (hsched : pre ++ polls.flatten = sb :: ad :: rx)
    (hms : polls.length ≤ 2147483647)
    (hend : (rx.length = N ∧ (timeout = -1 ∨ (polls.length : Int) ≤ timeout)) ∨
      (rx.length < N ∧ timeout ≠ -1 ∧ (polls.length : Int) = max 1 timeout)) :
    i2c_read_from k cb a out N s timeout spins pre polls w
      = some ((rx.length : Int),
          memcpy out (irqs k cb (sb :: ad :: rx) (readArm k a N s spins w)).i2c_master_buffer
            rx.length,
          irqs k cb (sb :: ad :: rx) (readArm k a N s spins w)) := by
  obtain ⟨a1, a2, a3, a4, a5, a6, a7, a8, a9⟩ := readArm_state k a N s spins w
  have hLm : (N - 1) % 256 = N - 1 := Nat.mod_eq_of_lt (by omega)
  rw [hLm] at a5
  have hjN : rx.length ≤ N := by rcases hend with h | h <;> omega
  obtain ⟨r1, r2, r3, r4, r5, r6, r7⟩ := read_run k cb k.I2C_BUFFER_LENGTH (N - 1) sb ad rx
    (readArm k a N s spins w) hsb had hrx a1 a4 a5 (by rw [a8, hnack]) (by rw [a6, hbuf])
    (by omega) hcap (by omega)
  have hg1 : ¬ (N > k.I2C_BUFFER_LENGTH) := by omega
  have hg3 : ¬ (N = 0) := by omega
  have hlenN : (pre ++ polls.flatten).length = rx.length + 2 := by rw [hsched]; simp
  rw [List.length_append] at hlenN
  -- the loop returns the context after all notifications
  have hloop : ∃ t1, readLoop k cb (decide (timeout = -1)) timeout 0 polls
      (irqs k cb pre (readArm k a N s spins w))
      = some (irqs k cb (sb :: ad :: rx) (readArm k a N s spins w), t1) := by
    rcases hend with ⟨hfull, hto⟩ | ⟨hpart, hne, hpl⟩
    · obtain ⟨t1, ht1⟩ := readLoop_complete k cb (decide (timeout = -1)) timeout polls 0
        (irqs k cb pre (readArm k a N s spins w))
        (fun m hm => by
          have := r1 (pre.length + m) (by omega)
          rw [← hsched, List.take_append, irqs_append] at this
          exact this)
        (by
          rw [← irqs_append, hsched, (r7 (by omega)).1]; decide)
        (by
          rcases hto with h | h
          · left; simp [h]
          · right; simpa using h)
        (by simp; exact_mod_cast hms)
      exact ⟨t1, by rw [ht1, ← irqs_append, hsched]⟩
    · have hfor : decide (timeout = -1) = false := by simp [hne]
      have hpos : 1 ≤ polls.length := by
        have : (1 : Int) ≤ max 1 timeout := le_max_left _ _
        omega
      have hall : ∀ m, m ≤ rx.length + 2 →
          (irqs k cb ((sb :: ad :: rx).take m) (readArm k a N s spins w)).i2c_state
            = I2C_MRX := by
        intro m hm
        rcases Nat.lt_or_ge m (rx.length + 2) with h | h
        · exact r1 m h
        · have : m = (sb :: ad :: rx).length := by simp; omega
          rw [this, List.take_length]
          exact r6 (by omega)
      have hl := readLoop_timeout k cb timeout (polls.length - 1) polls 0
        (irqs k cb pre (readArm k a N s spins w)) (by omega)
        (fun j _ => by
          have hle := flatten_take_length_le polls j
          have := hall (pre.length + (polls.take j).flatten.length) (by omega)
          rw [← hsched, List.take_append, irqs_append, ← flatten_take_prefix] at this
          exact this)
        (by
          have : ((polls.length - 1 : Nat) : Int) = (polls.length : Int) - 1 := by omega
          rw [this, hpl]; simp)
        (fun j hj => by
          rcases le_total (1 : Int) timeout with h | h
          · rw [max_eq_right h] at hpl; omega
          · rw [max_eq_left h] at hpl; omega)
        (by omega)
      have hpl1 : polls.length - 1 + 1 = polls.length := by omega
      rw [hpl1, List.take_length, ← irqs_append, hsched] at hl
      rw [hfor]
      exact ⟨_, hl⟩
  obtain ⟨t1, ht1⟩ := hloop
  have hfin : (if rx.length < N then rx.length else N) = rx.length := by
    split
    · rfl
    · omega
  simp only [i2c_read_from, hg1, hg3, hst, ht1, readFinish, r2, hfin, if_false, ne_eq,
    not_true_eq_false]

theorem writeDone_facts (k : Consts) (a : Nat) (data : List Nat) (s : Bool) (spins : Nat)
    (w : World) :
    (writeDone (writeArm k a data data.length s spins w) data).i2c_state = I2C_READY ∧
    (writeDone (writeArm k a data data.length s spins w) data).is_nack_sent = w.is_nack_sent ∧
    (data.length ≤ w.i2c_master_buffer.length →
      (writeDone (writeArm k a data data.length s spins w) data).i2c_master_buffer.length
        = w.i2c_master_buffer.length) ∧
    (writeDone (writeArm k a data data.length s spins w) data).i2c_in_repstart = !s ∧
    (writeDone (writeArm k a data data.length s spins w) data).log =
      (writeArm k a data data.length s spins w).log
        ++ (I2C_SendData (((k.I2C_WRITE % 256) ||| (a <<< 1)) % 256) :: data.map I2C_SendData)
        ++ (if s then [I2C_GenerateSTOP true]
            else itConfigAll false ++ [I2C_GenerateSTART true]) := by
  obtain ⟨h1, h2, h3, h4, h5, h6, h7, h8, h9⟩ := writeArm_state k a data data.length s spins w
  unfold writeDone
  cases s
  · simp only [h2, emit, emits, repeatedStart, h8, h6, h9, h7]
    refine ⟨by simp, by simp, ?_, by simp, by simp⟩
    intro hL
    simp [memcpy]; omega
  · simp only [h2, emit, emits, repeatedStart, h8, h6, h9, h7]
    refine ⟨by simp, by simp, ?_, by simp, by simp⟩
    intro hL
    simp [memcpy]; omega

theorem memcpy_take (dst src : List Nat) (n : Nat) (h : n ≤ src.length) :
    (memcpy dst src n).take n = src.take n := by
  simp [memcpy, List.take_append_eq_append_take, h]

/-- C1: master read loopback. From a context that is `I2C_READY` with no repeated
start pending and the no-ack flag clear (the state left by `i2c_app_init`), a write
of the `N` bytes `b` (`N` at most the capacity) completed by its notifications,
followed by a read of `N` bytes served a start-sent, an address-matched and `N`
receive notifications that deliver `b` in order: the read returns `N`, the first
`N` bytes of the caller's buffer are `b`, the state is `I2C_MRX` before each of
these notifications and `I2C_READY` after the last. For `N = 0` both calls return 0
at once, consuming no notification and leaving the context unchanged. -/
theorem C1_master_read_loopback (k : Consts) (cb : Option i2c_slave_cb) (w : World)
    (b out : List Nat) (aW aR : Nat) (wait sW sR : Bool) (spinsW spinsR : Nat)
    (timeout : Int) (sbW : Notification) (txs : List Notification)
    (sbR adR : Notification) (rx pre : List Notification)
    (polls : List (List Notification))
    (hcap : k.I2C_BUFFER_LENGTH ≤ 255) (hN : b.length ≤ k.I2C_BUFFER_LENGTH)
    (hst : w.i2c_state = I2C_READY) (hnack : w.is_nack_sent = false)
    (hbuf : w.i2c_master_buffer.length = k.I2C_BUFFER_LENGTH)
    (hsbW : sbW.event.isStartSent = true) (htx : ∀ n ∈ txs, n.event.isMasterTx = true)
    (htxlen : txs.length = b.length + 1)
    (hsbR : sbR.event.isStartSent = true) (hadR : adR.event.isMasterRxAddr = true)
    (hrx : ∀ n ∈ rx, n.event.isMasterRxData = true)
    (hdata : rx.map (fun n => n.data) = b)
    (hsched : pre ++ polls.flatten = sbR :: adR :: rx)
    (hms : polls.length ≤ 2147483647)
    (hto : timeout = -1 ∨ (polls.length : Int) ≤ timeout) :
    (b.length = 0 →
      i2c_write_to k cb aW b b.length wait sW spinsW (sbW :: txs) w
        = some (0, w, sbW :: txs) ∧
      i2c_read_from k cb aR out b.length sR timeout spinsR pre polls w = some (0, out, w)) ∧
    (1 ≤ b.length →
      ∃ w1 rest w2 out2,
        i2c_write_to k cb aW b b.length wait sW spinsW (sbW :: txs) w = some (0, w1, rest) ∧
        i2c_read_from k cb aR out b.length sR timeout spinsR pre polls (irqs k cb rest w1)
          = some ((b.length : Int), out2, w2) ∧
        out2.take b.length = b ∧
        w2.i2c_state = I2C_READY ∧
        (∀ m, m < b.length + 2 →
          (irqs k cb ((sbR :: adR :: rx).take m)
            (readArm k aR b.length sR spinsR (irqs k cb rest w1))).i2c_state = I2C_MRX) ∧
        w2 = irqs k cb (sbR :: adR :: rx)
          (readArm k aR b.length sR spinsR (irqs k cb rest w1))) := by
  have hrxlen : rx.length = b.length := by rw [← hdata]; simp
  refine ⟨?_, ?_⟩
  · intro h0
    have hg1 : ¬ (0 > k.I2C_BUFFER_LENGTH) := by omega
    simp [i2c_write_to, i2c_read_from, h0, hst]
  · intro hpos
    obtain ⟨w1, rest, hcall, hfin⟩ :=
      write_call k cb aW b wait sW spinsW w sbW txs hcap hN hpos hst hsbW htx htxlen
    obtain ⟨d1, d2, d3, _, _⟩ := writeDone_facts k aW b sW spinsW w
    replace d3 := d3 (by omega)
    rw [← hfin] at d1 d2 d3
    have hread := read_call k cb aR out b.length sR timeout spinsR pre polls
      (irqs k cb rest w1) sbR adR rx hcap hpos hN d1 (by rw [d2, hnack]) (by rw [d3, hbuf])
      hsbR hadR hrx hsched hms (Or.inl ⟨hrxlen, hto⟩)
    obtain ⟨a1, a2, a3, a4, a5, a6, a7, a8, a9⟩ :=
      readArm_state k aR b.length sR spinsR (irqs k cb rest w1)
    have hLm : (b.length - 1) % 256 = b.length - 1 := Nat.mod_eq_of_lt (by omega)
    rw [hLm] at a5
    obtain ⟨r1, r2, r3, r4, r5, r6, r7⟩ := read_run k cb k.I2C_BUFFER_LENGTH (b.length - 1)
      sbR adR rx (readArm k aR b.length sR spinsR (irqs k cb rest w1)) hsbR hadR hrx a1 a4 a5
      (by rw [a8, d2, hnack]) (by rw [a6, d3, hbuf]) (by omega) hcap (by omega)
    rw [hrxlen] at hread r1 r3
    refine ⟨w1, rest, _, _, hcall, hread, ?_, (r7 (by omega)).1, r1, rfl⟩
    rw [memcpy_take _ _ _ (by rw [r4]; exact hN), r3, hdata]

/-- Witness of C1: a two-byte write to address 0x40 followed by a two-byte read, from
the context left by `i2c_app_init`. -/
theorem C1_master_read_loopback_witness :
    ∃ w1 rest w2 out2,
      i2c_write_to hdr none 0x40 [0x12, 0x34] 2 true true 0 [nStart, nTx, nTx, nTx] w0
        = some (0, w1, rest) ∧
      i2c_read_from hdr none 0x40 [0, 0] 2 true 100 0 []
          [[nStart], [nRxAddr, nRx 0x12], [nRx 0x34]] (irqs hdr none rest w1)
        = some (2, out2, w2) ∧
      out2.take 2 = [0x12, 0x34] ∧ w2.i2c_state = I2C_READY := by
  obtain ⟨w1, rest, w2, out2, h1, h2, h3, h4, _, _⟩ :=
    (C1_master_read_loopback hdr none w0 [0x12, 0x34] [0, 0] 0x40 0x40 true true true 0 0 100
      nStart [nTx, nTx, nTx] nStart nRxAddr [nRx 0x12, nRx 0x34] []
      [[nStart], [nRxAddr, nRx 0x12], [nRx 0x34]]
      (by decide) (by decide) (by decide) (by decide) (by decide) (by decide) (by decide)
      (by decide) (by decide) (by decide) (by decide) (by decide) (by decide) (by decide)
      (by decide)).2 (by decide)
  exact ⟨w1, rest, w2, out2, h1, h2, h3, h4⟩

/-- Witness of C2: the one-byte write of the command 0xE3 to address 0x40. -/
theorem C2_master_write_trace_witness :
    ∃ w1 rest,
      i2c_write_to hdr none 0x40 [0xE3] 1 true true 0 [nStart, nTx, nTx] w0
        = some (0, w1, rest) ∧
      (irqs hdr none rest w1).log =
        w0.log ++ [I2C_GenerateSTOP false, I2C_GenerateSTART true]
          ++ (I2C_SendData ((0x40 <<< 1) ||| hdr.I2C_WRITE) :: [0xE3].map I2C_SendData)
          ++ [I2C_GenerateSTOP true] ∧
      (irqs hdr none rest w1).i2c_state = I2C_READY ∧
      (irqs hdr none rest w1).i2c_error = 0 :=
  C2_master_write_trace hdr none 0x40 [0xE3] true 0 w0 nStart [nTx, nTx]
    (by decide) (by decide) (by decide) (by decide) (by decide) (by decide) (by decide)
    (by decide) (by decide) (by decide)

/-- C3: with a length above the capacity, `i2c_write_to` and `i2c_read_from` return
`-I2C_NO_MEM`, whatever the context; the context, the log of hardware actions, the
caller's buffer and the pending notifications are exactly as before. -/
theorem C3_out_of_capacity (k : Consts) (cb : Option i2c_slave_cb) (addr : Nat)
    (data : List Nat) (length : Nat) (wait send_stop : Bool) (spins : Nat) (timeout : Int)
    (pending pre : List Notification) (polls : List (List Notification)) (w : World)
    (h : k.I2C_BUFFER_LENGTH < length) :
    i2c_write_to k cb addr data length wait send_stop spins pending w
      = some (-(k.I2C_NO_MEM : Int), w, pending) ∧
    i2c_read_from k cb addr data length send_stop timeout spins pre polls w
      = some (-(k.I2C_NO_MEM : Int), data, w) := by
  simp [i2c_write_to, i2c_read_from, h]

/-- Witness of C3: a length of 33 with a capacity of 32. -/
theorem C3_out_of_capacity_witness :
    i2c_write_to hdr none 0x40 (List.replicate 33 7) 33 true true 0 [nStart] w0
      = some (-(hdr.I2C_NO_MEM : Int), w0, [nStart]) ∧
    i2c_read_from hdr none 0x40 (List.replicate 33 7) 33 true 100 0 [nStart] [[nRxAddr]] w0
      = some (-(hdr.I2C_NO_MEM : Int), List.replicate 33 7, w0) :=
  C3_out_of_capacity hdr none 0x40 (List.replicate 33 7) 33 true true 0 100 [nStart] [nStart]
    [[nRxAddr]] w0 (by decide)

/-- C4, as the code has it: a call of `i2c_write_to` or `i2c_read_from` made while
the state is not `I2C_READY` leaves the whole context (master buffer, cursor, length
and every other field), the log, the buffer of the caller and the pending
notifications unchanged, whatever the address, data, length and flags; it returns
`-I2C_STATE` when the length is within the capacity, and `-I2C_NO_MEM` when it is
above, because the capacity is tested first. -/
theorem C4_wrong_state (k : Consts) (cb : Option i2c_slave_cb) (addr : Nat)
    (data : List Nat) (length : Nat) (wait send_stop : Bool) (spins : Nat) (timeout : Int)
    (pending pre : List Notification) (polls : List (List Notification)) (w : World)
    (hst : w.i2c_state ≠ I2C_READY) :
    i2c_write_to k cb addr data length wait send_stop spins pending w
      = some (if length ≤ k.I2C_BUFFER_LENGTH then -(k.I2C_STATE : Int)
          else -(k.I2C_NO_MEM : Int), w, pending) ∧
    i2c_read_from k cb addr data length send_stop timeout spins pre polls w
      = some (if length ≤ k.I2C_BUFFER_LENGTH then -(k.I2C_STATE : Int)
          else -(k.I2C_NO_MEM : Int), data, w) := by
  by_cases hg : length ≤ k.I2C_BUFFER_LENGTH
  · have hg2 : ¬ (length > k.I2C_BUFFER_LENGTH) := by omega
    simp [i2c_write_to, i2c_read_from, hg, hg2, hst]
  · have hg2 : length > k.I2C_BUFFER_LENGTH := by omega
    simp [i2c_write_to, i2c_read_from, hg, hg2]

/-- Witness of C4: a second write and a read issued while a one-byte write is in
flight. -/
theorem C4_wrong_state_witness :
    i2c_write_to hdr none 0x40 [0xE5] 1 true true 0 [] inFlight
      = some (if 1 ≤ hdr.I2C_BUFFER_LENGTH then -(hdr.I2C_STATE : Int)
          else -(hdr.I2C_NO_MEM : Int), inFlight, []) ∧
    i2c_read_from hdr none 0x40 [0xE5] 1 true 100 0 [] [] inFlight
      = some (if 1 ≤ hdr.I2C_BUFFER_LENGTH then -(hdr.I2C_STATE : Int)
          else -(hdr.I2C_NO_MEM : Int), [0xE5], inFlight) :=
  C4_wrong_state hdr none 0x40 [0xE5] 1 true true 0 100 [] [] [] inFlight (by decide)

/-- C4, counterexample: while a write is in flight (`I2C_MTX`), a call with a length
of 33 bytes, above the capacity of 32, returns `-I2C_NO_MEM`, not `-I2C_STATE`. -/
theorem C4_wrong_state_counterexample :
    inFlight.i2c_state ≠ I2C_READY ∧
    i2c_write_to hdr none 0x40 (List.replicate 33 7) 33 true true 0 [] inFlight
      = some (-(hdr.I2C_NO_MEM : Int), inFlight, []) ∧
    i2c_read_from hdr none 0x40 (List.replicate 33 7) 33 true 100 0 [] [] inFlight
      = some (-(hdr.I2C_NO_MEM : Int), List.replicate 33 7, inFlight) ∧
    -(hdr.I2C_NO_MEM : Int) ≠ -(hdr.I2C_STATE : Int) := by
  decide

/-- C5, the code at the failing input: a one-byte write whose address is answered
by a transmitter notification with acknowledge-failure returns `-I2C_MT_NACK` and
ends in `I2C_READY` after a stop, but the handler has first handed the data byte
0xE3 to `I2C_SendData` and moved the cursor to 1. -/
theorem C5_address_nack_sends_data :
    ∃ w1,
      i2c_write_to hdr none 0x40 [0xE3] 1 true true 0 [nStart, nTxNack] w0
        = some (-(hdr.I2C_MT_NACK : Int), w1, []) ∧
      w1.i2c_state = I2C_READY ∧
      sentBytes (w1.log.drop w0.log.length) = [0x80, 0xE3] ∧
      w1.i2c_master_buffer_index = 1 ∧
      w1.log.drop w0.log.length =
        [I2C_GenerateSTOP false, I2C_GenerateSTART true, I2C_SendData 0x80,
          I2C_SendData 0xE3, I2C_ClearFlag I2C_FLAG_AF, I2C_GenerateSTOP true] := by
  refine ⟨irqs hdr none [nStart, nTxNack] inFlight, ?_, ?_, ?_, ?_, ?_⟩ <;> decide

/-- With a finite timeout and a batch for every poll that can take place, the
polling loop ends. -/
theorem readLoop_total (k : Consts) (cb : Option i2c_slave_cb) (timeout : Int) :
    ∀ (polls : List (List Notification)) (t : Int) (w : World),
      timeout ≤ 2147483647 → (t < timeout ∨ t = 0) →
      max 1 (timeout - t) ≤ (polls.length : Int) →
      ∃ r, readLoop k cb false timeout t polls w = some r
  | [], t, w, _, _, hlen => by
    have : (1 : Int) ≤ max 1 (timeout - t) := le_max_left _ _
    simp only [List.length_nil, Nat.cast_zero] at hlen
    omega
  | b :: rest, t, w, hmax, ht, hlen => by
    by_cases h0 : w.i2c_state = I2C_MRX
    · have hlt : ¬ (t ≥ 2147483647) := by omega
      by_cases hbrk : timeout ≤ t + 1
      · exact ⟨(irqs k cb b w, t + 1), by simp [readLoop, h0, hlt, hbrk]⟩
      · have h2 : timeout - t ≤ (rest.length : Int) + 1 := by
          have := le_trans (le_max_right 1 (timeout - t)) hlen
          simpa using this
        obtain ⟨r, hr⟩ := readLoop_total k cb timeout rest (t + 1) (irqs k cb b w) hmax
          (Or.inl (by omega))
          (by
            apply max_le
            · omega
            · omega)
        exact ⟨r, by simp [readLoop, h0, hlt, hbrk, hr]⟩
    · exact ⟨_, readLoop_done k cb false timeout t _ w h0⟩

/-- C6: partial read. A read of `N` bytes (1 to capacity) armed in `I2C_READY` with
the no-ack flag clear. (1) If the handler has been served a start-sent, an
address-matched and `j` receive notifications (`j ≤ N`) when the wait ends, by
completion (`j = N`) or by timeout (`j < N`), the call returns `j`, which is between
0 and `N`, and the first `j` bytes of the caller's buffer are the delivered bytes in
order. (2) With a finite timeout and a batch for every poll, the call returns,
whatever the notifications are. (3) Whatever the notifications are, a returned value
is `min(cursor, N)`, between 0 and `N`, and the caller's buffer receives that many
bytes of the master buffer. -/
theorem C6_partial_read (k : Consts) (cb : Option i2c_slave_cb) (a : Nat) (out : List Nat)
    (N : Nat) (s : Bool) (timeout : Int) (spins : Nat) (w : World)
    (pre : List Notification) (polls : List (List Notification)) (sb ad : Notification)
    (rx : List Notification) (pre2 : List Notification) (polls2 : List (List Notification))
    (hcap : k.I2C_BUFFER_LENGTH ≤ 255) (hN1 : 1 ≤ N) (hN : N ≤ k.I2C_BUFFER_LENGTH)
    (hst : w.i2c_state = I2C_READY) :
    (w.is_nack_sent = false → w.i2c_master_buffer.length = k.I2C_BUFFER_LENGTH →
      sb.event.isStartSent = true → ad.event.isMasterRxAddr = true →
      (∀ n ∈ rx, n.event.isMasterRxData = true) →
      pre ++ polls.flatten = sb :: ad :: rx → polls.length ≤ 2147483647 →
      ((rx.length = N ∧ (timeout = -1 ∨ (polls.length : Int) ≤ timeout)) ∨
        (rx.length < N ∧ timeout ≠ -1 ∧ (polls.length : Int) = max 1 timeout)) →
      ∃ out2 w2,
        i2c_read_from k cb a out N s timeout spins pre polls w
          = some ((rx.length : Int), out2, w2) ∧
        out2.take rx.length = rx.map (fun n => n.data) ∧
        w2.i2c_master_buffer_index = rx.length ∧ rx.length ≤ N) ∧
    (timeout ≠ -1 → timeout ≤ 2147483647 → max 1 timeout ≤ (polls2.length : Int) →
      ∃ r, i2c_read_from k cb a out N s timeout spins pre2 polls2 w = some r) ∧
    (∀ r out2 w2,
      i2c_read_from k cb a out N s timeout spins pre2 polls2 w = some (r, out2, w2) →
      r = ((min w2.i2c_master_buffer_index N : Nat) : Int) ∧ 0 ≤ r ∧ r ≤ (N : Int) ∧
      out2 = memcpy out w2.i2c_master_buffer (min w2.i2c_master_buffer_index N)) := by
  have hg1 : ¬ (N > k.I2C_BUFFER_LENGTH) := by omega
  have hg3 : ¬ (N = 0) := by omega
  refine ⟨?_, ?_, ?_⟩
  · intro hnack hbuf hsb had hrx hsched hms hend
    have hcall := read_call k cb a out N s timeout spins pre polls w sb ad rx hcap hN1 hN hst
      hnack hbuf hsb had hrx hsched hms hend
    obtain ⟨a1, a2, a3, a4, a5, a6, a7, a8, a9⟩ := readArm_state k a N s spins w
    have hLm : (N - 1) % 256 = N - 1 := Nat.mod_eq_of_lt (by omega)
    rw [hLm] at a5
    have hjN : rx.length ≤ N := by rcases hend with h | h <;> omega
    obtain ⟨_, r2, r3, r4, _, _, _⟩ := read_run k cb k.I2C_BUFFER_LENGTH (N - 1) sb ad rx
      (readArm k a N s spins w) hsb had hrx a1 a4 a5 (by rw [a8, hnack]) (by rw [a6, hbuf])
      (by omega) hcap (by omega)
    refine ⟨_, _, hcall, ?_, r2, hjN⟩
    rw [memcpy_take _ _ _ (by rw [r4]; omega), r3]
  · intro hne hmax hlen
    have hfor : decide (timeout = -1) = false := by simp [hne]
    obtain ⟨r, hr⟩ := readLoop_total k cb timeout polls2 0
      (irqs k cb pre2 (readArm k a N s spins w)) hmax (Or.inr rfl) (by simpa using hlen)
    exact ⟨((readFinish out N r.1).1, (readFinish out N r.1).2, r.1),
      by simp [i2c_read_from, hg1, hg3, hst, hfor, hr]⟩
  · intro r out2 w2 h
    simp only [i2c_read_from, hg1, hg3, hst, if_false, ne_eq, not_true_eq_false] at h
    split at h
    · simp at h
    · rename_i w1 t1 _
      simp only [readFinish, Option.some.injEq, Prod.mk.injEq] at h
      obtain ⟨h1, h2, h3⟩ := h
      subst h3
      have hmin : (if w1.i2c_master_buffer_index < N then w1.i2c_master_buffer_index else N)
          = min w1.i2c_master_buffer_index N := by
        split
        · rw [Nat.min_eq_left (by omega)]
        · rw [Nat.min_eq_right (by omega)]
      rw [hmin] at h1 h2
      refine ⟨h1.symm, by rw [← h1]; exact Int.natCast_nonneg _, ?_, h2.symm⟩
      rw [← h1]
      exact_mod_cast Nat.min_le_right _ _

/-- Witness of C6: a three-byte read with a timeout of 2 ms to which two bytes are
delivered, and the same read served an unrelated notification. -/
theorem C6_partial_read_witness :
    (∃ out2 w2,
      i2c_read_from hdr none 0x40 [0, 0, 0] 3 true 2 0 [] [[nStart, nRxAddr, nRx 7], [nRx 8]] w0
        = some (2, out2, w2) ∧
      out2.take 2 = [7, 8] ∧ w2.i2c_master_buffer_index = 2 ∧ 2 ≤ 3) ∧
    (∃ r, i2c_read_from hdr none 0x40 [0, 0, 0] 3 true 2 0 [] [[nStart], [nSlaveRxAddr]] w0
      = some r) :=
  have h := C6_partial_read hdr none 0x40 [0, 0, 0] 3 true 2 0 w0 []
    [[nStart, nRxAddr, nRx 7], [nRx 8]] nStart nRxAddr [nRx 7, nRx 8] []
    [[nStart], [nSlaveRxAddr]] (by decide) (by decide) (by decide) (by decide)
  ⟨h.1 (by decide) (by decide) (by decide) (by decide) (by decide) (by decide) (by decide)
      (by decide),
    h.2.1 (by decide) (by decide) (by decide)⟩

/-- The two precondition failures of the entry points when the length is within
the capacity and the state is not `I2C_READY`. -/
theorem wrong_state (k : Consts) (cb : Option i2c_slave_cb) (addr : Nat)
    (data : List Nat) (length : Nat) (wait send_stop : Bool) (spins : Nat) (timeout : Int)
    (pending pre : List Notification) (polls : List (List Notification)) (w : World)
    (hlen : length ≤ k.I2C_BUFFER_LENGTH) (hst : w.i2c_state ≠ I2C_READY) :
    i2c_write_to k cb addr data length wait send_stop spins pending w
      = some (-(k.I2C_STATE : Int), w, pending) ∧
    i2c_read_from k cb addr data length send_stop timeout spins pre polls w
      = some (-(k.I2C_STATE : Int), data, w) := by
  have hg : ¬ (length > k.I2C_BUFFER_LENGTH) := by omega
  simp [i2c_write_to, i2c_read_from, hg, hst]

/-- C7, as the code has it: advisory timeout. A read of `N` bytes (1 to capacity)
armed in `I2C_READY` with a timeout `t` other than -1: if the state is `I2C_MRX`
after the notifications that precede the loop and after each of the first
`P = max(1, t)` batches, the loop ends with its counter at `P`, the call returns, the
state is still `I2C_MRX`, and as long as later notifications have not brought the
state back to `I2C_READY` every `i2c_write_to` or `i2c_read_from` with a length
within the capacity returns `-I2C_STATE` and changes nothing. -/
theorem C7_advisory_timeout (k : Consts) (cb : Option i2c_slave_cb) (a : Nat)
    (out : List Nat) (N : Nat) (s : Bool) (timeout : Int) (spins : Nat) (w : World)
    (pre : List Notification) (polls : List (List Notification)) (P : Nat)
    (hN1 : 1 ≤ N) (hN : N ≤ k.I2C_BUFFER_LENGTH) (hst : w.i2c_state = I2C_READY)
    (hne : timeout ≠ -1) (hmax : timeout ≤ 2147483647)
    (hP : (P : Int) = max 1 timeout) (hlen : P ≤ polls.length)
    (hstay : ∀ j, j ≤ P →
      (irqs k cb (pre ++ (polls.take j).flatten) (readArm k a N s spins w)).i2c_state
        = I2C_MRX) :
    readLoop k cb (decide (timeout = -1)) timeout 0 polls
        (irqs k cb pre (readArm k a N s spins w))
      = some (irqs k cb (pre ++ (polls.take P).flatten) (readArm k a N s spins w), (P : Int)) ∧
    (irqs k cb (pre ++ (polls.take P).flatten) (readArm k a N s spins w)).i2c_state
      = I2C_MRX ∧
    i2c_read_from k cb a out N s timeout spins pre polls w
      = some
        ((readFinish out N
            (irqs k cb (pre ++ (polls.take P).flatten) (readArm k a N s spins w))).1,
          (readFinish out N
            (irqs k cb (pre ++ (polls.take P).flatten) (readArm k a N s spins w))).2,
          irqs k cb (pre ++ (polls.take P).flatten) (readArm k a N s spins w)) ∧
    (∀ (later : List Notification) (addr2 : Nat) (data2 : List Nat) (len2 : Nat)
      (wait2 stop2 : Bool) (spins2 : Nat) (timeout2 : Int) (pending2 pre2 : List Notification)
      (polls2 : List (List Notification)),
      len2 ≤ k.I2C_BUFFER_LENGTH →
      (irqs k cb later
        (irqs k cb (pre ++ (polls.take P).flatten) (readArm k a N s spins w))).i2c_state
          ≠ I2C_READY →
      i2c_write_to k cb addr2 data2 len2 wait2 stop2 spins2 pending2
          (irqs k cb later
            (irqs k cb (pre ++ (polls.take P).flatten) (readArm k a N s spins w)))
        = some (-(k.I2C_STATE : Int),
            irqs k cb later
              (irqs k cb (pre ++ (polls.take P).flatten) (readArm k a N s spins w)),
            pending2) ∧
      i2c_read_from k cb addr2 data2 len2 stop2 timeout2 spins2 pre2 polls2
          (irqs k cb later
            (irqs k cb (pre ++ (polls.take P).flatten) (readArm k a N s spins w)))
        = some (-(k.I2C_STATE : Int), data2,
            irqs k cb later
              (irqs k cb (pre ++ (polls.take P).flatten) (readArm k a N s spins w)))) := by
  have hfor : decide (timeout = -1) = false := by simp [hne]
  have hP1 : 1 ≤ P := by
    have : (1 : Int) ≤ max 1 timeout := le_max_left _ _
    omega
  have hl := readLoop_timeout k cb timeout (P - 1) polls 0
    (irqs k cb pre (readArm k a N s spins w)) (by omega)
    (fun j hj => by
      have := hstay j (by omega)
      rwa [irqs_append] at this)
    (by
      have : ((P - 1 : Nat) : Int) = (P : Int) - 1 := by omega
      rw [this, hP]; simp)
    (fun j hj => by
      rcases le_total (1 : Int) timeout with h | h
      · rw [max_eq_right h] at hP; omega
      · rw [max_eq_left h] at hP; omega)
    (by
      rcases le_total (1 : Int) timeout with h | h
      · rw [max_eq_right h] at hP; omega
      · rw [max_eq_left h] at hP; omega)
  have hPP : P - 1 + 1 = P := by omega
  have hcast : (0 : Int) + ((P - 1 : Nat) : Int) + 1 = (P : Int) := by omega
  rw [hPP, hcast, ← irqs_append] at hl
  have hg1 : ¬ (N > k.I2C_BUFFER_LENGTH) := by omega
  have hg3 : ¬ (N = 0) := by omega
  refine ⟨by rw [hfor]; exact hl, hstay P (le_refl _), ?_, ?_⟩
  · simp only [i2c_read_from, hg1, hg3, hst, hfor, hl, if_false, ne_eq, not_true_eq_false]
  · intro later addr2 data2 len2 wait2 stop2 spins2 timeout2 pending2 pre2 polls2 hl2 hns
    exact wrong_state k cb addr2 data2 len2 wait2 stop2 spins2 timeout2 pending2 pre2 polls2 _
      hl2 hns

/-- Witness of C7: a three-byte read with a timeout of 2 ms that has received one
byte when the second poll ends. -/
theorem C7_advisory_timeout_witness :
    readLoop hdr none (decide ((2 : Int) = -1)) 2 0 [[nStart, nRxAddr], [nRx 7], [nRx 8]]
        (irqs hdr none [] (readArm hdr 0x40 3 true 0 w0))
      = some (irqs hdr none ([] ++ ([[nStart, nRxAddr], [nRx 7], [nRx 8]].take 2).flatten)
          (readArm hdr 0x40 3 true 0 w0), ((2 : Nat) : Int)) ∧
    (irqs hdr none ([] ++ ([[nStart, nRxAddr], [nRx 7], [nRx 8]].take 2).flatten)
      (readArm hdr 0x40 3 true 0 w0)).i2c_state = I2C_MRX :=
  have h := C7_advisory_timeout hdr none 0x40 [0, 0, 0] 3 true 2 0 w0 []
    [[nStart, nRxAddr], [nRx 7], [nRx 8]] 2 (by decide) (by decide) (by decide) (by decide)
    (by decide) (by decide) (by decide) (by decide)
  ⟨h.1, h.2.1⟩

/-- C7, counterexample: a three-byte read with a timeout of 100 ms is armed and a
slave address-matched notification arrives during the first delay. That
notification does not bring the state back to `I2C_READY` (it sets `I2C_SRX`), yet
the loop ends at its first poll, not at the 100th, and the call returns with the
state `I2C_SRX`, not `I2C_MRX`. -/
theorem C7_advisory_timeout_counterexample :
    (I2C_IRQHandler hdr none nSlaveRxAddr armedRead).i2c_state ≠ I2C_READY ∧
    readLoop hdr none false 100 0 ([nSlaveRxAddr] :: List.replicate 99 []) armedRead
      = some (I2C_IRQHandler hdr none nSlaveRxAddr armedRead, 1) ∧
    (1 : Int) ≠ max 1 100 ∧
    i2c_read_from hdr none 0x40 [0, 0, 0] 3 true 100 0 []
        ([nSlaveRxAddr] :: List.replicate 99 []) w0
      = some (0, [0, 0, 0], I2C_IRQHandler hdr none nSlaveRxAddr armedRead) ∧
    (I2C_IRQHandler hdr none nSlaveRxAddr armedRead).i2c_state = I2C_SRX := by
  refine ⟨by decide, by decide, by decide, by decide, by decide⟩

theorem readArm_log (k : Consts) (a : Nat) (len : Nat) (s : Bool) (spins : Nat) (w : World) :
    (readArm k a len s spins w).log =
      if w.i2c_in_repstart = true then
        w.log ++ [I2C_GenerateSTOP false]
          ++ List.replicate (spins + 1)
              (I2C_SendData (((k.I2C_READ % 256) ||| (a <<< 1)) % 256))
          ++ itConfigAll true
      else w.log ++ [I2C_GenerateSTOP false, I2C_GenerateSTART true] := by
  cases h : w.i2c_in_repstart <;> simp [readArm, startOrResend, emit, emits, h]

theorem startSent_run (k : Consts) (cb : Option i2c_slave_cb) :
    ∀ (sbs : List Notification) (w : World),
      (∀ n ∈ sbs, n.event.isStartSent = true) →
      irqs k cb sbs w
        = emits (List.replicate sbs.length (I2C_SendData w.i2c_slave_addr_rw)) w
  | [], w, _ => by simp [irqs_nil, emits]
  | n :: sbs, w, h => by
    rw [irqs_cons, handler_startSent k cb n w (h n (by simp)),
      startSent_run k cb sbs _ (fun x hx => h x (by simp [hx]))]
    simp [emit, emits, List.replicate_succ]

/-- A read armed in `I2C_READY` whose wait ends at the first millisecond, the state
being `I2C_MRX` and no byte stored yet: the call returns 0 in the context the
notifications served so far have produced. -/
theorem read_timeout_call (k : Consts) (cb : Option i2c_slave_cb) (a : Nat)
    (out : List Nat) (N : Nat) (s : Bool) (spins : Nat) (pre : List Notification) (w : World)
    (hN1 : 1 ≤ N) (hN : N ≤ k.I2C_BUFFER_LENGTH) (hst : w.i2c_state = I2C_READY)
    (hmrx : (irqs k cb pre (readArm k a N s spins w)).i2c_state = I2C_MRX)
    (hidx : (irqs k cb pre (readArm k a N s spins w)).i2c_master_buffer_index = 0) :
    i2c_read_from k cb a out N s 1 spins pre [[]] w
      = some (0, out, irqs k cb pre (readArm k a N s spins w)) := by
  have hn1 : ¬ (N > k.I2C_BUFFER_LENGTH) := by omega
  have hn2 : ¬ (w.i2c_state ≠ I2C_READY) := by simp [hst]
  have hn3 : ¬ (N = 0) := by omega
  have hloop : readLoop k cb (decide ((1 : Int) = -1)) 1 0 [[]]
      (irqs k cb pre (readArm k a N s spins w))
        = some (irqs k cb pre (readArm k a N s spins w), 1) := by
    simp [readLoop, hmrx, irqs_nil]
  have hlt : (irqs k cb pre (readArm k a N s spins w)).i2c_master_buffer_index < N := by
    rw [hidx]; omega
  have hpos : 0 < N := by omega
  simp only [i2c_read_from, if_neg hn1, if_neg hn2, if_neg hn3, hloop, readFinish, memcpy,
    if_pos hlt, hidx]
  simp [hpos]

/-- C8: repeated-start sequencing. A write of 1 to capacity bytes with
`send_stop = false`, armed in `I2C_READY` with no repeated start pending and served
to completion, ends with `i2c_in_repstart` set, the three interrupt sources
disabled, a start generated and the state `I2C_READY`. The read of 1 to capacity
bytes that follows, `i2c_read_from`, clears the flag, turns stop generation off,
hands the address byte to `I2C_SendData` directly, re-enables the three sources
and generates no start: a call that comes back at its first millisecond returns in
exactly that context, and a call whose address phase (start-sent notifications,
then address-matched) is served before that returns in the context after the
address phase. From the arming of the write to the end of the read's address phase
no stop condition is generated. -/
theorem C8_repeated_start (k : Consts) (cb : Option i2c_slave_cb) (a : Nat)
    (data out : List Nat) (N : Nat) (wait sR : Bool) (spinsW spinsR : Nat) (w : World)
    (sbW : Notification) (txs sbs : List Notification) (ad : Notification)
    (hcap : k.I2C_BUFFER_LENGTH ≤ 255)
    (hpos : 1 ≤ data.length) (hL : data.length ≤ k.I2C_BUFFER_LENGTH)
    (hN1 : 1 ≤ N) (hN : N ≤ k.I2C_BUFFER_LENGTH)
    (hst : w.i2c_state = I2C_READY) (hrep : w.i2c_in_repstart = false)
    (hsbW : sbW.event.isStartSent = true) (htx : ∀ n ∈ txs, n.event.isMasterTx = true)
    (htxlen : txs.length = data.length + 1)
    (hsbs : ∀ n ∈ sbs, n.event.isStartSent = true)
    (had : ad.event.isMasterRxAddr = true) :
    ∃ w1 rest,
      i2c_write_to k cb a data data.length wait false spinsW (sbW :: txs) w
        = some (0, w1, rest) ∧
      (irqs k cb rest w1).i2c_state = I2C_READY ∧
      (irqs k cb rest w1).i2c_in_repstart = true ∧
      (irqs k cb rest w1).log =
        w.log ++ [I2C_GenerateSTOP false, I2C_GenerateSTART true]
          ++ (I2C_SendData (((k.I2C_WRITE % 256) ||| (a <<< 1)) % 256)
              :: data.map I2C_SendData)
          ++ itConfigAll false ++ [I2C_GenerateSTART true] ∧
      i2c_read_from k cb a out N sR 1 spinsR [] [[]] (irqs k cb rest w1)
        = some (0, out, readArm k a N sR spinsR (irqs k cb rest w1)) ∧
      i2c_read_from k cb a out N sR 1 spinsR (sbs ++ [ad]) [[]] (irqs k cb rest w1)
        = some (0, out,
            irqs k cb (sbs ++ [ad]) (readArm k a N sR spinsR (irqs k cb rest w1))) ∧
      (readArm k a N sR spinsR (irqs k cb rest w1)).i2c_in_repstart = false ∧
      (readArm k a N sR spinsR (irqs k cb rest w1)).log =
        (irqs k cb rest w1).log ++ [I2C_GenerateSTOP false]
          ++ List.replicate (spinsR + 1)
              (I2C_SendData (((k.I2C_READ % 256) ||| (a <<< 1)) % 256))
          ++ itConfigAll true ∧
      (irqs k cb (sbs ++ [ad]) (readArm k a N sR spinsR (irqs k cb rest w1))).log =
        (readArm k a N sR spinsR (irqs k cb rest w1)).log
          ++ List.replicate sbs.length
              (I2C_SendData (((k.I2C_READ % 256) ||| (a <<< 1)) % 256))
          ++ [I2C_AcknowledgeConfig (decide ((N - 1) % 256 ≠ 0))] ∧
      I2C_GenerateSTOP true ∉
        (irqs k cb (sbs ++ [ad]) (readArm k a N sR spinsR (irqs k cb rest w1))).log.drop
          w.log.length ∧
      I2C_GenerateSTART true ∉
        (readArm k a N sR spinsR (irqs k cb rest w1)).log.drop
          (irqs k cb rest w1).log.length := by
  obtain ⟨w1, rest, hcall, hfin⟩ :=
    write_call k cb a data wait false spinsW w sbW txs hcap hL hpos hst hsbW htx htxlen
  obtain ⟨h1, h2, h3, h4, h5, h6, h7, h8, h9⟩ :=
    writeArm_state k a data data.length false spinsW w
  have hlogW := writeArm_log k a data data.length false spinsW w
  rw [hrep] at hlogW
  obtain ⟨d1, _, _, d4, d5⟩ := writeDone_facts k a data false spinsW w
  rw [← hfin] at d1 d4 d5
  simp only [Bool.not_false] at d4
  simp only [hlogW, Bool.false_eq_true, if_false] at d5
  obtain ⟨a1, a2, a3, a4, a5, a6, a7, a8, a9⟩ := readArm_state k a N sR spinsR (irqs k cb rest w1)
  have hlogR := readArm_log k a N sR spinsR (irqs k cb rest w1)
  rw [d4] at hlogR
  simp only [if_true] at hlogR
  have hphase : irqs k cb (sbs ++ [ad]) (readArm k a N sR spinsR (irqs k cb rest w1)) =
      I2C_IRQHandler k cb ad
        (emits (List.replicate sbs.length
          (I2C_SendData (readArm k a N sR spinsR (irqs k cb rest w1)).i2c_slave_addr_rw))
          (readArm k a N sR spinsR (irqs k cb rest w1))) := by
    rw [irqs_append, startSent_run k cb sbs _ hsbs, irqs_cons, irqs_nil]
  have hrun : (irqs k cb (sbs ++ [ad]) (readArm k a N sR spinsR (irqs k cb rest w1))).log =
      (readArm k a N sR spinsR (irqs k cb rest w1)).log
        ++ List.replicate sbs.length
            (I2C_SendData (((k.I2C_READ % 256) ||| (a <<< 1)) % 256))
        ++ [I2C_AcknowledgeConfig (decide ((N - 1) % 256 ≠ 0))] := by
    rw [hphase, handler_masterRxAddr k cb ad _ had]
    by_cases hz : (N - 1) % 256 = 0
    · simp [emits, emit, a5, a7, hz]
    · simp [emits, emit, a5, a7, hz]
  have hmrx : (irqs k cb (sbs ++ [ad])
      (readArm k a N sR spinsR (irqs k cb rest w1))).i2c_state = I2C_MRX := by
    rw [hphase, handler_masterRxAddr k cb ad _ had]
    split_ifs <;> simpa [emits, emit] using a1
  have hidx : (irqs k cb (sbs ++ [ad])
      (readArm k a N sR spinsR (irqs k cb rest w1))).i2c_master_buffer_index = 0 := by
    rw [hphase, handler_masterRxAddr k cb ad _ had]
    split_ifs <;> simpa [emits, emit] using a4
  refine ⟨w1, rest, hcall, d1, d4, ?_,
    read_timeout_call k cb a out N sR spinsR [] _ hN1 hN d1
      (by rw [irqs_nil]; exact a1) (by rw [irqs_nil]; exact a4),
    read_timeout_call k cb a out N sR spinsR (sbs ++ [ad]) _ hN1 hN d1 hmrx hidx,
    a9, hlogR, hrun, ?_, ?_⟩
  · rw [d5]; simp [List.append_assoc]
  · rw [hrun, hlogR, d5]
    simp [List.append_assoc, itConfigAll, List.mem_replicate]
  · rw [hlogR]
    simp [List.append_assoc, itConfigAll, List.mem_replicate]

/-- Witness of C8: the one-byte write of 0xE3 without stop, then a three-byte read. -/
theorem C8_repeated_start_witness :
    ∃ w1 rest,
      i2c_write_to hdr none 0x40 [0xE3] 1 true false 0 [nStart, nTx, nTx] w0
        = some (0, w1, rest) ∧
      (irqs hdr none rest w1).i2c_in_repstart = true ∧
      i2c_read_from hdr none 0x40 [0, 0, 0] 3 true 1 0 ([nStart] ++ [nRxAddr]) [[]]
          (irqs hdr none rest w1)
        = some (0, [0, 0, 0],
            irqs hdr none ([nStart] ++ [nRxAddr])
              (readArm hdr 0x40 3 true 0 (irqs hdr none rest w1))) ∧
      I2C_GenerateSTOP true ∉
        (irqs hdr none ([nStart] ++ [nRxAddr])
          (readArm hdr 0x40 3 true 0 (irqs hdr none rest w1))).log.drop w0.log.length := by
  obtain ⟨w1, rest, h1, _, h3, _, _, h6, _, _, _, h10, _⟩ :=
    C8_repeated_start hdr none 0x40 [0xE3] [0, 0, 0] 3 true true 0 0 w0 nStart [nTx, nTx]
      [nStart] nRxAddr
      (by decide) (by decide) (by decide) (by decide) (by decide) (by decide) (by decide)
      (by decide) (by decide) (by decide) (by decide) (by decide)
  exact ⟨w1, rest, h1, h3, h6, h10⟩

theorem handler_slaveStop (k : Consts) (c : i2c_slave_cb) (n : Notification)
    (w : World) (h : n.event.isSlaveStop = true) (hc : c.on_receive = true) :
    I2C_IRQHandler k (some c) n w =
      { w with
        i2c_slave_rxbuffer_index := 0
        log := w.log ++ [CTRL1_set_PE,
          on_receive w.i2c_slave_rxbuffer w.i2c_slave_rxbuffer_index] } := by
  simp only [Event.isSlaveStop, Bool.and_eq_true, Bool.not_eq_true'] at h
  obtain ⟨⟨⟨⟨⟨⟨h1, h2⟩, h3⟩, h4⟩, h5⟩, h6⟩, h7⟩ := h
  simp [I2C_IRQHandler, slaveRole, slaveAddressed, slaveReceiver, h1, h2, h3, h4, h5, h6,
    errorFlags_noError k _ _ h7, hc, emit]

theorem sentBytes_append (xs ys : List HwAction) :
    sentBytes (xs ++ ys) = sentBytes xs ++ sentBytes ys := by
  induction xs with
  | nil => rfl
  | cons x xs ih => cases x <;> simp [sentBytes, ih]

theorem handler_slaveTxData (k : Consts) (cb : Option i2c_slave_cb) (n : Notification)
    (w : World) (h : n.event.isSlaveTxData = true) :
    I2C_IRQHandler k cb n w =
      if w.i2c_slave_txbuffer_index < w.i2c_slave_txbuffer_length then
        { w with
          i2c_slave_txbuffer_index := (w.i2c_slave_txbuffer_index + 1) % 256
          log := w.log ++ [I2C_AcknowledgeConfig true,
            I2C_SendData (w.i2c_slave_txbuffer.getD w.i2c_slave_txbuffer_index 0)] }
      else
        { w with log := w.log ++ [I2C_AcknowledgeConfig true, I2C_SendData 0xff] } := by
  simp only [Event.isSlaveTxData, Bool.and_eq_true, Bool.not_eq_true'] at h
  obtain ⟨⟨⟨⟨⟨h1, h2⟩, h3⟩, h4⟩, h5⟩, h6⟩ := h
  by_cases hc : w.i2c_slave_txbuffer_index < w.i2c_slave_txbuffer_length <;>
    simp [I2C_IRQHandler, slaveRole, slaveAddressed, slaveTransmitter, h1, h2, h3, h4, h5,
      errorFlags_noError k _ _ h6, hc, emit]

/-- The slave transmitter served transmit notifications: with `j` the number of
bytes already requested, the next ones are the buffer bytes of index `j`, `j + 1`,
... while below the length, and 0xFF from the length on. -/
theorem slave_tx_run (k : Consts) (cb : Option i2c_slave_cb) (buf : List Nat) (L : Nat) :
    ∀ (txs : List Notification) (w : World) (j : Nat),
      (∀ n ∈ txs, n.event.isSlaveTxData = true) →
      L ≤ 255 → w.i2c_slave_txbuffer = buf → w.i2c_slave_txbuffer_length = L →
      w.i2c_slave_txbuffer_index = min j L →
      sentBytes (irqs k cb txs w).log =
        sentBytes w.log ++
          (List.range' j txs.length).map (fun i => if i < L then buf.getD i 0 else 0xff)
  | [], w, j, _, _, _, _, _ => by simp [irqs_nil]
  | n :: txs, w, j, hall, hL, hb, hl, hi => by
    have hstep := handler_slaveTxData k cb n w (hall n (by simp))
    rw [hl, hi] at hstep
    by_cases hc : j < L
    · have hm : min j L = j := Nat.min_eq_left (by omega)
      rw [hm, if_pos hc, Nat.mod_eq_of_lt (by omega), hb] at hstep
      have ih := slave_tx_run k cb buf L txs (I2C_IRQHandler k cb n w) (j + 1)
        (fun x hx => hall x (by simp [hx])) hL (by rw [hstep])
        (by rw [hstep])
        (by rw [hstep]; simp; omega)
      rw [irqs_cons, ih, hstep]
      simp [sentBytes_append, sentBytes, List.range'_succ, hc]
    · have hm : min j L = L := Nat.min_eq_right (by omega)
      rw [hm, if_neg (by omega)] at hstep
      have ih := slave_tx_run k cb buf L txs (I2C_IRQHandler k cb n w) (j + 1)
        (fun x hx => hall x (by simp [hx])) hL (by rw [hstep]; exact hb)
        (by rw [hstep])
        (by rw [hstep]; simp [hi, hm]; omega)
      rw [irqs_cons, ih, hstep]
      simp [sentBytes_append, sentBytes, List.range'_succ, hc]

theorem getD_append_left (d tail : List Nat) (i : Nat) (h : i < d.length) :
    (d ++ tail).getD i 0 = d.getD i 0 := by
  simp [List.getD_eq_getElem?_getD, List.getElem?_append_left h]

/-- C10: slave transmit stream. After a slave address match with transmitter role
in which `on_transmit` leaves the `L` bytes `d` in the tx buffer (`L` at most the
capacity), the slave transmitter notifications that carry byte-transfer-complete or
transmit-register-empty and no acknowledge-failure (the address-matched one
included when it carries one of the two flags) send, in order, `d[i]` for the
`i`-th of them while `i < L` and 0xFF from then on. A slave transmitter
notification with acknowledge-failure sends nothing and sets the state
`I2C_READY`. -/
theorem C10_slave_transmit_stream (k : Consts) (c : i2c_slave_cb)
    (f : List Nat → Nat → List Nat × Nat) (w : World) (ad : Notification)
    (txs : List Notification) (d tail : List Nat)
    (hcap : k.I2C_BUFFER_LENGTH ≤ 255) (hL : d.length ≤ k.I2C_BUFFER_LENGTH)
    (hf : c.on_transmit = some f) (hsup : f w.i2c_slave_txbuffer 0 = (d ++ tail, d.length))
    (had : ad.event.isSlaveTxAddr = true)
    (htx : ∀ n ∈ txs, n.event.isSlaveTxData = true) :
    sentBytes (irqs k (some c) (ad :: txs) w).log =
      sentBytes w.log ++
        (List.range (txs.length + (if (ad.event.BTF || ad.event.TxE) = true then 1 else 0))).map
          (fun i => if i < d.length then d.getD i 0 else 0xff) ∧
    (∀ (cb2 : Option i2c_slave_cb) (v : World) (n : Notification),
      n.event.MSL = false → n.event.TRA = true → n.event.AF = true →
      sentBytes (I2C_IRQHandler k cb2 n v).log = sentBytes v.log ∧
      (I2C_IRQHandler k cb2 n v).i2c_state = I2C_READY) := by
  refine ⟨?_, ?_⟩
  · simp only [Event.isSlaveTxAddr, Bool.and_eq_true, Bool.not_eq_true'] at had
    obtain ⟨⟨⟨⟨h1, h2⟩, h3⟩, h4⟩, h5⟩ := had
    have hmod : d.length % 256 = d.length := Nat.mod_eq_of_lt (by omega)
    have hfun : ∀ i, (if i < d.length then (d ++ tail).getD i 0 else 0xff)
        = (if i < d.length then d.getD i 0 else 0xff) := by
      intro i
      split
      · rename_i h; rw [getD_append_left d tail i h]
      · rfl
    by_cases hs : (ad.event.BTF || ad.event.TxE) = true
    · by_cases hz : 0 < d.length
      · have hA : I2C_IRQHandler k (some c) ad w =
            { w with
              i2c_state := I2C_STX
              i2c_slave_txbuffer := d ++ tail
              i2c_slave_txbuffer_length := d.length
              i2c_slave_txbuffer_index := 1
              log := w.log ++ [on_transmit, I2C_AcknowledgeConfig true,
                I2C_SendData ((d ++ tail).getD 0 0)] } := by
          simp [I2C_IRQHandler, slaveRole, slaveAddressed, slaveTransmitter, h1, h2, h3, h4,
            errorFlags_noError k _ _ h5, hf, hsup, hmod, emit, hs, hz]
        have run := slave_tx_run k (some c) (d ++ tail) d.length txs
          (I2C_IRQHandler k (some c) ad w) 1 htx (by omega) (by rw [hA]) (by rw [hA])
          (by rw [hA]; simp; omega)
        rw [irqs_cons, run, hA, if_pos hs, List.range_eq_range',
          List.range'_succ]
        rw [getD_append_left d tail 0 hz]
        simp only [hfun]
        simp [sentBytes_append, sentBytes, hz]
      · have hd0 : d.length = 0 := by omega
        have hA : I2C_IRQHandler k (some c) ad w =
            { w with
              i2c_state := I2C_STX
              i2c_slave_txbuffer := d ++ tail
              i2c_slave_txbuffer_length := d.length
              i2c_slave_txbuffer_index := 0
              log := w.log ++ [on_transmit, I2C_AcknowledgeConfig true,
                I2C_SendData 0xff] } := by
          simp [I2C_IRQHandler, slaveRole, slaveAddressed, slaveTransmitter, h1, h2, h3, h4,
            errorFlags_noError k _ _ h5, hf, hsup, hmod, emit, hs, hd0]
        have run := slave_tx_run k (some c) (d ++ tail) d.length txs
          (I2C_IRQHandler k (some c) ad w) 1 htx (by omega) (by rw [hA]) (by rw [hA])
          (by rw [hA]; simp [hd0])
        rw [irqs_cons, run, hA, if_pos hs, List.range_eq_range',
          List.range'_succ]
        simp only [hfun]
        simp [sentBytes_append, sentBytes, hd0]
    · have hA : I2C_IRQHandler k (some c) ad w =
          { w with
            i2c_state := I2C_STX
            i2c_slave_txbuffer := d ++ tail
            i2c_slave_txbuffer_length := d.length
            i2c_slave_txbuffer_index := 0
            log := w.log ++ [on_transmit, I2C_AcknowledgeConfig true] } := by
        simp [I2C_IRQHandler, slaveRole, slaveAddressed, slaveTransmitter, h1, h2, h3, h4,
          errorFlags_noError k _ _ h5, hf, hsup, hmod, emit, hs]
      have run := slave_tx_run k (some c) (d ++ tail) d.length txs
        (I2C_IRQHandler k (some c) ad w) 0 htx (by omega) (by rw [hA]) (by rw [hA])
        (by rw [hA]; simp)
      rw [irqs_cons, run, hA, if_neg hs, List.range_eq_range']
      simp only [hfun]
      simp [sentBytes_append, sentBytes]
  · intro cb2 v n h1 h2 h3
    have hE : ∀ x : World, errorFlags k {} x = x := fun x => by simp [errorFlags]
    rcases cb2 with _ | c2
    · by_cases ha : n.event.ADDR = true <;>
        simp [I2C_IRQHandler, slaveRole, slaveAddressed, slaveTransmitter, h1, h2, h3, hE, emit,
          emits, ha, sentBytes_append, sentBytes]
    · rcases hot : c2.on_transmit with _ | g <;> by_cases ha : n.event.ADDR = true <;>
        simp [I2C_IRQHandler, slaveRole, slaveAddressed, slaveTransmitter, h1, h2, h3, hE, emit,
          emits, ha, hot, sentBytes_append, sentBytes]

/-- Witness of C10: `on_transmit` supplies 0xAB, 0xCD and four bytes are requested. -/
theorem C10_slave_transmit_stream_witness :
    sentBytes
        (irqs hdr (some cbExample) (nSlaveTxAddr :: [nSlaveTx, nSlaveTx, nSlaveTx]) w0).log =
      sentBytes w0.log ++
        (List.range ([nSlaveTx, nSlaveTx, nSlaveTx].length +
            (if (nSlaveTxAddr.event.BTF || nSlaveTxAddr.event.TxE) = true then 1 else 0))).map
          (fun i => if i < [0xAB, 0xCD].length then [0xAB, 0xCD].getD i 0 else 0xff) :=
  (C10_slave_transmit_stream hdr cbExample (fun buf _ => ([0xAB, 0xCD] ++ buf.drop 2, 2)) w0
    nSlaveTxAddr [nSlaveTx, nSlaveTx, nSlaveTx] [0xAB, 0xCD] (w0.i2c_slave_txbuffer.drop 2)
    (by decide) (by decide) rfl (by decide) (by decide) (by decide)).1

theorem handler_eq_roleStep (k : Consts) (cb : Option i2c_slave_cb) (n : Notification)
    (w : World) :
    I2C_IRQHandler k cb n w
      = errorFlags k (roleStep k cb n w).2 (roleStep k cb n w).1 := rfl

/-- The error-flag tests in closed form: they write the error slot and the log and
nothing else. -/
theorem errorFlags_eq (k : Consts) (e : Event) (w : World) :
    errorFlags k e w =
      { w with
        i2c_error := lastSetFlagCode k e w.i2c_error
        log := w.log ++ errorActions e } := by
  cases h1 : e.BERR <;> cases h2 : e.ARLO <;> cases h3 : e.OVR <;> cases h4 : e.PECERR <;>
    cases h5 : e.TIMEOUT <;> cases h6 : e.SMBALERT <;>
    simp [errorFlags, lastSetFlagCode, errorActions, emit, emits, h1, h2, h3, h4, h5, h6]

theorem stop_mem_errorActions (e : Event) :
    I2C_GenerateSTOP true ∈ errorActions e ↔ e.BERR = true := by
  cases h1 : e.BERR <;> cases h2 : e.ARLO <;> cases h3 : e.OVR <;> cases h4 : e.PECERR <;>
    cases h5 : e.TIMEOUT <;> cases h6 : e.SMBALERT <;>
    simp [errorActions, h1, h2, h3, h4, h5, h6]

theorem slaveTransmitter_snd (e : Event) (w : World) :
    (slaveTransmitter e w).2 = if e.AF then {} else e := by
  unfold slaveTransmitter
  cases h3 : e.AF
  · simp only [Bool.false_eq_true, if_false]
    split_ifs <;> rfl
  · simp only [if_true]
    split_ifs <;> rfl

theorem roleStep_event (k : Consts) (cb : Option i2c_slave_cb) (n : Notification) (w : World) :
    (roleStep k cb n w).2 = if n.event.isSlaveTxNack then {} else n.event := by
  cases h1 : n.event.MSL <;> cases h2 : n.event.TRA <;> cases h3 : n.event.AF <;>
    simp [roleStep, slaveRole, slaveTransmitter_snd, Event.isSlaveTxNack, h1, h2, h3]

theorem masterTransmitter_blocks (k : Consts) (e : Event) (w : World) :
    masterTransmitter k e w = mtNack k e (mtSend e w) := rfl

theorem slaveTransmitter_blocks (e : Event) (w : World) :
    slaveTransmitter e w = stSend (stNack e (emit (I2C_AcknowledgeConfig true) w)) := rfl

theorem slaveReceiver_blocks (k : Consts) (cb : Option i2c_slave_cb) (n : Notification)
    (w : World) :
    slaveReceiver k cb n w = srNack n.event (srStop cb n.event (srData k n w)) := rfl

theorem masterFrame_refl (w : World) : MasterFrame w w :=
  ⟨rfl, rfl, rfl, rfl, rfl, rfl, List.prefix_refl _⟩

theorem masterFrame_trans {a b c : World} (h1 : MasterFrame a b) (h2 : MasterFrame b c) :
    MasterFrame a c := by
  obtain ⟨a1, a2, a3, a4, a5, a6, a7⟩ := h1
  obtain ⟨b1, b2, b3, b4, b5, b6, b7⟩ := h2
  exact ⟨b1.trans a1, b2.trans a2, b3.trans a3, b4.trans a4, b5.trans a5, b6.trans a6,
    a7.trans b7⟩

theorem masterFrame_emit (a : HwAction) (w : World) : MasterFrame w (emit a w) := by
  simp [MasterFrame, emit]

theorem mtSend_frame (e : Event) (w : World) : MasterFrame w (mtSend e w) := by
  simp only [mtSend, repeatedStart, emit, emits, MasterFrame]
  split_ifs <;> simp [List.append_assoc]

theorem mtNack_frame (k : Consts) (e : Event) (w : World) : MasterFrame w (mtNack k e w) := by
  simp only [mtNack, emit, MasterFrame]
  split_ifs <;> simp [List.append_assoc]

theorem mrAddr_frame (e : Event) (w : World) : MasterFrame w (mrAddr e w) := by
  simp only [mrAddr, emit, MasterFrame]
  split_ifs <;> simp

theorem mrData_frame (n : Notification) (w : World) : MasterFrame w (mrData n w) := by
  simp only [mrData, repeatedStart, emit, emits, MasterFrame]
  split_ifs <;> simp [List.append_assoc]

theorem mrNack_frame (n : Notification) (w : World) : MasterFrame w (mrNack n w) := by
  simp only [mrNack, repeatedStart, emit, emits, MasterFrame]
  split_ifs <;> simp [List.append_assoc]

theorem masterRole_blocks (k : Consts) (n : Notification) (w : World) :
    masterRole k n w =
      if n.event.TRA then mtNack k n.event (mtSend n.event (sbStep n w))
      else mrNack n (mrData n (mrAddr n.event (sbStep n w))) := rfl

theorem sbStep_frame (n : Notification) (w : World) : MasterFrame w (sbStep n w) := by
  unfold sbStep
  split
  · exact masterFrame_emit _ _
  · exact masterFrame_refl _

theorem masterRole_frame (k : Consts) (n : Notification) (w : World) :
    MasterFrame w (masterRole k n w) := by
  rw [masterRole_blocks]
  split
  · exact masterFrame_trans (sbStep_frame n w)
      (masterFrame_trans (mtSend_frame _ _) (mtNack_frame _ _ _))
  · exact masterFrame_trans (sbStep_frame n w)
      (masterFrame_trans (mrAddr_frame _ _)
        (masterFrame_trans (mrData_frame _ _) (mrNack_frame _ _)))

theorem newLog_append (a b c : World) (h1 : a.log <+: b.log) (h2 : b.log <+: c.log) :
    newLog a c = newLog a b ++ newLog b c := by
  obtain ⟨d1, hd1⟩ := h1
  obtain ⟨d2, hd2⟩ := h2
  simp [newLog, ← hd2, ← hd1, List.append_assoc]

theorem newLog_self (a : World) : newLog a a = [] := by simp [newLog]

theorem noStop_refl (w : World) : NoStop w w :=
  ⟨List.prefix_refl _, by simp [newLog_self]⟩

theorem noStop_trans {a b c : World} (h1 : NoStop a b) (h2 : NoStop b c) : NoStop a c := by
  refine ⟨h1.1.trans h2.1, ?_⟩
  rw [newLog_append a b c h1.1 h2.1, List.mem_append]
  exact fun h => h.elim h1.2 h2.2

theorem slaveRole_blocks (k : Consts) (cb : Option i2c_slave_cb) (n : Notification)
    (w : World) :
    slaveRole k cb n w =
      if n.event.TRA then
        stSend (stNack n.event (emit (I2C_AcknowledgeConfig true) (slaveAddressed cb n.event w)))
      else
        (srNack n.event (srStop cb n.event (srData k n (slaveAddressed cb n.event w))),
          n.event) := rfl

/-- The address-match block in closed form. -/
theorem slaveAddressed_eq (cb : Option i2c_slave_cb) (e : Event) (w : World) :
    slaveAddressed cb e w =
      if e.ADDR then
        if e.TRA || e.TxE then
          match cb.bind (fun c => c.on_transmit) with
          | some f =>
            { w with
              i2c_state := I2C_STX
              i2c_slave_txbuffer_index := 0
              i2c_slave_txbuffer := (f w.i2c_slave_txbuffer 0).1
              i2c_slave_txbuffer_length := (f w.i2c_slave_txbuffer 0).2 % 256
              log := w.log ++ [on_transmit] }
          | none =>
            { w with
              i2c_state := I2C_STX
              i2c_slave_txbuffer_index := 0
              i2c_slave_txbuffer_length := 0 }
        else { w with i2c_state := I2C_SRX, i2c_slave_rxbuffer_index := 0 }
      else w := by
  rcases cb with _ | c
  · simp [slaveAddressed]
  · rcases h : c.on_transmit with _ | f <;> simp [slaveAddressed, h, emit]

theorem slaveAddressed_facts (k : Consts) (cb : Option i2c_slave_cb) (e : Event) (w : World) :
    NoStop w (slaveAddressed cb e w) ∧
    (slaveAddressed cb e w).i2c_slave_rxbuffer = w.i2c_slave_rxbuffer ∧
    (slaveAddressed cb e w).i2c_slave_rxbuffer_index ≤ w.i2c_slave_rxbuffer_index ∧
    (slaveAddressed cb e w).i2c_error = w.i2c_error ∧
    (cbBounded k cb → BufInv k w → BufInv k (slaveAddressed cb e w)) := by
  rcases cb with _ | c
  · simp only [slaveAddressed, NoStop, newLog, BufInv, cbBounded]
    split_ifs <;> simp_all
  · rcases h : c.on_transmit with _ | f
    · simp only [slaveAddressed, NoStop, newLog, BufInv, cbBounded, h]
      split_ifs <;> simp_all
    · simp only [slaveAddressed, NoStop, newLog, BufInv, cbBounded, h, emit]
      split_ifs
      · refine ⟨by simp, rfl, le_refl _, rfl, ?_⟩
        intro hb hi
        have := hb c rfl f h w.i2c_slave_txbuffer 0
        refine ⟨Nat.zero_le _, ?_, hi.2.2.1, hi.2.2.2⟩
        exact le_trans (Nat.mod_le _ _) this
      · simp_all
      · simp_all

theorem emitAck_facts (k : Consts) (w : World) :
    NoStop w (emit (I2C_AcknowledgeConfig true) w) ∧
    (BufInv k w → BufInv k (emit (I2C_AcknowledgeConfig true) w)) := by
  simp [NoStop, newLog, BufInv, emit]

theorem stNack_facts (k : Consts) (e : Event) (w : World) :
    NoStop w (stNack e w).1 ∧
    (stNack e w).1.i2c_slave_rxbuffer = w.i2c_slave_rxbuffer ∧
    (stNack e w).1.i2c_slave_rxbuffer_index = w.i2c_slave_rxbuffer_index ∧
    (stNack e w).1.i2c_error = w.i2c_error ∧
    (BufInv k w → BufInv k (stNack e w).1) := by
  simp only [stNack, NoStop, newLog, BufInv, emits]
  split_ifs <;> simp

theorem stSend_facts (k : Consts) (r : World × Event) :
    NoStop r.1 (stSend r).1 ∧
    (stSend r).1.i2c_slave_rxbuffer = r.1.i2c_slave_rxbuffer ∧
    (stSend r).1.i2c_slave_rxbuffer_index = r.1.i2c_slave_rxbuffer_index ∧
    (stSend r).1.i2c_error = r.1.i2c_error ∧
    (stSend r).2 = r.2 ∧
    (BufInv k r.1 → BufInv k (stSend r).1) := by
  simp only [stSend, NoStop, newLog, BufInv, emit]
  split_ifs with h1 h2
  · refine ⟨by simp, rfl, rfl, rfl, rfl, ?_⟩
    intro hi
    refine ⟨?_, hi.2.1, hi.2.2.1, hi.2.2.2⟩
    show (r.1.i2c_slave_txbuffer_index + 1) % 256 ≤ r.1.i2c_slave_txbuffer_length
    exact le_trans (Nat.mod_le _ _) (by omega)
  · simp
  · simp

theorem srData_facts (k : Consts) (n : Notification) (w : World) :
    NoStop w (srData k n w) ∧
    (w.i2c_slave_rxbuffer_index ≤ k.I2C_BUFFER_LENGTH →
      (srData k n w).i2c_slave_rxbuffer_index ≤ k.I2C_BUFFER_LENGTH) ∧
    ((srData k n w).i2c_slave_rxbuffer = w.i2c_slave_rxbuffer ∨
      ∃ i, i < k.I2C_BUFFER_LENGTH ∧
        (srData k n w).i2c_slave_rxbuffer = w.i2c_slave_rxbuffer.set i n.data) ∧
    (srData k n w).i2c_error = w.i2c_error ∧
    (BufInv k w → BufInv k (srData k n w)) := by
  simp only [srData, NoStop, newLog, BufInv, emit]
  split_ifs with h1 h2
  · refine ⟨by simp, ?_, Or.inr ⟨_, h2, rfl⟩, rfl, ?_⟩
    · intro _
      exact le_trans (Nat.mod_le _ _) (by omega)
    · intro hi
      exact ⟨hi.1, hi.2.1, le_trans (Nat.mod_le _ _) (by omega), hi.2.2.2⟩
  · simp
  · simp

theorem srStop_facts (k : Consts) (cb : Option i2c_slave_cb) (e : Event) (w : World) :
    NoStop w (srStop cb e w) ∧
    (srStop cb e w).i2c_slave_rxbuffer = w.i2c_slave_rxbuffer ∧
    (srStop cb e w).i2c_slave_rxbuffer_index ≤ w.i2c_slave_rxbuffer_index ∧
    (srStop cb e w).i2c_error = w.i2c_error ∧
    (BufInv k w → BufInv k (srStop cb e w)) := by
  rcases cb with _ | c
  · simp only [srStop, NoStop, newLog, BufInv, emit]
    split_ifs <;> simp_all
  · cases h : c.on_receive <;> simp only [srStop, NoStop, newLog, BufInv, emit, h] <;>
      split_ifs <;> simp_all

theorem srNack_facts (k : Consts) (e : Event) (w : World) :
    NoStop w (srNack e w) ∧
    (srNack e w).i2c_slave_rxbuffer = w.i2c_slave_rxbuffer ∧
    (srNack e w).i2c_slave_rxbuffer_index = w.i2c_slave_rxbuffer_index ∧
    (srNack e w).i2c_error = w.i2c_error ∧
    (BufInv k w → BufInv k (srNack e w)) := by
  simp only [srNack, NoStop, newLog, BufInv, emits]
  split_ifs <;> simp

/-- The slave role as a whole: it generates no stop condition, keeps the slave rx
cursor within the capacity, stores at most one byte, at an index below the capacity,
leaves the error slot alone and keeps the buffer bounds. -/
theorem slaveRole_facts (k : Consts) (cb : Option i2c_slave_cb) (n : Notification)
    (w : World) :
    NoStop w (slaveRole k cb n w).1 ∧
    (w.i2c_slave_rxbuffer_index ≤ k.I2C_BUFFER_LENGTH →
      (slaveRole k cb n w).1.i2c_slave_rxbuffer_index ≤ k.I2C_BUFFER_LENGTH) ∧
    ((slaveRole k cb n w).1.i2c_slave_rxbuffer = w.i2c_slave_rxbuffer ∨
      ∃ i, i < k.I2C_BUFFER_LENGTH ∧
        (slaveRole k cb n w).1.i2c_slave_rxbuffer = w.i2c_slave_rxbuffer.set i n.data) ∧
    (slaveRole k cb n w).1.i2c_error = w.i2c_error ∧
    (cbBounded k cb → BufInv k w → BufInv k (slaveRole k cb n w).1) := by
  obtain ⟨a1, a2, a3, a4, a5⟩ := slaveAddressed_facts k cb n.event w
  rw [slaveRole_blocks]
  split
  · obtain ⟨b1, b2⟩ := emitAck_facts k (slaveAddressed cb n.event w)
    obtain ⟨c1, c2, c3, c4, c5⟩ :=
      stNack_facts k n.event (emit (I2C_AcknowledgeConfig true) (slaveAddressed cb n.event w))
    obtain ⟨d1, d2, d3, d4, _, d5⟩ := stSend_facts k
      (stNack n.event (emit (I2C_AcknowledgeConfig true) (slaveAddressed cb n.event w)))
    refine ⟨noStop_trans a1 (noStop_trans b1 (noStop_trans c1 d1)), ?_, Or.inl ?_, ?_, ?_⟩
    · intro h
      rw [d3, c3]
      simp only [emit]
      omega
    · rw [d2, c2]; simpa [emit] using a2
    · rw [d4, c4]; simpa [emit] using a4
    · intro hb hi
      exact d5 (c5 (b2 (a5 hb hi)))
  · obtain ⟨b1, b2, b3, b4, b5⟩ := srData_facts k n (slaveAddressed cb n.event w)
    obtain ⟨c1, c2, c3, c4, c5⟩ :=
      srStop_facts k cb n.event (srData k n (slaveAddressed cb n.event w))
    obtain ⟨d1, d2, d3, d4, d5⟩ :=
      srNack_facts k n.event (srStop cb n.event (srData k n (slaveAddressed cb n.event w)))
    refine ⟨noStop_trans a1 (noStop_trans b1 (noStop_trans c1 d1)), ?_, ?_, ?_, ?_⟩
    · intro h
      show (srNack _ _).i2c_slave_rxbuffer_index ≤ _
      rw [d3]
      exact le_trans c3 (b2 (le_trans a3 h))
    · show (srNack _ _).i2c_slave_rxbuffer = _ ∨ ∃ i, _ ∧ (srNack _ _).i2c_slave_rxbuffer = _
      rw [d2, c2, ← a2]
      exact b3
    · show (srNack _ _).i2c_error = _
      rw [d4, c4, b4, a4]
    · intro hb hi
      exact d5 (c5 (b5 (a5 hb hi)))

theorem sbStep_noStop (n : Notification) (w : World) :
    NoStop w (sbStep n w) ∧ (sbStep n w).i2c_error = w.i2c_error := by
  simp only [sbStep, NoStop, newLog, emit]
  split_ifs <;> simp

theorem mtNack_facts (k : Consts) (e : Event) (w : World) :
    (mtNack k e w).i2c_error = (if e.AF then k.I2C_MT_NACK % 256 else w.i2c_error) ∧
    (e.AF = true → I2C_GenerateSTOP true ∈ newLog w (mtNack k e w)) := by
  simp only [mtNack, emit, newLog]
  split_ifs <;> simp_all

theorem mrAddr_noStop (e : Event) (w : World) :
    NoStop w (mrAddr e w) ∧ (mrAddr e w).i2c_error = w.i2c_error := by
  simp only [mrAddr, NoStop, newLog, emit]
  split_ifs <;> simp

theorem mrData_facts (n : Notification) (w : World) :
    (mrData n w).i2c_error = w.i2c_error ∧
    (I2C_GenerateSTOP true ∈ newLog w (mrData n w) → w.i2c_send_stop = true) := by
  simp only [mrData, repeatedStart, newLog, emit, emits]
  split_ifs <;> simp_all [itConfigAll]

theorem mrNack_facts (n : Notification) (w : World) :
    (mrNack n w).i2c_error = w.i2c_error ∧
    (I2C_GenerateSTOP true ∈ newLog w (mrNack n w) ↔
      (n.event.AF = true ∧ w.i2c_send_stop = true)) := by
  simp only [mrNack, repeatedStart, newLog, emit, emits]
  split_ifs <;> simp_all [itConfigAll]

theorem roleStep_prefix (k : Consts) (cb : Option i2c_slave_cb) (n : Notification)
    (w : World) : w.log <+: (roleStep k cb n w).1.log := by
  unfold roleStep
  split
  · exact (masterRole_frame k n w).2.2.2.2.2.2
  · exact (slaveRole_facts k cb n w).1.1

/-- The hardware actions of one invocation: those of the role-specific handling,
then those of the error-flag tests on the event word left by it. -/
theorem handler_newLog (k : Consts) (cb : Option i2c_slave_cb) (n : Notification)
    (w : World) :
    newLog w (I2C_IRQHandler k cb n w) =
      newLog w (roleStep k cb n w).1 ++
        errorActions (if n.event.isSlaveTxNack then {} else n.event) := by
  obtain ⟨d, hd⟩ := roleStep_prefix k cb n w
  rw [handler_eq_roleStep, errorFlags_eq, roleStep_event]
  simp [newLog, ← hd, List.append_assoc]

/-- The blocks of the master role and the field `out_of_bounds`: only the two stores
of the master receiver set it, and nothing clears it. -/
theorem masterRole_oob (k : Consts) (n : Notification) (w : World) :
    (masterRole k n w).out_of_bounds = false → w.out_of_bounds = false := by
  rw [masterRole_blocks]
  have e0 : (sbStep n w).out_of_bounds = w.out_of_bounds := by
    unfold sbStep; split <;> rfl
  split
  · have e1 : (mtSend n.event (sbStep n w)).out_of_bounds = (sbStep n w).out_of_bounds := by
      simp only [mtSend, repeatedStart, emit, emits]
      split_ifs <;> rfl
    have e2 : (mtNack k n.event (mtSend n.event (sbStep n w))).out_of_bounds
        = (mtSend n.event (sbStep n w)).out_of_bounds := by
      simp only [mtNack, emit]
      split_ifs <;> rfl
    rw [e2, e1, e0]
    exact id
  · have e1 : (mrAddr n.event (sbStep n w)).out_of_bounds = (sbStep n w).out_of_bounds := by
      simp only [mrAddr, emit]
      split_ifs <;> rfl
    have e2 : ∀ v : World, (mrData n v).out_of_bounds = false → v.out_of_bounds = false := by
      intro v
      simp only [mrData, repeatedStart, emit, emits]
      split_ifs <;> simp <;> exact fun h _ => h
    have e3 : ∀ v : World, (mrNack n v).out_of_bounds = false → v.out_of_bounds = false := by
      intro v
      simp only [mrNack, repeatedStart, emit, emits]
      split_ifs <;> simp <;> exact fun h _ => h
    intro h
    rw [← e0, ← e1]
    exact e2 _ (e3 _ h)

theorem slaveRole_oob (k : Consts) (cb : Option i2c_slave_cb) (n : Notification)
    (w : World) : (slaveRole k cb n w).1.out_of_bounds = w.out_of_bounds := by
  have e0 : (slaveAddressed cb n.event w).out_of_bounds = w.out_of_bounds := by
    rw [slaveAddressed_eq]
    split_ifs
    · cases cb.bind (fun c => c.on_transmit) <;> rfl
    · rfl
    · rfl
  rw [slaveRole_blocks]
  split
  · rw [← e0]
    simp only [stSend, stNack, emit, emits]
    split_ifs <;> rfl
  · rw [← e0]
    have e1 : ∀ v : World, (srData k n v).out_of_bounds = v.out_of_bounds := by
      intro v; simp only [srData, emit]; split_ifs <;> rfl
    have e2 : ∀ v : World, (srStop cb n.event v).out_of_bounds = v.out_of_bounds := by
      intro v
      cases cb with
      | none => simp only [srStop, emit]; split_ifs <;> rfl
      | some c => cases h : c.on_receive <;> simp only [srStop, emit, h] <;> split_ifs <;> rfl
    have e3 : ∀ v : World, (srNack n.event v).out_of_bounds = v.out_of_bounds := by
      intro v; simp only [srNack, emits]; split_ifs <;> rfl
    show (srNack n.event (srStop cb n.event (srData k n (slaveAddressed cb n.event w)))).out_of_bounds
      = (slaveAddressed cb n.event w).out_of_bounds
    rw [e3, e2, e1]

/-- An invocation that ends with `out_of_bounds` clear started with it clear: the
field records every store outside the master buffer since program start. -/
theorem handler_oob (k : Consts) (cb : Option i2c_slave_cb) (n : Notification) (w : World) :
    (I2C_IRQHandler k cb n w).out_of_bounds = false → w.out_of_bounds = false := by
  rw [handler_eq_roleStep, errorFlags_eq]
  unfold roleStep
  split
  · exact masterRole_oob k n w
  · intro h
    rw [← slaveRole_oob k cb n w]
    exact h

theorem irqs_oob (k : Consts) (cb : Option i2c_slave_cb) :
    ∀ (ns : List Notification) (w : World),
      (irqs k cb ns w).out_of_bounds = false → w.out_of_bounds = false
  | [], _, h => h
  | n :: ns, w, h => by
    rw [irqs_cons] at h
    exact handler_oob k cb n w (irqs_oob k cb ns _ h)

theorem clearFlag_mem_errorActions (e : Event) :
    (e.BERR = true → I2C_ClearFlag RB_I2C_BERR ∈ errorActions e) ∧
    (e.ARLO = true → I2C_ClearFlag RB_I2C_ARLO ∈ errorActions e) ∧
    (e.OVR = true → I2C_ClearFlag RB_I2C_OVR ∈ errorActions e) ∧
    (e.PECERR = true → I2C_ClearFlag RB_I2C_PECERR ∈ errorActions e) ∧
    (e.TIMEOUT = true → I2C_ClearFlag RB_I2C_TIMEOUT ∈ errorActions e) ∧
    (e.SMBALERT = true → I2C_ClearFlag RB_I2C_SMBALERT ∈ errorActions e) := by
  cases h1 : e.BERR <;> cases h2 : e.ARLO <;> cases h3 : e.OVR <;> cases h4 : e.PECERR <;>
    cases h5 : e.TIMEOUT <;> cases h6 : e.SMBALERT <;>
    simp [errorActions, h1, h2, h3, h4, h5, h6]

/-- C15, as the code has it: for every context and every notification other than a
slave transmitter-role acknowledge-failure, in master or slave role and whatever the
role-specific handling did, the invocation ends with the error-flag tests on the
notification: for each of bus-error, arbitration-lost, overrun,
protocol-check-error, timeout and alert that is set, `I2C_ClearFlag` is called with
its mask, bus-error also generates a stop, and the codes are written to the error
slot in that order, so that the slot ends with the code of the last set flag (or
with what the role-specific handling left when none is set). -/
theorem C15_error_flags_checked (k : Consts) (cb : Option i2c_slave_cb) (n : Notification)
    (w : World) (hx : n.event.isSlaveTxNack = false) :
    newLog w (I2C_IRQHandler k cb n w)
      = newLog w (roleStep k cb n w).1 ++ errorActions n.event ∧
    (n.event.BERR = true →
      I2C_ClearFlag RB_I2C_BERR ∈ newLog w (I2C_IRQHandler k cb n w) ∧
      I2C_GenerateSTOP true ∈ newLog w (I2C_IRQHandler k cb n w)) ∧
    (n.event.ARLO = true → I2C_ClearFlag RB_I2C_ARLO ∈ newLog w (I2C_IRQHandler k cb n w)) ∧
    (n.event.OVR = true → I2C_ClearFlag RB_I2C_OVR ∈ newLog w (I2C_IRQHandler k cb n w)) ∧
    (n.event.PECERR = true →
      I2C_ClearFlag RB_I2C_PECERR ∈ newLog w (I2C_IRQHandler k cb n w)) ∧
    (n.event.TIMEOUT = true →
      I2C_ClearFlag RB_I2C_TIMEOUT ∈ newLog w (I2C_IRQHandler k cb n w)) ∧
    (n.event.SMBALERT = true →
      I2C_ClearFlag RB_I2C_SMBALERT ∈ newLog w (I2C_IRQHandler k cb n w)) ∧
    (I2C_IRQHandler k cb n w).i2c_error
      = lastSetFlagCode k n.event (roleStep k cb n w).1.i2c_error := by
  have hlog := handler_newLog k cb n w
  rw [hx] at hlog
  simp only [Bool.false_eq_true, if_false] at hlog
  obtain ⟨m1, m2, m3, m4, m5, m6⟩ := clearFlag_mem_errorActions n.event
  refine ⟨hlog, ?_, ?_, ?_, ?_, ?_, ?_, ?_⟩
  · intro h
    rw [hlog]
    exact ⟨List.mem_append_right _ (m1 h),
      List.mem_append_right _ ((stop_mem_errorActions n.event).2 h)⟩
  · intro h; rw [hlog]; exact List.mem_append_right _ (m2 h)
  · intro h; rw [hlog]; exact List.mem_append_right _ (m3 h)
  · intro h; rw [hlog]; exact List.mem_append_right _ (m4 h)
  · intro h; rw [hlog]; exact List.mem_append_right _ (m5 h)
  · intro h; rw [hlog]; exact List.mem_append_right _ (m6 h)
  · rw [handler_eq_roleStep, errorFlags_eq, roleStep_event, hx]
    simp

/-- Witness of C15: a master notification that carries only bus-error, during a
write in flight. -/
theorem C15_error_flags_checked_witness :
    I2C_ClearFlag RB_I2C_BERR ∈ newLog inFlight (I2C_IRQHandler hdr none nBusError inFlight) ∧
    I2C_GenerateSTOP true ∈ newLog inFlight (I2C_IRQHandler hdr none nBusError inFlight) :=
  (C15_error_flags_checked hdr none nBusError inFlight (by decide)).2.1 (by decide)

/-- C15, counterexample: a slave transmitter notification that carries
acknowledge-failure and bus-error. The handler zeroes its event word on the
acknowledge-failure, so the bus-error flag is neither cleared nor latched and no
stop is generated. -/
theorem C15_error_flags_checked_counterexample :
    nSlaveTxNackBerr.event.BERR = true ∧
    newLog w0 (I2C_IRQHandler hdr none nSlaveTxNackBerr w0)
      = [I2C_AcknowledgeConfig true, I2C_ClearFlag I2C_FLAG_AF, I2C_AcknowledgeConfig true] ∧
    I2C_ClearFlag RB_I2C_BERR ∉ newLog w0 (I2C_IRQHandler hdr none nSlaveTxNackBerr w0) ∧
    I2C_GenerateSTOP true ∉ newLog w0 (I2C_IRQHandler hdr none nSlaveTxNackBerr w0) ∧
    (I2C_IRQHandler hdr none nSlaveTxNackBerr w0).i2c_error = w0.i2c_error ∧
    w0.i2c_error ≠ hdr.I2C_BUS_ERROR := by
  refine ⟨by decide, by decide, by decide, by decide, by decide, by decide⟩

/-- The stop conditions of the master role: the transmitter with
acknowledge-failure always generates one; the receiver generates one only when a
stop was requested, and with acknowledge-failure exactly then. -/
theorem masterRole_stop (k : Consts) (n : Notification) (w : World) :
    (n.event.TRA = true → n.event.AF = true →
      I2C_GenerateSTOP true ∈ newLog w (masterRole k n w)) ∧
    (n.event.TRA = false →
      (I2C_GenerateSTOP true ∈ newLog w (masterRole k n w) → w.i2c_send_stop = true) ∧
      (n.event.AF = true → w.i2c_send_stop = true →
        I2C_GenerateSTOP true ∈ newLog w (masterRole k n w))) := by
  have f0 := sbStep_frame n w
  have s0 := (sbStep_noStop n w).1
  refine ⟨?_, ?_⟩
  · intro hT hF
    rw [masterRole_blocks, if_pos hT]
    have f1 := mtSend_frame n.event (sbStep n w)
    have f2 := mtNack_frame k n.event (mtSend n.event (sbStep n w))
    rw [newLog_append w (mtSend n.event (sbStep n w)) _ (masterFrame_trans f0 f1).2.2.2.2.2.2
      f2.2.2.2.2.2.2]
    exact List.mem_append_right _ ((mtNack_facts k n.event _).2 hF)
  · intro hT
    rw [masterRole_blocks, if_neg (by simp [hT])]
    have f1 := mrAddr_frame n.event (sbStep n w)
    have s1 := (mrAddr_noStop n.event (sbStep n w)).1
    have f2 := mrData_frame n (mrAddr n.event (sbStep n w))
    have f3 := mrNack_frame n (mrData n (mrAddr n.event (sbStep n w)))
    have hsplit := newLog_append w (mrData n (mrAddr n.event (sbStep n w))) _
      (masterFrame_trans (masterFrame_trans f0 f1) f2).2.2.2.2.2.2 f3.2.2.2.2.2.2
    have hsplit2 := newLog_append w (mrAddr n.event (sbStep n w))
      (mrData n (mrAddr n.event (sbStep n w))) (masterFrame_trans f0 f1).2.2.2.2.2.2 f2.2.2.2.2.2.2
    have hss1 : (mrAddr n.event (sbStep n w)).i2c_send_stop = w.i2c_send_stop :=
      (masterFrame_trans f0 f1).2.2.2.2.2.1
    have hss2 : (mrData n (mrAddr n.event (sbStep n w))).i2c_send_stop = w.i2c_send_stop :=
      (masterFrame_trans (masterFrame_trans f0 f1) f2).2.2.2.2.2.1
    refine ⟨?_, ?_⟩
    · intro h
      rw [hsplit, List.mem_append, hsplit2, List.mem_append] at h
      rcases h with (h | h) | h
      · exact absurd h (noStop_trans s0 s1).2
      · rw [← hss1]; exact (mrData_facts n _).2 h
      · rw [← hss2]; exact ((mrNack_facts n _).2.1 h).2
    · intro hF hs
      rw [hsplit]
      exact List.mem_append_right _ ((mrNack_facts n _).2.2 ⟨hF, by rw [hss2]; exact hs⟩)

/-- The acknowledge-failure block of the master receiver when no stop was
requested: the repeated start. -/
theorem mrNack_repstart (n : Notification) (v : World) (hF : n.event.AF = true)
    (hs : v.i2c_send_stop = false) :
    (mrNack n v).i2c_in_repstart = true ∧ (mrNack n v).i2c_state = I2C_READY ∧
    newLog v (mrNack n v)
      = [I2C_ClearFlag I2C_FLAG_AF, I2C_ReceiveData] ++ itConfigAll false
        ++ [I2C_GenerateSTART true] := by
  simp [mrNack, repeatedStart, newLog, emit, emits, hF, hs, itConfigAll]

/-- The master receiver with acknowledge-failure and no stop requested ends with the
repeated start. -/
theorem masterRole_repstart (k : Consts) (n : Notification) (w : World)
    (hT : n.event.TRA = false) (hF : n.event.AF = true) (hs : w.i2c_send_stop = false) :
    (masterRole k n w).i2c_in_repstart = true ∧ (masterRole k n w).i2c_state = I2C_READY ∧
    itConfigAll false ++ [I2C_GenerateSTART true] <:+: newLog w (masterRole k n w) := by
  have f0 := sbStep_frame n w
  have f1 := mrAddr_frame n.event (sbStep n w)
  have f2 := mrData_frame n (mrAddr n.event (sbStep n w))
  have f3 := mrNack_frame n (mrData n (mrAddr n.event (sbStep n w)))
  have hss2 : (mrData n (mrAddr n.event (sbStep n w))).i2c_send_stop = false := by
    rw [(masterFrame_trans (masterFrame_trans f0 f1) f2).2.2.2.2.2.1]; exact hs
  obtain ⟨r1, r2, r3⟩ := mrNack_repstart n _ hF hss2
  have hsplit := newLog_append w (mrData n (mrAddr n.event (sbStep n w)))
    (mrNack n (mrData n (mrAddr n.event (sbStep n w))))
    (masterFrame_trans (masterFrame_trans f0 f1) f2).2.2.2.2.2.2 f3.2.2.2.2.2.2
  rw [masterRole_blocks, if_neg (by simp [hT])]
  refine ⟨r1, r2, ?_⟩
  rw [hsplit, r3]
  exact ⟨newLog w (mrData n (mrAddr n.event (sbStep n w)))
    ++ [I2C_ClearFlag I2C_FLAG_AF, I2C_ReceiveData], [], by simp [List.append_assoc]⟩

/-- C14, as the code has it: stop-forcing policy. For every context and every
notification: (1) bus-error generates a stop, except in a slave transmitter-role
acknowledge-failure, where the handler zeroes its event word first; (2) in the
master transmitter role acknowledge-failure generates a stop; (3) in the master
receiver role with acknowledge-failure, when the invocation ends with no store
outside the master buffer on record, a stop is generated exactly when a stop was
requested (`i2c_send_stop`) or bus-error is set, and when no stop was requested
the repeated start takes place: `i2c_in_repstart` is set, the three interrupt
sources are disabled, a start is generated and the state is `I2C_READY`; (4) in the slave role a stop is generated exactly when bus-error is set
outside a transmitter-role acknowledge-failure, so acknowledge-failure forces none;
(5) with arbitration-lost as only error flag and no acknowledge-failure, the
error-flag tests add the clearing of that flag and nothing else, so a stop is
generated only if the role-specific handling generates one. -/
theorem C14_stop_forcing (k : Consts) (cb : Option i2c_slave_cb) (n : Notification)
    (w : World) :
    (n.event.BERR = true → n.event.isSlaveTxNack = false →
      I2C_GenerateSTOP true ∈ newLog w (I2C_IRQHandler k cb n w)) ∧
    (n.event.MSL = true → n.event.TRA = true → n.event.AF = true →
      I2C_GenerateSTOP true ∈ newLog w (I2C_IRQHandler k cb n w)) ∧
    (n.event.MSL = true → n.event.TRA = false → n.event.AF = true →
      (I2C_IRQHandler k cb n w).out_of_bounds = false →
      w.out_of_bounds = false ∧
      (I2C_GenerateSTOP true ∈ newLog w (I2C_IRQHandler k cb n w) ↔
        (w.i2c_send_stop = true ∨ n.event.BERR = true)) ∧
      (w.i2c_send_stop = false →
        (I2C_IRQHandler k cb n w).i2c_in_repstart = true ∧
        (I2C_IRQHandler k cb n w).i2c_state = I2C_READY ∧
        itConfigAll false ++ [I2C_GenerateSTART true]
          <:+: newLog w (I2C_IRQHandler k cb n w))) ∧
    (n.event.MSL = false →
      (I2C_GenerateSTOP true ∈ newLog w (I2C_IRQHandler k cb n w) ↔
        (n.event.BERR = true ∧ n.event.isSlaveTxNack = false))) ∧
    (n.event.ARLO = true → n.event.AF = false → n.event.BERR = false →
      n.event.OVR = false → n.event.PECERR = false → n.event.TIMEOUT = false →
      n.event.SMBALERT = false →
      newLog w (I2C_IRQHandler k cb n w)
        = newLog w (roleStep k cb n w).1 ++ [I2C_ClearFlag RB_I2C_ARLO] ∧
      (I2C_GenerateSTOP true ∈ newLog w (I2C_IRQHandler k cb n w) ↔
        I2C_GenerateSTOP true ∈ newLog w (roleStep k cb n w).1)) := by
  have hlog := handler_newLog k cb n w
  refine ⟨?_, ?_, ?_, ?_, ?_⟩
  · intro hB hx
    rw [hlog, hx]
    exact List.mem_append_right _ ((stop_mem_errorActions n.event).2 hB)
  · intro hM hT hF
    rw [hlog]
    apply List.mem_append_left
    simp only [roleStep, hM, if_true]
    exact (masterRole_stop k n w).1 hT hF
  · intro hM hT hF hin
    have hx : n.event.isSlaveTxNack = false := by simp [Event.isSlaveTxNack, hM]
    have hrole : (roleStep k cb n w).1 = masterRole k n w := by simp [roleStep, hM]
    refine ⟨handler_oob k cb n w hin, ?_, ?_⟩
    · rw [hlog, hx, List.mem_append, stop_mem_errorActions]
      simp only [roleStep, hM, if_true, Bool.false_eq_true, if_false]
      obtain ⟨h1, h2⟩ := (masterRole_stop k n w).2 hT
      constructor
      · rintro (h | h)
        · exact Or.inl (h1 h)
        · exact Or.inr h
      · rintro (h | h)
        · exact Or.inl (h2 hF h)
        · exact Or.inr h
    · intro hs
      obtain ⟨r1, r2, r3⟩ := masterRole_repstart k n w hT hF hs
      refine ⟨?_, ?_, ?_⟩
      · rw [handler_eq_roleStep, errorFlags_eq, hrole]; exact r1
      · rw [handler_eq_roleStep, errorFlags_eq, hrole]; exact r2
      · rw [hlog, hrole]
        exact List.IsInfix.trans r3 (List.infix_append' [] _ _)
  · intro hM
    rw [hlog, List.mem_append]
    have hns : I2C_GenerateSTOP true ∉ newLog w (roleStep k cb n w).1 := by
      simp only [roleStep, hM, Bool.false_eq_true, if_false]
      exact (slaveRole_facts k cb n w).1.2
    cases hx : n.event.isSlaveTxNack
    · simp only [Bool.false_eq_true, if_false, stop_mem_errorActions]
      constructor
      · rintro (h | h)
        · exact absurd h hns
        · exact ⟨h, trivial⟩
      · exact fun h => Or.inr h.1
    · simp only [if_true]
      constructor
      · rintro (h | h)
        · exact absurd h hns
        · simp [errorActions] at h
      · intro h
        exact absurd h.2 (by simp)
  · intro h1 h2 h3 h4 h5 h6 h7
    have hx : n.event.isSlaveTxNack = false := by simp [Event.isSlaveTxNack, h2]
    rw [hlog, hx]
    simp [errorActions, h1, h3, h4, h5, h6, h7]

/-- Witness of C14: bus-error alone during a write in flight, arbitration-lost on
a transmitter notification, and an acknowledge-failure on a one-byte read armed
without stop, which ends with the repeated start. -/
theorem C14_stop_forcing_witness :
    I2C_GenerateSTOP true ∈ newLog inFlight (I2C_IRQHandler hdr none nBusError inFlight) ∧
    newLog inFlight (I2C_IRQHandler hdr none nTxArlo inFlight)
      = newLog inFlight (roleStep hdr none nTxArlo inFlight).1
        ++ [I2C_ClearFlag RB_I2C_ARLO] ∧
    (I2C_IRQHandler hdr none (nRxNack 7) (readArm hdr 0x40 1 false 0 w0)).out_of_bounds
      = false ∧
    (I2C_IRQHandler hdr none (nRxNack 7) (readArm hdr 0x40 1 false 0 w0)).i2c_in_repstart
      = true :=
  ⟨(C14_stop_forcing hdr none nBusError inFlight).1 (by decide) (by decide),
    ((C14_stop_forcing hdr none nTxArlo inFlight).2.2.2.2 (by decide) (by decide) (by decide)
      (by decide) (by decide) (by decide) (by decide)).1,
    by decide,
    (((C14_stop_forcing hdr none (nRxNack 7) (readArm hdr 0x40 1 false 0 w0)).2.2.1
      (by decide) (by decide) (by decide) (by decide)).2.2 (by decide)).1⟩

/-- C14, counterexample: the acknowledge-failure flag without a stop. In the slave
receiver role the handler clears the flag and re-enables acknowledgment; in the
master receiver role with no stop requested it issues a repeated start. A slave
transmitter-role acknowledge-failure that also carries bus-error generates no stop.
A transmitter notification whose only error flag is arbitration-lost, served when
the last byte has been sent and a stop was requested, generates the stop of the
role-specific handling. A master receiver acknowledge-failure served when the
cursor is at the capacity stores outside the master buffer before the stop request
is read. -/
theorem C14_stop_forcing_counterexample :
    nSlaveRxNack.event.AF = true ∧
    newLog w0 (I2C_IRQHandler hdr none nSlaveRxNack w0)
      = [I2C_ClearFlag I2C_FLAG_AF, I2C_AcknowledgeConfig true] ∧
    I2C_GenerateSTOP true ∉ newLog w0 (I2C_IRQHandler hdr none nSlaveRxNack w0) ∧
    (nRxNack 7).event.AF = true ∧
    I2C_GenerateSTOP true ∉
      newLog (readArm hdr 0x40 1 false 0 w0)
        (I2C_IRQHandler hdr none (nRxNack 7) (readArm hdr 0x40 1 false 0 w0)) ∧
    nSlaveTxNackBerr.event.BERR = true ∧
    I2C_GenerateSTOP true ∉ newLog w0 (I2C_IRQHandler hdr none nSlaveTxNackBerr w0) ∧
    nTxArlo.event.ARLO = true ∧ nTxArlo.event.AF = false ∧ nTxArlo.event.BERR = false ∧
    newLog lastByteSent (I2C_IRQHandler hdr none nTxArlo lastByteSent)
      = [I2C_GenerateSTOP true, I2C_ClearFlag RB_I2C_ARLO] ∧
    afterFullRead.out_of_bounds = false ∧
    afterFullRead.i2c_master_buffer_index = hdr2.I2C_BUFFER_LENGTH ∧
    (I2C_IRQHandler hdr2 none (nRxNack 0xAA) afterFullRead).out_of_bounds = true := by
  refine ⟨by decide, by decide, by decide, by decide, by decide, by decide, by decide,
    by decide, by decide, by decide, by decide, by decide, by decide, by decide⟩

theorem sameRole_trans {a b c : World} (h1 : SameRole a b) (h2 : SameRole b c) :
    SameRole a c := by
  refine ⟨h2.1.trans h1.1, h1.2.1.trans h2.2.1, ?_⟩
  rw [newLog_append a b c h1.2.1 h2.2.1, List.mem_append]
  exact fun h => h.elim h1.2.2 h2.2.2

theorem slave_rest_sameRole (k : Consts) (cb : Option i2c_slave_cb) (n : Notification)
    (w : World) (hF : n.event.AF = false) :
    SameRole w (stSend (stNack n.event (emit (I2C_AcknowledgeConfig true) w))).1 ∧
    SameRole w (srNack n.event (srStop cb n.event (srData k n w))) := by
  have e1 : SameRole w (emit (I2C_AcknowledgeConfig true) w) := by
    simp [SameRole, newLog, emit]
  have e2 : ∀ v : World, SameRole v (stNack n.event v).1 := fun v => by
    simp [SameRole, newLog, stNack, hF]
  have e3 : ∀ r : World × Event, SameRole r.1 (stSend r).1 := fun r => by
    simp only [SameRole, newLog, stSend, emit]
    split_ifs <;> simp
  have e4 : ∀ v : World, SameRole v (srData k n v) := fun v => by
    simp only [SameRole, newLog, srData, emit]
    split_ifs <;> simp
  have e5 : ∀ v : World, SameRole v (srStop cb n.event v) := fun v => by
    rcases cb with _ | c
    · simp only [SameRole, newLog, srStop, emit]
      split_ifs <;> simp
    · cases h : c.on_receive <;> simp only [SameRole, newLog, srStop, emit, h] <;>
        split_ifs <;> simp
  have e6 : ∀ v : World, SameRole v (srNack n.event v) := fun v => by
    simp [SameRole, newLog, srNack, hF]
  exact ⟨sameRole_trans e1 (sameRole_trans (e2 _) (e3 _)),
    sameRole_trans (e4 _) (sameRole_trans (e5 _) (e6 _))⟩

theorem onTransmit_not_mem_errorActions (e : Event) : on_transmit ∉ errorActions e := by
  cases h1 : e.BERR <;> cases h2 : e.ARLO <;> cases h3 : e.OVR <;> cases h4 : e.PECERR <;>
    cases h5 : e.TIMEOUT <;> cases h6 : e.SMBALERT <;>
    simp [errorActions, h1, h2, h3, h4, h5, h6]

/-- C17, as the code has it: slave role selection. For every slave-role notification
with address-matched set, the address-match block selects the transmitter when the
transmitter-role flag or the transmit-register-empty flag is set: it sets `I2C_STX`,
zeroes the tx cursor and the tx length, and invokes `on_transmit` if one is
registered, which then sees length 0 and leaves its own length; the rx cursor is
untouched. Otherwise it sets `I2C_SRX`, resets the rx cursor to 0 and changes
nothing else, so `on_transmit` is not invoked. When the notification carries no
acknowledge-failure, the state after the whole invocation is the selected one and
`on_transmit` has been invoked exactly when the transmitter was selected and a
callback is registered. -/
theorem C17_slave_role_selection (k : Consts) (cb : Option i2c_slave_cb) (n : Notification)
    (w : World) (hM : n.event.MSL = false) (hA : n.event.ADDR = true) :
    ((n.event.TRA || n.event.TxE) = true →
      (slaveAddressed cb n.event w).i2c_state = I2C_STX ∧
      (slaveAddressed cb n.event w).i2c_slave_txbuffer_index = 0 ∧
      (slaveAddressed cb n.event w).i2c_slave_txbuffer_length
        = (match cb.bind (fun c => c.on_transmit) with
            | some f => (f w.i2c_slave_txbuffer 0).2 % 256
            | none => 0) ∧
      (slaveAddressed cb n.event w).i2c_slave_rxbuffer_index = w.i2c_slave_rxbuffer_index ∧
      (on_transmit ∈ newLog w (slaveAddressed cb n.event w) ↔
        (cb.bind (fun c => c.on_transmit)).isSome = true)) ∧
    ((n.event.TRA || n.event.TxE) = false →
      slaveAddressed cb n.event w
        = { w with i2c_state := I2C_SRX, i2c_slave_rxbuffer_index := 0 }) ∧
    (n.event.AF = false →
      (I2C_IRQHandler k cb n w).i2c_state
        = (if (n.event.TRA || n.event.TxE) = true then I2C_STX else I2C_SRX) ∧
      (on_transmit ∈ newLog w (I2C_IRQHandler k cb n w) ↔
        ((n.event.TRA || n.event.TxE) = true ∧
          (cb.bind (fun c => c.on_transmit)).isSome = true))) := by
  have hsel : (n.event.TRA || n.event.TxE) = true →
      (slaveAddressed cb n.event w).i2c_state = I2C_STX ∧
      (slaveAddressed cb n.event w).i2c_slave_txbuffer_index = 0 ∧
      (slaveAddressed cb n.event w).i2c_slave_txbuffer_length
        = (match cb.bind (fun c => c.on_transmit) with
            | some f => (f w.i2c_slave_txbuffer 0).2 % 256
            | none => 0) ∧
      (slaveAddressed cb n.event w).i2c_slave_rxbuffer_index = w.i2c_slave_rxbuffer_index ∧
      (on_transmit ∈ newLog w (slaveAddressed cb n.event w) ↔
        (cb.bind (fun c => c.on_transmit)).isSome = true) := by
    intro hs
    rw [slaveAddressed_eq, if_pos hA, if_pos hs]
    rcases hb : cb.bind (fun c => c.on_transmit) with _ | f <;> simp [newLog]
  have hrx : (n.event.TRA || n.event.TxE) = false →
      slaveAddressed cb n.event w
        = { w with i2c_state := I2C_SRX, i2c_slave_rxbuffer_index := 0 } := by
    intro hs
    rw [slaveAddressed_eq, if_pos hA, if_neg (by simp [hs])]
  refine ⟨hsel, hrx, ?_⟩
  intro hF
  have hx : n.event.isSlaveTxNack = false := by simp [Event.isSlaveTxNack, hF]
  obtain ⟨r1, r2⟩ := slave_rest_sameRole k cb n (slaveAddressed cb n.event w) hF
  have hpre : w.log <+: (slaveAddressed cb n.event w).log :=
    (slaveAddressed_facts k cb n.event w).1.1
  have hlog := handler_newLog k cb n w
  rw [hx] at hlog
  simp only [Bool.false_eq_true, if_false] at hlog
  -- the role-specific handling is the address-match block followed by blocks that
  -- keep the state and do not invoke the callback
  have hrole : (roleStep k cb n w).1.i2c_state = (slaveAddressed cb n.event w).i2c_state ∧
      (on_transmit ∈ newLog w (roleStep k cb n w).1 ↔
        on_transmit ∈ newLog w (slaveAddressed cb n.event w)) := by
    simp only [roleStep, hM, Bool.false_eq_true, if_false, slaveRole_blocks]
    split
    · refine ⟨r1.1, ?_⟩
      rw [newLog_append w (slaveAddressed cb n.event w) _ hpre r1.2.1, List.mem_append]
      exact ⟨fun h => h.elim id (fun h2 => absurd h2 r1.2.2), Or.inl⟩
    · refine ⟨r2.1, ?_⟩
      rw [newLog_append w (slaveAddressed cb n.event w) _ hpre r2.2.1, List.mem_append]
      exact ⟨fun h => h.elim id (fun h2 => absurd h2 r2.2.2), Or.inl⟩
  have hstate : (I2C_IRQHandler k cb n w).i2c_state = (roleStep k cb n w).1.i2c_state := by
    rw [handler_eq_roleStep, errorFlags_eq]
  refine ⟨?_, ?_⟩
  · rw [hstate, hrole.1]
    cases hs : (n.event.TRA || n.event.TxE)
    · rw [hrx hs]; simp
    · rw [(hsel hs).1]; simp
  · rw [hlog, List.mem_append, hrole.2]
    cases hs : (n.event.TRA || n.event.TxE)
    · rw [hrx hs]
      simp [newLog, onTransmit_not_mem_errorActions]
    · rw [(hsel hs).2.2.2.2]
      simp [onTransmit_not_mem_errorActions]

/-- Witness of C17: the transmitter address match delivered by the bus, with
callbacks registered. -/
theorem C17_slave_role_selection_witness :
    (I2C_IRQHandler hdr (some cbExample) nSlaveTxAddr w0).i2c_state
      = (if (nSlaveTxAddr.event.TRA || nSlaveTxAddr.event.TxE) = true then I2C_STX
          else I2C_SRX) ∧
    (on_transmit ∈ newLog w0 (I2C_IRQHandler hdr (some cbExample) nSlaveTxAddr w0) ↔
      ((nSlaveTxAddr.event.TRA || nSlaveTxAddr.event.TxE) = true ∧
        ((some cbExample).bind (fun c => c.on_transmit)).isSome = true)) :=
  (C17_slave_role_selection hdr (some cbExample) nSlaveTxAddr w0 (by decide)
    (by decide)).2.2 (by decide)

/-- C17, counterexample: an address-matched notification with
transmit-register-empty and without the transmitter-role flag enters `I2C_STX` and
invokes `on_transmit`; the rx cursor, which was 1, is not reset. -/
theorem C17_slave_role_selection_counterexample :
    nSlaveAddrTxE.event.MSL = false ∧ nSlaveAddrTxE.event.ADDR = true ∧
    nSlaveAddrTxE.event.TRA = false ∧
    (I2C_IRQHandler hdr (some cbExample) nSlaveAddrTxE oneByteIn).i2c_state = I2C_STX ∧
    on_transmit ∈ newLog oneByteIn (I2C_IRQHandler hdr (some cbExample) nSlaveAddrTxE oneByteIn) ∧
    (I2C_IRQHandler hdr (some cbExample) nSlaveAddrTxE oneByteIn).i2c_slave_rxbuffer_index = 1 := by
  refine ⟨by decide, by decide, by decide, by decide, by decide, by decide⟩

/-- The address byte as the functions compute it (direction first, then the shifted
address or-ed in, in an 8-bit variable) is the shifted address or-ed with the
direction, modulo 256. -/
theorem addr_rw_eq (d a : Nat) :
    ((d % 256) ||| (a <<< 1)) % 256 = ((a <<< 1) ||| d) % 256 := by
  apply Nat.eq_of_testBit_eq
  intro i
  have h256 : (256 : Nat) = 2 ^ 8 := by norm_num
  rw [h256]
  simp only [Nat.testBit_mod_two_pow, Nat.testBit_or]
  cases decide (i < 8) <;> cases d.testBit i <;> cases (a <<< 1).testBit i <;> rfl

/-- For a 7-bit address and a direction bit, shifting the address byte right by one
gives the address back. -/
theorem addr_rw_shift (d a : Nat) (hd : d ≤ 1) (ha : a < 128) :
    (((d % 256) ||| (a <<< 1)) % 256) >>> 1 = a := by
  interval_cases d <;> interval_cases a <;> rfl

/-- Claim C12: a call of `i2c_write_to` (without wait) or `i2c_read_from` in state
Ready with 1 ≤ length ≤ capacity arms the transaction: the write call returns 0
in the armed context, and a read call that times out before any notification is
served returns in the armed context. Whatever the error code held before, in the
armed context the error code is 0, the master cursor is 0, the state is `I2C_MTX`
(write) or `I2C_MRX` (read), the armed length is `length` (write) or `length - 1`
(read), the first `length` bytes of the master buffer are those of `data` (write),
and the pending address is `((address << 1) | direction) mod 256`; with a direction
bit of at most 1 and an address below 128, the pending address shifted right by
one is the address. -/
theorem C12_arming_postcondition (k : Consts) (cb : Option i2c_slave_cb) (a : Nat)
    (data out : List Nat) (len : Nat) (s : Bool) (spins : Nat)
    (pending : List Notification) (w : World)
    (hst : w.i2c_state = I2C_READY) (h1 : 1 ≤ len) (hcap : len ≤ k.I2C_BUFFER_LENGTH)
    (hdata : len ≤ data.length) :
    i2c_write_to k cb a data len false s spins pending w
      = some (0, writeArm k a data len s spins w, pending) ∧
    i2c_read_from k cb a out len s 1 spins [] [[]] w
      = some (0, out, readArm k a len s spins w) ∧
    (writeArm k a data len s spins w).i2c_error = 0 ∧
    (readArm k a len s spins w).i2c_error = 0 ∧
    (writeArm k a data len s spins w).i2c_master_buffer_index = 0 ∧
    (readArm k a len s spins w).i2c_master_buffer_index = 0 ∧
    (writeArm k a data len s spins w).i2c_state = I2C_MTX ∧
    (readArm k a len s spins w).i2c_state = I2C_MRX ∧
    (writeArm k a data len s spins w).i2c_master_buffer_length = len ∧
    ((len ≤ 256 → (readArm k a len s spins w).i2c_master_buffer_length = len - 1) ∧
      (readArm k a len s spins w).i2c_master_buffer_length = (len - 1) % 256) ∧
    (writeArm k a data len s spins w).i2c_master_buffer.take len = data.take len ∧
    (writeArm k a data len s spins w).i2c_slave_addr_rw
      = ((a <<< 1) ||| k.I2C_WRITE) % 256 ∧
    (readArm k a len s spins w).i2c_slave_addr_rw
      = ((a <<< 1) ||| k.I2C_READ) % 256 ∧
    (a < 128 → k.I2C_WRITE ≤ 1 → k.I2C_READ ≤ 1 →
      (writeArm k a data len s spins w).i2c_slave_addr_rw >>> 1 = a ∧
      (readArm k a len s spins w).i2c_slave_addr_rw >>> 1 = a) := by
  obtain ⟨a1, _, a3, a4, a5, a6, a7, _, _⟩ := writeArm_state k a data len s spins w
  obtain ⟨b1, _, b3, b4, b5, _, b7, _, _⟩ := readArm_state k a len s spins w
  have hW : i2c_write_to k cb a data len false s spins pending w
      = some (0, writeArm k a data len s spins w, pending) := by
    have hn1 : ¬ (len > k.I2C_BUFFER_LENGTH) := by omega
    have hn2 : ¬ (w.i2c_state ≠ I2C_READY) := by simp [hst]
    have hn3 : ¬ (len = 0) := by omega
    simp only [i2c_write_to, if_neg hn1, if_neg hn2, if_neg hn3, writeWait_nowait]
    rw [a3]
    simp
  have hR : i2c_read_from k cb a out len s 1 spins [] [[]] w
      = some (0, out, readArm k a len s spins w) := by
    have hn1 : ¬ (len > k.I2C_BUFFER_LENGTH) := by omega
    have hn2 : ¬ (w.i2c_state ≠ I2C_READY) := by simp [hst]
    have hn3 : ¬ (len = 0) := by omega
    have hlt : (readArm k a len s spins w).i2c_master_buffer_index < len := by
      rw [b4]; omega
    have hloop : readLoop k cb (decide ((1 : Int) = -1)) 1 0 [[]]
        (readArm k a len s spins w) = some (readArm k a len s spins w, 1) := by
      simp [readLoop, b1, irqs_nil]
    simp only [i2c_read_from, if_neg hn1, if_neg hn2, if_neg hn3, irqs_nil, hloop,
      readFinish, memcpy, if_pos hlt, b4]
    have hpos : 0 < len := by omega
    simp [hpos]
  refine ⟨hW, hR, a3, b3, a4, b4, a1, b1, a5, ⟨?_, b5⟩, ?_, ?_, ?_, ?_⟩
  · intro h256
    rw [b5]
    exact Nat.mod_eq_of_lt (by omega)
  · rw [a6]
    exact memcpy_take _ data len hdata
  · rw [a7]
    exact addr_rw_eq _ _
  · rw [b7]
    exact addr_rw_eq _ _
  · intro ha hw1 hr1
    rw [a7, b7]
    exact ⟨addr_rw_shift _ _ hw1 ha, addr_rw_shift _ _ hr1 ha⟩

/-- Witness of C12: a two-byte transaction with address 0x40 armed at program
start. -/
theorem C12_arming_postcondition_witness :
    w0.i2c_state = I2C_READY ∧
    i2c_write_to hdr none 0x40 [0xE3, 0x01] 2 false true 0 [nStart] w0
      = some (0, writeArm hdr 0x40 [0xE3, 0x01] 2 true 0 w0, [nStart]) ∧
    (writeArm hdr 0x40 [0xE3, 0x01] 2 true 0 w0).i2c_slave_addr_rw = 0x80 ∧
    (readArm hdr 0x40 2 true 0 w0).i2c_slave_addr_rw = 0x81 ∧
    (readArm hdr 0x40 2 true 0 w0).i2c_master_buffer_length = 1 := by
  have h := C12_arming_postcondition hdr none 0x40 [0xE3, 0x01] [0, 0] 2 true 0 [nStart] w0
    (by decide) (by decide) (by decide) (by decide)
  exact ⟨by decide, h.1, by decide, by decide, by decide⟩

/-- Claim C11 (as amended): for a call in state Ready with 1 ≤ length ≤ capacity,
whenever `i2c_write_to` returns, its result is the negated error code held at the
return, and with wait set it returns as soon as the served notifications have
moved the state out of `I2C_MTX`; `i2c_read_from` never returns the error code:
whenever it returns, its result is the number of bytes received, at least 0 and at
most `length`, and with a finite timeout and enough polling batches it returns. -/
theorem C11_error_result (k : Consts) (cb : Option i2c_slave_cb) (a : Nat)
    (data out : List Nat) (len : Nat) (wait s : Bool) (spins : Nat) (timeout : Int)
    (ns rest pre : List Notification) (polls : List (List Notification)) (w : World)
    (hst : w.i2c_state = I2C_READY) (h1 : 1 ≤ len) (hcap : len ≤ k.I2C_BUFFER_LENGTH) :
    (∀ pending r w1 rest1,
      i2c_write_to k cb a data len wait s spins pending w = some (r, w1, rest1) →
      r = -(w1.i2c_error : Int)) ∧
    ((∀ m, m < ns.length →
        (irqs k cb (ns.take m) (writeArm k a data len s spins w)).i2c_state = I2C_MTX) →
      (irqs k cb ns (writeArm k a data len s spins w)).i2c_state ≠ I2C_MTX →
      i2c_write_to k cb a data len true s spins (ns ++ rest) w
        = some (-((irqs k cb ns (writeArm k a data len s spins w)).i2c_error : Int),
            irqs k cb ns (writeArm k a data len s spins w), rest)) ∧
    (∀ r out1 w1,
      i2c_read_from k cb a out len s timeout spins pre polls w = some (r, out1, w1) →
      r = ((min w1.i2c_master_buffer_index len : Nat) : Int) ∧ 0 ≤ r ∧ r ≤ (len : Int)) ∧
    (timeout ≠ -1 → timeout ≤ 2147483647 → max 1 timeout ≤ (polls.length : Int) →
      ∃ r out1 w1,
        i2c_read_from k cb a out len s timeout spins pre polls w = some (r, out1, w1)) := by
  have hn1 : ¬ (len > k.I2C_BUFFER_LENGTH) := by omega
  have hn2 : ¬ (w.i2c_state ≠ I2C_READY) := by simp [hst]
  have hn3 : ¬ (len = 0) := by omega
  refine ⟨?_, ?_, ?_, ?_⟩
  · intro pending r w1 rest1 h
    simp only [i2c_write_to, if_neg hn1, if_neg hn2, if_neg hn3] at h
    split at h
    · simp at h
    · split at h
      · simp only [Option.some.injEq, Prod.mk.injEq] at h
        rw [← h.1, ← h.2.1]
      · rename_i he
        simp only [Option.some.injEq, Prod.mk.injEq] at h
        have he0 : _ = 0 := not_not.mp he
        rw [← h.1, ← h.2.1, he0]
        simp
  · intro hpre hend
    simp only [i2c_write_to, if_neg hn1, if_neg hn2, if_neg hn3,
      writeWait_run k cb ns rest _ hpre hend]
    split
    · rfl
    · rename_i he
      have he0 : _ = 0 := not_not.mp he
      rw [he0]
      simp
  · intro r out1 w1 h
    simp only [i2c_read_from, if_neg hn1, if_neg hn2, if_neg hn3] at h
    split at h
    · simp at h
    · simp only [Option.some.injEq, Prod.mk.injEq, readFinish] at h
      obtain ⟨hr, _, hw⟩ := h
      rw [← hr, ← hw]
      split
      · rename_i hlt
        rw [Nat.min_eq_left (le_of_lt hlt)]
        exact ⟨rfl, by omega, by omega⟩
      · rename_i hge
        rw [Nat.min_eq_right (by omega)]
        exact ⟨rfl, by omega, by omega⟩
  · intro hfin hmax hlen
    have hdec : decide (timeout = -1) = false := by simp [hfin]
    obtain ⟨r, hr⟩ := readLoop_total k cb timeout polls 0
      (irqs k cb pre (readArm k a len s spins w)) hmax (Or.inr rfl) (by simpa using hlen)
    simp only [i2c_read_from, if_neg hn1, if_neg hn2, if_neg hn3, hdec, hr]
    exact ⟨_, _, _, rfl⟩

/-- Witness of C11: a one-byte write with wait during which a bus error is latched
returns the negated bus-error code. -/
theorem C11_error_result_witness :
    w0.i2c_state = I2C_READY ∧
    (i2c_write_to hdr none 0x40 [0xE3] 1 true true 0
      ([nStart, nBusError, nTx, nTx] ++ [nTx]) w0).map (fun r => (r.1, r.2.2))
      = some (-(hdr.I2C_BUS_ERROR : Int), [nTx]) := by
  have h := (C11_error_result hdr none 0x40 [0xE3] [0] 1 true true 0 (-1)
    [nStart, nBusError, nTx, nTx] [nTx] [] [] w0 (by decide) (by decide) (by decide)).2.1
    (by decide) (by decide)
  refine ⟨by decide, ?_⟩
  rw [h]
  decide

/-- Counterexample to C11 as stated: a three-byte read during which a bus error is
latched returns 0, the number of bytes received, while the error code 5 stays in
the context. -/
theorem C11_error_result_counterexample :
    (i2c_read_from hdr none 0x40 [0, 0, 0] 3 true 2 0 [] [[nStart, nBusError], []] w0).map
      (fun r => (r.1, r.2.1, r.2.2.i2c_error, r.2.2.i2c_state))
      = some (0, [0, 0, 0], hdr.I2C_BUS_ERROR, I2C_MRX) := by
  decide

/-- Claim C19 (evaluation of the code): a stop-detected notification served in the
slave receiver state invokes `on_receive` with the bytes stored and resets the rx
cursor, but leaves the state at `I2C_SRX`; a master `i2c_write_to` or
`i2c_read_from` issued afterwards is rejected with the wrong-state code. -/
theorem C19_stop_keeps_slave_receiver (k : Consts) (c : i2c_slave_cb) (st : Notification)
    (w : World) (a : Nat) (data : List Nat) (len : Nat) (wait s : Bool) (spins : Nat)
    (timeout : Int) (pending pre : List Notification) (polls : List (List Notification))
    (hst : st.event.isSlaveStop = true) (hc : c.on_receive = true)
    (hw : w.i2c_state = I2C_SRX) (hlen : len ≤ k.I2C_BUFFER_LENGTH) :
    receiveCalls (newLog w (I2C_IRQHandler k (some c) st w))
      = [(w.i2c_slave_rxbuffer, w.i2c_slave_rxbuffer_index)] ∧
    (I2C_IRQHandler k (some c) st w).i2c_slave_rxbuffer_index = 0 ∧
    (I2C_IRQHandler k (some c) st w).i2c_state = I2C_SRX ∧
    i2c_write_to k (some c) a data len wait s spins pending (I2C_IRQHandler k (some c) st w)
      = some (-(k.I2C_STATE : Int), I2C_IRQHandler k (some c) st w, pending) ∧
    i2c_read_from k (some c) a data len s timeout spins pre polls
        (I2C_IRQHandler k (some c) st w)
      = some (-(k.I2C_STATE : Int), data, I2C_IRQHandler k (some c) st w) := by
  have hstep := handler_slaveStop k c st w hst hc
  have hstate : (I2C_IRQHandler k (some c) st w).i2c_state = I2C_SRX := by
    rw [hstep]; exact hw
  have hne : (I2C_IRQHandler k (some c) st w).i2c_state ≠ I2C_READY := by
    rw [hstate]; decide
  obtain ⟨hwr, hrd⟩ := wrong_state k (some c) a data len wait s spins timeout pending pre
    polls _ hlen hne
  refine ⟨?_, by rw [hstep], hstate, hwr, hrd⟩
  rw [hstep]
  simp [newLog, receiveCalls]

/-- Witness of C19: after the session address, one byte, stop, served from program
start, the state is `I2C_SRX` and a one-byte write is rejected. -/
theorem C19_stop_keeps_slave_receiver_witness :
    oneByteIn.i2c_state = I2C_SRX ∧
    I2C_IRQHandler hdr (some cbExample) nSlaveStop oneByteIn = afterSlaveSession ∧
    afterSlaveSession.i2c_state = I2C_SRX ∧
    i2c_write_to hdr (some cbExample) 0x40 [0xE3] 1 true true 0 []
        (I2C_IRQHandler hdr (some cbExample) nSlaveStop oneByteIn)
      = some (-(hdr.I2C_STATE : Int), I2C_IRQHandler hdr (some cbExample) nSlaveStop oneByteIn,
          []) :=
  ⟨by decide, by decide, by decide,
    (C19_stop_keeps_slave_receiver hdr cbExample nSlaveStop oneByteIn 0x40 [0xE3] 1 true true
      0 (-1) [] [] [] (by decide) (by decide) (by decide) (by decide)).2.2.2.1⟩

/-- Claim C20 (evaluation of the code): a one-byte read whose address phase is
followed by an acknowledge-failure notification returns to Ready with
`is_nack_sent` still set; the three-byte read issued next is ended by the
handler after its second byte and returns 2, while the same read issued at
program start returns 3. -/
theorem C20_nack_flag_left_set :
    w0.is_nack_sent = false ∧
    i2c_read_from hdr none 0x40 [0] 1 true (-1) 0 [] [[nStart, nRxAddr, nRxNack 8]] w0
      = some (1, [8], afterNackRead) ∧
    afterNackRead.i2c_state = I2C_READY ∧
    afterNackRead.is_nack_sent = true ∧
    (readArm hdr 0x40 3 true 0 afterNackRead).is_nack_sent = true ∧
    (i2c_read_from hdr none 0x40 [0, 0, 0] 3 true (-1) 0 []
        [[nStart, nRxAddr, nRx 1, nRx 2], [nRx 3]] afterNackRead).map
      (fun r => (r.1, r.2.1, r.2.2.i2c_state, r.2.2.i2c_master_buffer_index))
      = some (2, [1, 2, 0], I2C_READY, 2) ∧
    (i2c_read_from hdr none 0x40 [0, 0, 0] 3 true (-1) 0 []
        [[nStart, nRxAddr, nRx 1, nRx 2], [nRx 3]] w0).map
      (fun r => (r.1, r.2.1, r.2.2.i2c_state, r.2.2.i2c_master_buffer_index))
      = some (3, [1, 2, 3], I2C_READY, 3) := by
  refine ⟨by decide, by decide, by decide, by decide, by decide, by decide, by decide⟩

/-- On a notification that carries none of the flags the role-specific handling
tests, that handling does nothing. -/
theorem roleStep_errorOnly (k : Consts) (cb : Option i2c_slave_cb) (n : Notification)
    (w : World) (h : n.event.isErrorOnly = true) : roleStep k cb n w = (w, n.event) := by
  simp only [Event.isErrorOnly, Bool.and_eq_true, Bool.not_eq_true'] at h
  obtain ⟨⟨⟨⟨⟨⟨⟨h1, h2⟩, h3⟩, h4⟩, h5⟩, h6⟩, h7⟩, h8⟩ := h
  cases hM : n.event.MSL <;>
    simp [roleStep, masterRole, masterReceiver, slaveRole, slaveAddressed, slaveReceiver,
      hM, h1, h2, h3, h4, h5, h6, h7, h8]

/-- Claim C21: for every context and every notification that carries none of
start-sent, address-matched, byte-transfer-complete, receive-data-available,
transmit-register-empty, stop-detected, acknowledge-failure and transmitter-role,
with or without master-active, the handler changes, of the context, the error code
only: the context after it is the one before with the error code of the last set
error flag (unchanged when no error flag is set) and with the clearing of the set
error flags (and the stop of bus-error) added to the hardware log. The state, the
three buffers, their cursors and lengths, the pending address, the repeated-start
flag and the no-ack-pending flag are unchanged, so a transaction in `I2C_MTX` or
`I2C_MRX` stays there and a write with wait keeps waiting. -/
theorem C21_error_only_frame (k : Consts) (cb : Option i2c_slave_cb) (n : Notification)
    (w : World) (ns : List Notification) (h : n.event.isErrorOnly = true) :
    I2C_IRQHandler k cb n w
      = { w with
          i2c_error := lastSetFlagCode k n.event w.i2c_error
          log := w.log ++ errorActions n.event } ∧
    (I2C_IRQHandler k cb n w).i2c_state = w.i2c_state ∧
    (I2C_IRQHandler k cb n w).i2c_master_buffer = w.i2c_master_buffer ∧
    (I2C_IRQHandler k cb n w).i2c_master_buffer_index = w.i2c_master_buffer_index ∧
    (I2C_IRQHandler k cb n w).i2c_master_buffer_length = w.i2c_master_buffer_length ∧
    (I2C_IRQHandler k cb n w).i2c_slave_txbuffer = w.i2c_slave_txbuffer ∧
    (I2C_IRQHandler k cb n w).i2c_slave_txbuffer_index = w.i2c_slave_txbuffer_index ∧
    (I2C_IRQHandler k cb n w).i2c_slave_txbuffer_length = w.i2c_slave_txbuffer_length ∧
    (I2C_IRQHandler k cb n w).i2c_slave_rxbuffer = w.i2c_slave_rxbuffer ∧
    (I2C_IRQHandler k cb n w).i2c_slave_rxbuffer_index = w.i2c_slave_rxbuffer_index ∧
    (I2C_IRQHandler k cb n w).i2c_slave_addr_rw = w.i2c_slave_addr_rw ∧
    (I2C_IRQHandler k cb n w).i2c_send_stop = w.i2c_send_stop ∧
    (I2C_IRQHandler k cb n w).i2c_in_repstart = w.i2c_in_repstart ∧
    (I2C_IRQHandler k cb n w).is_nack_sent = w.is_nack_sent ∧
    ((n.event.BERR = false ∧ n.event.ARLO = false ∧ n.event.OVR = false ∧
        n.event.PECERR = false ∧ n.event.TIMEOUT = false ∧ n.event.SMBALERT = false) →
      (I2C_IRQHandler k cb n w).i2c_error = w.i2c_error) ∧
    (w.i2c_state = I2C_MTX →
      (I2C_IRQHandler k cb n w).i2c_state = I2C_MTX ∧
      writeWait k cb true (n :: ns) w = writeWait k cb true ns (I2C_IRQHandler k cb n w)) ∧
    (w.i2c_state = I2C_MRX → (I2C_IRQHandler k cb n w).i2c_state = I2C_MRX) := by
  have hstep : I2C_IRQHandler k cb n w
      = { w with
          i2c_error := lastSetFlagCode k n.event w.i2c_error
          log := w.log ++ errorActions n.event } := by
    rw [handler_eq_roleStep, errorFlags_eq, roleStep_errorOnly k cb n w h]
  refine ⟨hstep, by rw [hstep], by rw [hstep], by rw [hstep], by rw [hstep], by rw [hstep],
    by rw [hstep], by rw [hstep], by rw [hstep], by rw [hstep], by rw [hstep], by rw [hstep],
    by rw [hstep], by rw [hstep], ?_, ?_, ?_⟩
  · rintro ⟨e1, e2, e3, e4, e5, e6⟩
    rw [hstep]
    simp [lastSetFlagCode, e1, e2, e3, e4, e5, e6]
  · intro hs
    refine ⟨by rw [hstep]; exact hs, ?_⟩
    simp [writeWait, hs]
  · intro hs
    rw [hstep]; exact hs

/-- Witness of C21: a master notification with bus-error and timeout during a
write in flight leaves the timeout code, and the state stays `I2C_MTX`. -/
theorem C21_error_only_frame_witness :
    nBerrTimeout.event.isErrorOnly = true ∧
    I2C_IRQHandler hdr none nBerrTimeout inFlight
      = { inFlight with
          i2c_error := hdr.I2C_TIMEOUT
          log := inFlight.log ++ [I2C_ClearFlag RB_I2C_BERR, I2C_GenerateSTOP true,
            I2C_ClearFlag RB_I2C_TIMEOUT] } ∧
    (I2C_IRQHandler hdr none nBerrTimeout inFlight).i2c_state = I2C_MTX := by
  have h := C21_error_only_frame hdr none nBerrTimeout inFlight [] (by decide)
  exact ⟨by decide, by rw [h.1]; decide, (h.2.2.2.2.2.2.2.2.2.2.2.2.2.2.2.1 (by decide)).1⟩

theorem crcRound_lt (c : Nat) : crcRound c < 256 := by
  unfold crcRound
  split <;> exact Nat.mod_lt _ (by norm_num)

set_option maxRecDepth 4000 in
/-- Eight rounds send a byte to 0 only when it is 0. -/
theorem crcRounds_eq_zero : ∀ x, x < 256 → (Nat.iterate crcRound 8 x = 0 ↔ x = 0) := by
  decide

theorem crcByte_lt (c b : Nat) : crcByte c b < 256 := by
  unfold crcByte
  rw [show (8 : Nat) = 7 + 1 from rfl, Function.iterate_succ_apply']
  exact crcRound_lt _

theorem crc8_lt (data : List Nat) (len : Nat) : _crc8 data len < 256 := by
  unfold _crc8
  rcases List.eq_nil_or_concat (data.take len) with h | ⟨l, b, h⟩
  · rw [h]; simp
  · rw [h, List.concat_eq_append, List.foldl_append]
    exact crcByte_lt _ _

theorem crc8_snoc (d : List Nat) (b : Nat) :
    _crc8 (d ++ [b]) (d.length + 1) = crcByte (_crc8 d d.length) b := by
  simp [_crc8, List.take_append]

/-- The truncated update of `_crc8` is the 8-bit shift xor-ed with 0x31. -/
theorem crc_update_trunc (crc : Nat) :
    ((crc <<< 1) ^^^ 0x131) % 256 = ((crc <<< 1) % 256) ^^^ 0x31 := by
  apply Nat.eq_of_testBit_eq
  intro i
  have h256 : (256 : Nat) = 2 ^ 8 := by norm_num
  rw [h256]
  simp only [Nat.testBit_mod_two_pow, Nat.testBit_xor]
  by_cases hi : i < 8
  · have hc : Nat.testBit 0x131 i = Nat.testBit 0x31 i := by
      interval_cases i <;> rfl
    simp [hi, hc]
  · have hc : Nat.testBit 0x31 i = false := by
      apply Nat.testBit_lt_two_pow
      exact lt_of_lt_of_le (by norm_num : 0x31 < 2 ^ 8) (Nat.pow_le_pow_right (by norm_num) (by omega))
    simp [hi, hc]

/-- A three-byte frame passes the test `_crc8(buf, 2) == buf[2]` exactly when the
checksum of the three bytes is 0. -/
theorem crc8_frame (b0 b1 b2 : Nat) (h2 : b2 < 256) :
    _crc8 [b0, b1, b2] 2 = b2 ↔ _crc8 [b0, b1, b2] 3 = 0 := by
  have hs := crc8_snoc [b0, b1] b2
  have h3 : _crc8 [b0, b1, b2] 3 = crcByte (_crc8 [b0, b1] 2) b2 := by simpa using hs
  have h2e : _crc8 [b0, b1, b2] 2 = _crc8 [b0, b1] 2 := by simp [_crc8]
  have hc := crc8_lt [b0, b1] 2
  rw [h3, h2e]
  unfold crcByte
  have hx : _crc8 [b0, b1] 2 ^^^ b2 < 256 := Nat.xor_lt_two_pow (n := 8) hc h2
  rw [Nat.mod_eq_of_lt hx, crcRounds_eq_zero _ hx]
  constructor
  · intro h; rw [h, Nat.xor_self]
  · intro h
    have := congrArg (fun x => x ^^^ b2) h
    simpa [Nat.xor_assoc] using this

/-- Claim C22: for every byte sequence `d`, the checksum of `d` followed by its
checksum is 0; the update `(crc << 1) ^ 0x131` truncated to 8 bits is
`((crc << 1) mod 256) ^ 0x31`; a 3-byte frame whose third element is a byte passes
the test `_crc8(buf, 2) == buf[2]` of the sensor code exactly when
`_crc8(buf, 3)` is 0; the checksum of the one-byte message 0xDC is 0x79. -/
theorem C22_crc8_residue (d buf : List Nat) (crc : Nat) (hlen : buf.length = 3)
    (hb : buf.getD 2 0 < 256) :
    _crc8 (d ++ [_crc8 d d.length]) (d.length + 1) = 0 ∧
    ((crc <<< 1) ^^^ 0x131) % 256 = ((crc <<< 1) % 256) ^^^ 0x31 ∧
    (crc &&& 0x80 ≠ 0 → crcRound crc = ((crc <<< 1) % 256) ^^^ 0x31) ∧
    (_crc8 buf 2 = buf.getD 2 0 ↔ _crc8 buf 3 = 0) ∧
    (∀ wr2 rd2 buf2 temp humi,
      (sht20_read_temp_humi 0 3 buf wr2 rd2 buf2 temp humi).1 ≠ -3 ↔ _crc8 buf 3 = 0) ∧
    _crc8 [0xDC] 1 = 0x79 := by
  have hframe : _crc8 buf 2 = buf.getD 2 0 ↔ _crc8 buf 3 = 0 := by
    match buf, hlen, hb with
    | [b0, b1, b2], _, hb => exact crc8_frame b0 b1 b2 (by simpa using hb)
  refine ⟨?_, crc_update_trunc crc, ?_, hframe, ?_, by decide⟩
  · rw [crc8_snoc]
    unfold crcByte
    rw [Nat.xor_self]
    decide
  · intro h
    unfold crcRound
    rw [if_pos h]
    exact crc_update_trunc crc
  · intro wr2 rd2 buf2 temp humi
    rw [← hframe]
    unfold sht20_read_temp_humi
    by_cases hc : _crc8 buf 2 = buf.getD 2 0
    · simp only [hc, ne_eq, not_true_eq_false, if_false, iff_true]
      split_ifs <;> simp
    · have hne : _crc8 buf 2 ≠ buf.getD 2 0 := hc
      simp only [ne_eq, not_true_eq_false, if_false, if_pos hne, hc, iff_false, not_not,
        not_false_eq_true, if_true]

/-- Witness of C22: the frame 0x68, 0x3A, 0x7C passes the test and its three-byte
checksum is 0. -/
theorem C22_crc8_residue_witness :
    _crc8 ([0x68, 0x3A] ++ [_crc8 [0x68, 0x3A] 2]) 3 = 0 ∧
    (_crc8 [0x68, 0x3A, 0x7C] 2 = 0x7C ↔ _crc8 [0x68, 0x3A, 0x7C] 3 = 0) ∧
    _crc8 [0x68, 0x3A, 0x7C] 2 = 0x7C :=
  ⟨(C22_crc8_residue [0x68, 0x3A] [0x68, 0x3A, 0x7C] 0x80 (by decide) (by decide)).1,
    (C22_crc8_residue [0x68, 0x3A] [0x68, 0x3A, 0x7C] 0x80 (by decide) (by decide)).2.2.2.1,
    by decide⟩

/-- Clearing the two low bits of a 16-bit value rounds it down to a multiple of 4. -/
theorem and_fffc (z : Nat) (hz : z < 65536) : z &&& 0xFFFC = z / 4 * 4 := by
  have e : z / 4 * 4 = (z >>> 2) <<< 2 := by
    rw [Nat.shiftLeft_eq, Nat.shiftRight_eq_div_pow]
  rw [e]
  apply Nat.eq_of_testBit_eq
  intro i
  simp only [Nat.testBit_and, Nat.testBit_shiftLeft, Nat.testBit_shiftRight]
  by_cases h2 : i < 2
  · have hm : Nat.testBit 0xFFFC i = false := by interval_cases i <;> rfl
    have hd : decide (i ≥ 2) = false := by simp; omega
    rw [hm, hd]; simp
  · by_cases h16 : i < 16
    · have hm : Nat.testBit 0xFFFC i = true := by interval_cases i <;> first | omega | rfl
      have hd : decide (i ≥ 2) = true := by simp; omega
      have hi : 2 + (i - 2) = i := by omega
      rw [hm, hd, hi]; simp
    · have hzb : z.testBit i = false := by
        apply Nat.testBit_lt_two_pow
        exact lt_of_lt_of_le (by norm_num; exact hz)
          (Nat.pow_le_pow_right (by norm_num) (by omega : 16 ≤ i))
      have hd : decide (i ≥ 2) = true := by simp; omega
      have hi : 2 + (i - 2) = i := by omega
      rw [hd, hi, hzb]; simp

/-- The raw value of a frame: the first two bytes, high byte first, rounded down to
a multiple of 4. -/
theorem sht20_raw_eq (buf : List Nat) :
    sht20_raw buf = (256 * (buf.getD 0 0 % 256) + buf.getD 1 0 % 256) / 4 * 4 := by
  have hx : buf.getD 0 0 % 256 < 256 := Nat.mod_lt _ (by norm_num)
  have hy : buf.getD 1 0 % 256 < 2 ^ 8 := Nat.mod_lt _ (by norm_num)
  have hor : (buf.getD 0 0 % 256) <<< 8 ||| buf.getD 1 0 % 256
      = 256 * (buf.getD 0 0 % 256) + buf.getD 1 0 % 256 := by
    rw [Nat.shiftLeft_eq, Nat.mul_comm]
    exact (Nat.mul_add_lt_is_or hy _).symm
  have hlt : 256 * (buf.getD 0 0 % 256) + buf.getD 1 0 % 256 < 65536 := by
    have : buf.getD 1 0 % 256 < 256 := hy
    omega
  unfold sht20_raw
  rw [hor, Nat.mod_eq_of_lt hlt, and_fffc _ hlt]

theorem int32_cast_id (x : Int) (h0 : -2147483648 ≤ x) (h1 : x < 2147483648) :
    int32_cast x = x := by
  unfold int32_cast
  rw [Int.emod_eq_of_lt (by linarith) (by linarith)]
  ring

theorem int16_cast_id (x : Int) (h0 : -32768 ≤ x) (h1 : x < 32768) :
    int16_cast x = x := by
  unfold int16_cast
  rw [Int.emod_eq_of_lt (by linarith) (by linarith)]
  ring

theorem sht20_temp_eq (raw : Nat) (h : raw < 65536) :
    sht20_temp raw = 17572 * (raw : Int) / 65536 - 4685 := by
  have hr0 : (0 : Int) ≤ (raw : Int) := Int.ofNat_nonneg raw
  have hr1 : (raw : Int) < 65536 := by exact_mod_cast h
  have hp0 : (0 : Int) ≤ (raw : Int) * 17572 := by linarith
  have hp1 : (raw : Int) * 17572 < 2147483648 := by linarith
  have hq0 : (0 : Int) ≤ (raw : Int) * 17572 / 65536 := Int.ediv_nonneg hp0 (by norm_num)
  have hq1 : (raw : Int) * 17572 / 65536 < 17572 :=
    Int.ediv_lt_of_lt_mul (by norm_num) (by linarith)
  unfold sht20_temp
  rw [int32_cast_id _ (by linarith) hp1, Int.shiftRight_eq_div_pow]
  have h16 : ((2 ^ 16 : Nat) : Int) = 65536 := by norm_num
  rw [h16, int16_cast_id _ (by linarith) (by linarith), mul_comm]

theorem sht20_humi_eq (raw : Nat) (h : raw < 65536) :
    sht20_humi raw = 12500 * (raw : Int) / 65536 - 600 := by
  have hr0 : (0 : Int) ≤ (raw : Int) := Int.ofNat_nonneg raw
  have hr1 : (raw : Int) < 65536 := by exact_mod_cast h
  have hp0 : (0 : Int) ≤ (raw : Int) * 12500 := by linarith
  have hp1 : (raw : Int) * 12500 < 2147483648 := by linarith
  have hq0 : (0 : Int) ≤ (raw : Int) * 12500 / 65536 := Int.ediv_nonneg hp0 (by norm_num)
  have hq1 : (raw : Int) * 12500 / 65536 < 12500 :=
    Int.ediv_lt_of_lt_mul (by norm_num) (by linarith)
  unfold sht20_humi
  rw [int32_cast_id _ (by linarith) hp1, Int.shiftRight_eq_div_pow]
  have h16 : ((2 ^ 16 : Nat) : Int) = 65536 := by norm_num
  rw [h16, int16_cast_id _ (by linarith) (by linarith), mul_comm]

/-- Claim C23: for every accepted 3-byte frame (driver calls succeeded, three
bytes read, checksum test passed), with `raw` the first two bytes, high byte
first, rounded down to a multiple of 4 (the two status bits cleared), the stored
temperature is `floor(17572 * raw / 65536) - 4685` and the stored humidity is
`floor(12500 * raw / 65536) - 600`. For every such 16-bit `raw` (at most 65532)
the 32-bit products do not overflow, the results lie in [-4685, 12885] and
[-600, 11899], so the conversion to `int16_t` loses nothing, and both are
non-decreasing in `raw`. -/
theorem C23_sensor_conversion (buf1 buf2 : List Nat) (temp humi : Int) (raw raw' : Nat)
    (h1 : _crc8 buf1 2 = buf1.getD 2 0) (h2 : _crc8 buf2 2 = buf2.getD 2 0)
    (hr : raw ≤ raw') (hr' : raw' ≤ 65532) :
    (sht20_raw buf1 = (256 * (buf1.getD 0 0 % 256) + buf1.getD 1 0 % 256) / 4 * 4 ∧
      sht20_raw buf1 % 4 = 0 ∧ sht20_raw buf1 ≤ 65532) ∧
    sht20_read_temp_humi 0 3 buf1 0 3 buf2 temp humi
      = (0, 17572 * (sht20_raw buf1 : Int) / 65536 - 4685,
          12500 * (sht20_raw buf2 : Int) / 65536 - 600) ∧
    (∀ wr2 rd2 b2, (sht20_read_temp_humi 0 3 buf1 wr2 rd2 b2 temp humi).2.1
      = 17572 * (sht20_raw buf1 : Int) / 65536 - 4685) ∧
    (0 ≤ (raw' : Int) * 17572 ∧ (raw' : Int) * 17572 < 2147483648 ∧
      int32_cast ((raw' : Int) * 17572) = (raw' : Int) * 17572 ∧
      0 ≤ (raw' : Int) * 12500 ∧ (raw' : Int) * 12500 < 2147483648 ∧
      int32_cast ((raw' : Int) * 12500) = (raw' : Int) * 12500) ∧
    (sht20_temp raw' = 17572 * (raw' : Int) / 65536 - 4685 ∧
      -4685 ≤ sht20_temp raw' ∧ sht20_temp raw' ≤ 12885) ∧
    (sht20_humi raw' = 12500 * (raw' : Int) / 65536 - 600 ∧
      -600 ≤ sht20_humi raw' ∧ sht20_humi raw' ≤ 11899) ∧
    (int16_cast (17572 * (raw' : Int) / 65536 - 4685) = 17572 * (raw' : Int) / 65536 - 4685 ∧
      int16_cast (12500 * (raw' : Int) / 65536 - 600) = 12500 * (raw' : Int) / 65536 - 600) ∧
    sht20_temp raw ≤ sht20_temp raw' ∧ sht20_humi raw ≤ sht20_humi raw' := by
  have hr0 : (0 : Int) ≤ (raw' : Int) := Int.ofNat_nonneg raw'
  have hr1 : (raw' : Int) ≤ 65532 := by exact_mod_cast hr'
  have hrr : (raw : Int) ≤ (raw' : Int) := by exact_mod_cast hr
  have ht0 : (0 : Int) ≤ 17572 * (raw' : Int) / 65536 :=
    Int.ediv_nonneg (by linarith) (by norm_num)
  have ht1 : 17572 * (raw' : Int) / 65536 < 17571 :=
    Int.ediv_lt_of_lt_mul (by norm_num) (by linarith)
  have hh0 : (0 : Int) ≤ 12500 * (raw' : Int) / 65536 :=
    Int.ediv_nonneg (by linarith) (by norm_num)
  have hh1 : 12500 * (raw' : Int) / 65536 < 12500 :=
    Int.ediv_lt_of_lt_mul (by norm_num) (by linarith)
  have hte := sht20_temp_eq raw' (by omega)
  have hhe := sht20_humi_eq raw' (by omega)
  have hraw : ∀ buf : List Nat, sht20_raw buf % 4 = 0 ∧ sht20_raw buf ≤ 65532 ∧
      sht20_raw buf < 65536 := by
    intro buf
    have hx : buf.getD 0 0 % 256 < 256 := Nat.mod_lt _ (by norm_num)
    have hy : buf.getD 1 0 % 256 < 256 := Nat.mod_lt _ (by norm_num)
    rw [sht20_raw_eq]
    omega
  have hfun : ∀ wr2 rd2 b2, (sht20_read_temp_humi 0 3 buf1 wr2 rd2 b2 temp humi).2.1
      = 17572 * (sht20_raw buf1 : Int) / 65536 - 4685 := by
    intro wr2 rd2 b2
    rw [← sht20_temp_eq _ (hraw buf1).2.2]
    unfold sht20_read_temp_humi
    simp only [ne_eq, not_true_eq_false, if_false, h1]
    split_ifs <;> rfl
  refine ⟨⟨sht20_raw_eq buf1, (hraw buf1).1, (hraw buf1).2.1⟩, ?_, hfun,
    ⟨by linarith, by linarith, int32_cast_id _ (by linarith) (by linarith),
      by linarith, by linarith, int32_cast_id _ (by linarith) (by linarith)⟩,
    ⟨hte, by rw [hte]; linarith, by rw [hte]; linarith⟩,
    ⟨hhe, by rw [hhe]; linarith, by rw [hhe]; linarith⟩,
    ⟨int16_cast_id _ (by linarith) (by linarith), int16_cast_id _ (by linarith) (by linarith)⟩,
    ?_, ?_⟩
  · rw [← sht20_temp_eq _ (hraw buf1).2.2, ← sht20_humi_eq _ (hraw buf2).2.2]
    unfold sht20_read_temp_humi
    simp [h1, h2]
  · rw [hte, sht20_temp_eq raw (by omega)]
    have : 17572 * (raw : Int) / 65536 ≤ 17572 * (raw' : Int) / 65536 :=
      Int.ediv_le_ediv (by norm_num) (by linarith)
    linarith
  · rw [hhe, sht20_humi_eq raw (by omega)]
    have : 12500 * (raw : Int) / 65536 ≤ 12500 * (raw' : Int) / 65536 :=
      Int.ediv_le_ediv (by norm_num) (by linarith)
    linarith

/-- Witness of C23: the frames 0x68 0x3A 0x7C and 0x4E 0x85 0x6B give 24.68
degrees and 32.33 percent; the largest raw value gives the upper ends of the two
ranges. -/
theorem C23_sensor_conversion_witness :
    _crc8 [0x68, 0x3A, 0x7C] 2 = 0x7C ∧ _crc8 [0x4E, 0x85, 0x6B] 2 = 0x6B ∧
    sht20_raw [0x68, 0x3A, 0x7C] = 0x6838 ∧
    sht20_read_temp_humi 0 3 [0x68, 0x3A, 0x7C] 0 3 [0x4E, 0x85, 0x6B] 0 0 = (0, 2468, 3233) ∧
    sht20_temp 65532 = 12885 ∧ sht20_humi 65532 = 11899 ∧
    sht20_temp 0x6838 ≤ sht20_temp 65532 := by
  have h := C23_sensor_conversion [0x68, 0x3A, 0x7C] [0x4E, 0x85, 0x6B] 0 0 0x6838 65532
    (by decide) (by decide) (by decide) (by decide)
  refine ⟨by decide, by decide, by decide, ?_, by decide, by decide, h.2.2.2.2.2.2.2.1⟩
  rw [h.2.1]
  decide

theorem getD_set_ne (l : List Nat) (i j v : Nat) (h : i ≠ j) :
    (l.set i v).getD j 0 = l.getD j 0 := by
  simp [List.getD_eq_getElem?_getD, List.getElem?_set, h]

theorem getD_set_eq (l : List Nat) (i v : Nat) (h : i < l.length) :
    (l.set i v).getD i 0 = v := by
  simp [List.getD_eq_getElem?_getD, List.getElem?_set, h]

/-- A sequence of stores at indices other than `j` leaves the element at `j` and the
length of the array as they are. -/
theorem foldl_set_frame (f g : Nat → Nat) (j : Nat) :
    ∀ (is : List Nat) (a : List Nat), (∀ i ∈ is, f i ≠ j) →
      ((is.foldl (fun a i => a.set (f i) (g i)) a).getD j 0 = a.getD j 0 ∧
        (is.foldl (fun a i => a.set (f i) (g i)) a).length = a.length)
  | [], a, _ => ⟨rfl, rfl⟩
  | i :: is, a, h => by
    obtain ⟨h1, h2⟩ := foldl_set_frame f g j is (a.set (f i) (g i))
      (fun x hx => h x (List.mem_cons_of_mem _ hx))
    rw [List.foldl_cons, h1, h2, getD_set_ne _ _ _ _ (h i (List.mem_cons_self _ _))]
    exact ⟨rfl, List.length_set _ _ _⟩

/-- The stores of `update_advert_device_name` outside the name part: the array
after the call, at an index outside 3..17, is the array before it with the five
stores at the indices 23, 25, 26, 27 and 28. -/
theorem update_name_frame (name : List Nat) (b t h : Nat) (ad : List Nat) (j : Nat)
    (hj : j < 3 ∨ 18 ≤ j) :
    (update_advert_device_name name b t h ad).getD j 0
      = (((((ad.set 23 (b % 256)).set 25 (t &&& 0xFF)).set 26 ((t >>> 8) &&& 0xFF)).set 27
          (h &&& 0xFF)).set 28 ((h >>> 8) &&& 0xFF)).getD j 0 ∧
    (update_advert_device_name name b t h ad).length = ad.length := by
  have e1 := foldl_set_frame (fun i => NAME_PKG_DATA_IDX + i) (fun i => name.getD i 0) j
    (List.range (if name.length > 13 then 13 else name.length))
    ((ad.set NAME_PKG_LEN_IDX 13).set NAME_PKG_TYPE_IDX 0x09)
    (by
      intro i hi
      rw [List.mem_range] at hi
      have : i < 13 := by split_ifs at hi <;> omega
      simp only [NAME_PKG_DATA_IDX]
      omega)
  have e2 := foldl_set_frame (fun i => NAME_PKG_DATA_IDX + i) (fun _ => 0x20) j
    (List.range' (if name.length > 13 then 13 else name.length)
      (13 - (if name.length > 13 then 13 else name.length)))
    ((List.range (if name.length > 13 then 13 else name.length)).foldl
      (fun a i => a.set (NAME_PKG_DATA_IDX + i) (name.getD i 0))
      ((ad.set NAME_PKG_LEN_IDX 13).set NAME_PKG_TYPE_IDX 0x09))
    (by
      intro i hi
      rw [List.mem_range'_1] at hi
      simp only [NAME_PKG_DATA_IDX]
      omega)
  have e0 : (((ad.set NAME_PKG_LEN_IDX 13).set NAME_PKG_TYPE_IDX 0x09)).getD j 0 = ad.getD j 0 := by
    rw [getD_set_ne _ _ _ _ (by simp only [NAME_PKG_TYPE_IDX]; omega),
      getD_set_ne _ _ _ _ (by simp only [NAME_PKG_LEN_IDX]; omega)]
  have hg : ∀ (x y : List Nat), x.getD j 0 = y.getD j 0 → x.length = y.length →
      ∀ i v, (x.set i v).getD j 0 = (y.set i v).getD j 0 ∧
        (x.set i v).length = (y.set i v).length := by
    intro x y hxy hl i v
    refine ⟨?_, by simp [hl]⟩
    by_cases hij : i = j
    · subst hij
      by_cases hi : i < x.length
      · rw [getD_set_eq _ _ _ hi, getD_set_eq _ _ _ (hl ▸ hi)]
      · rw [List.set_eq_of_length_le (by omega), List.set_eq_of_length_le (by omega)]
        exact hxy
    · rw [getD_set_ne _ _ _ _ hij, getD_set_ne _ _ _ _ hij]
      exact hxy
  have hbase : ∀ x : List Nat, x.getD j 0 = ad.getD j 0 → x.length = ad.length →
      ((((((x.set 23 (b % 256)).set 25 (t &&& 0xFF)).set 26 ((t >>> 8) &&& 0xFF)).set 27
          (h &&& 0xFF)).set 28 ((h >>> 8) &&& 0xFF)).getD j 0
        = (((((ad.set 23 (b % 256)).set 25 (t &&& 0xFF)).set 26 ((t >>> 8) &&& 0xFF)).set 27
          (h &&& 0xFF)).set 28 ((h >>> 8) &&& 0xFF)).getD j 0) := by
    intro x hx hl
    obtain ⟨a1, a2⟩ := hg _ _ hx hl 23 (b % 256)
    obtain ⟨b1, b2⟩ := hg _ _ a1 a2 25 (t &&& 0xFF)
    obtain ⟨c1, c2⟩ := hg _ _ b1 b2 26 ((t >>> 8) &&& 0xFF)
    obtain ⟨d1, d2⟩ := hg _ _ c1 c2 27 (h &&& 0xFF)
    exact (hg _ _ d1 d2 28 ((h >>> 8) &&& 0xFF)).1
  refine ⟨?_, ?_⟩
  · exact hbase _ (by rw [e2.1, e1.1, e0]) (by rw [e2.2, e1.2]; simp)
  · simp only [update_advert_device_name, List.length_set]
    rw [e2.2, e1.2]
    simp

/-- Claim C24 (evaluation of the code): for every name, battery percentage `b`,
temperature `t`, humidity `h` and every 31-byte content of `advertData`, after
`update_advert_device_name` the flags bytes 0-2, the UUID bytes 20-21 and the
version byte 22 are unchanged, but the stores go to the offsets 23, 25, 26, 27 and
28: offset 23, which held the object identifier 0x01, holds `b`; offset 24 keeps
its placeholder; offsets 25 and 26 hold the low and high byte of `t`, so the
identifier 0x02 at offset 25 is overwritten; offsets 27 and 28 hold the low and
high byte of `h`, so the identifier 0x03 at offset 28 is overwritten; offsets 29
and 30 keep their placeholders. -/
theorem C24_payload_update (name : List Nat) (b t h : Nat) (ad : List Nat)
    (hlen : ad.length = 31) :
    (update_advert_device_name name b t h ad).length = 31 ∧
    (update_advert_device_name name b t h ad).getD 0 0 = ad.getD 0 0 ∧
    (update_advert_device_name name b t h ad).getD 1 0 = ad.getD 1 0 ∧
    (update_advert_device_name name b t h ad).getD 2 0 = ad.getD 2 0 ∧
    (update_advert_device_name name b t h ad).getD 20 0 = ad.getD 20 0 ∧
    (update_advert_device_name name b t h ad).getD 21 0 = ad.getD 21 0 ∧
    (update_advert_device_name name b t h ad).getD 22 0 = ad.getD 22 0 ∧
    (update_advert_device_name name b t h ad).getD 23 0 = b % 256 ∧
    (update_advert_device_name name b t h ad).getD 24 0 = ad.getD 24 0 ∧
    (update_advert_device_name name b t h ad).getD 25 0 = t &&& 0xFF ∧
    (update_advert_device_name name b t h ad).getD 26 0 = (t >>> 8) &&& 0xFF ∧
    (update_advert_device_name name b t h ad).getD 27 0 = h &&& 0xFF ∧
    (update_advert_device_name name b t h ad).getD 28 0 = (h >>> 8) &&& 0xFF ∧
    (update_advert_device_name name b t h ad).getD 29 0 = ad.getD 29 0 ∧
    (update_advert_device_name name b t h ad).getD 30 0 = ad.getD 30 0 := by
  have hf := fun j hj => (update_name_frame name b t h ad j hj).1
  refine ⟨by rw [(update_name_frame name b t h ad 0 (Or.inl (by norm_num))).2, hlen],
    ?_, ?_, ?_, ?_, ?_, ?_, ?_, ?_, ?_, ?_, ?_, ?_, ?_, ?_⟩
  · rw [hf 0 (by omega)]; simp [List.getD_eq_getElem?_getD, List.getElem?_set]
  · rw [hf 1 (by omega)]; simp [List.getD_eq_getElem?_getD, List.getElem?_set]
  · rw [hf 2 (by omega)]; simp [List.getD_eq_getElem?_getD, List.getElem?_set]
  · rw [hf 20 (by omega)]; simp [List.getD_eq_getElem?_getD, List.getElem?_set]
  · rw [hf 21 (by omega)]; simp [List.getD_eq_getElem?_getD, List.getElem?_set]
  · rw [hf 22 (by omega)]; simp [List.getD_eq_getElem?_getD, List.getElem?_set]
  · rw [hf 23 (by omega)]; simp [List.getD_eq_getElem?_getD, List.getElem?_set, hlen]
  · rw [hf 24 (by omega)]; simp [List.getD_eq_getElem?_getD, List.getElem?_set]
  · rw [hf 25 (by omega)]; simp [List.getD_eq_getElem?_getD, List.getElem?_set, hlen]
  · rw [hf 26 (by omega)]; simp [List.getD_eq_getElem?_getD, List.getElem?_set, hlen]
  · rw [hf 27 (by omega)]; simp [List.getD_eq_getElem?_getD, List.getElem?_set, hlen]
  · rw [hf 28 (by omega)]; simp [List.getD_eq_getElem?_getD, List.getElem?_set, hlen]
  · rw [hf 29 (by omega)]; simp [List.getD_eq_getElem?_getD, List.getElem?_set]
  · rw [hf 30 (by omega)]; simp [List.getD_eq_getElem?_getD, List.getElem?_set]

/-- Witness of C24: the update with 50 percent, 25.00 degrees (2500) and 60.00
percent (6000) of the initial array; the service data after the version byte reads
0x32 0x00 0xC4 0x09 0x70 0x17 0x00 0x00, with none of the identifiers 0x01, 0x02,
0x03 left. -/
theorem C24_payload_update_witness :
    (advertData 0x01 0x06).length = 31 ∧
    (advertData 0x01 0x06).drop 22 = [0x40, 0x01, 0x00, 0x02, 0x00, 0x00, 0x03, 0x00, 0x00] ∧
    (update_advert_device_name nameExample 50 2500 6000 (advertData 0x01 0x06)).drop 22
      = [0x40, 0x32, 0x00, 0xC4, 0x09, 0x70, 0x17, 0x00, 0x00] ∧
    (update_advert_device_name nameExample 50 2500 6000 (advertData 0x01 0x06)).getD 23 0
      = 50 % 256 ∧
    (update_advert_device_name nameExample 50 2500 6000 (advertData 0x01 0x06)).getD 28 0
      = (6000 >>> 8) &&& 0xFF :=
  ⟨by decide, by decide, by decide,
    (C24_payload_update nameExample 50 2500 6000 (advertData 0x01 0x06) (by decide)).2.2.2.2.2.2.2.1,
    (C24_payload_update nameExample 50 2500 6000 (advertData 0x01 0x06)
      (by decide)).2.2.2.2.2.2.2.2.2.2.2.2.1⟩

/-- The truncating division of `update_advert_data` in terms of the flooring one:
the quotient is rounded toward zero on both sides of 3100. -/
theorem battery_quotient (bat : Nat) :
    ((bat : Int) - 3100).tdiv 8
      = if 3100 ≤ bat then ((bat : Int) - 3100) / 8 else -((3100 - (bat : Int)) / 8) := by
  split
  · rename_i h
    have : (0 : Int) ≤ (bat : Int) - 3100 := by omega
    exact Int.tdiv_eq_ediv this (by norm_num)
  · rename_i h
    have h0 : (0 : Int) ≤ 3100 - (bat : Int) := by omega
    have e : (bat : Int) - 3100 = -(3100 - (bat : Int)) := by ring
    rw [e, Int.neg_tdiv, Int.tdiv_eq_ediv h0 (by norm_num)]

/-- Claim C25 (evaluation of the code): for every 16-bit sample `bat` the
percentage computed in `update_advert_data`, which is stored at the battery index
of the array, is at most 100; it is
`(bat - 3100) / 8` from 3100 to 3899, 100 from 3900 to 5147, and 0 from 3093 to
3100. Below 3093 the quotient is negative and the cast to `uint8_t` wraps: from
1853 to 3092 the percentage is 100. From 5148 on the quotient exceeds 255 and
wraps as well: from 5148 to 5155 the percentage is 0. So the percentage is not a
non-decreasing function of `bat`. -/
theorem C25_battery_percent (bat : Nat) (sht20 : Int × Int × Int) (name : List Nat)
    (ad : List Nat) (hb : bat < 65536) (hlen : ad.length = 31) :
    (update_advert_data sht20 bat name ad).getD BTH_PKG_BAT_IDX 0 = battery_percent bat ∧
    battery_percent bat ≤ 100 ∧
    (3100 ≤ bat → bat < 3900 → battery_percent bat = (bat - 3100) / 8) ∧
    (3900 ≤ bat → bat ≤ 5147 → battery_percent bat = 100) ∧
    (3093 ≤ bat → bat ≤ 3100 → battery_percent bat = 0) ∧
    (1853 ≤ bat → bat ≤ 3092 → battery_percent bat = 100) ∧
    (5148 ≤ bat → bat ≤ 5155 → battery_percent bat = 0) := by
  have hq := battery_quotient bat
  have hm : bat % 65536 = bat := Nat.mod_eq_of_lt hb
  have hstore :
      (update_advert_data sht20 bat name ad).getD BTH_PKG_BAT_IDX 0 = battery_percent bat := by
    unfold update_advert_data
    simp only [BTH_PKG_BAT_IDX]
    rw [(update_name_frame name _ _ _ ad 23 (by omega)).1]
    have h100 : battery_percent bat ≤ 100 := by
      unfold battery_percent
      simp only
      split_ifs <;> omega
    simp [List.getD_eq_getElem?_getD, List.getElem?_set, hlen]
    omega
  refine ⟨hstore, ?_⟩
  unfold battery_percent
  by_cases h : 3100 ≤ bat
  · rw [if_pos h] at hq
    simp only [hm, hq]
    refine ⟨?_, ?_, ?_, ?_, ?_, ?_⟩
    · split_ifs <;> omega
    · intro h1 h2
      split_ifs <;> omega
    · intro h1 h2
      split_ifs <;> omega
    · intro h1 h2
      split_ifs <;> omega
    · intro h1 h2
      omega
    · intro h1 h2
      split_ifs <;> omega
  · rw [if_neg h] at hq
    simp only [hm, hq]
    refine ⟨?_, ?_, ?_, ?_, ?_, ?_⟩
    · split_ifs <;> omega
    · intro h1 h2
      omega
    · intro h1 h2
      omega
    · intro h1 h2
      split_ifs <;> omega
    · intro h1 h2
      split_ifs <;> omega
    · intro h1 h2
      omega

/-- Witness of C25: 3000 millivolts give 100 percent and 3100 millivolts give 0
percent; 5148 millivolts give 0 percent. -/
theorem C25_battery_percent_witness :
    battery_percent 3000 = 100 ∧ battery_percent 3100 = 0 ∧ battery_percent 5148 = 0 ∧
    battery_percent 3900 = 100 ∧ battery_percent 3500 = (3500 - 3100) / 8 ∧
    ¬ (battery_percent 3000 ≤ battery_percent 3100) :=
  ⟨(C25_battery_percent 3000 (0, 0, 0) [] (advertData 1 6) (by decide)
      (by decide)).2.2.2.2.2.1 (by decide) (by decide),
    (C25_battery_percent 3100 (0, 0, 0) [] (advertData 1 6) (by decide)
      (by decide)).2.2.2.2.1 (by decide) (by decide),
    (C25_battery_percent 5148 (0, 0, 0) [] (advertData 1 6) (by decide)
      (by decide)).2.2.2.2.2.2 (by decide) (by decide),
    (C25_battery_percent 3900 (0, 0, 0) [] (advertData 1 6) (by decide)
      (by decide)).2.2.2.1 (by decide) (by decide),
    (C25_battery_percent 3500 (0, 0, 0) [] (advertData 1 6) (by decide)
      (by decide)).2.2.1 (by decide) (by decide),
    by decide⟩

end Broadcaster
